import Mathlib

/-!
BrilliantSnapcast: the message codec and the client.

A shallow embedding of `include/BrilliantSnapcast/Message.hpp`,
`MessageType.hpp`, `MessageConv.hpp`, `TcpClient.hpp` and `SnapClient.hpp`, and of
`doHandshake`, `send` and `read` of the earlier client in `src/snapclient.cpp`.

* A `std::span<std::byte>` is the list of its bytes.
* A raw pointer is a `Ptr`: the memory it points into and an offset in it.  A
  call of the codec writes one range of memory, its destination.  A pointer
  into the array that holds the destination reads what that array holds when
  the copy is made; a pointer into any other array reads that array's bytes.
* `std::memcpy` is `load` (the bytes read) followed by `store` (the bytes
  written).  A copy that leaves its array, a copy between ranges that share a
  byte, and `std::unreachable()`, have undefined behaviour in the source; here
  they end the run with a `Fault`.
* Integers are natural numbers; a `std::uint32_t` field holds a value below
  `2 ^ 32`, a `std::uint16_t` field one below `2 ^ 16`.
* A coroutine is the function from what it is given, the socket and the clock
  reading to what it returns, the buffer and the socket afterwards.
-/

namespace Snapcast

/-! ## Bytes, memory and `memcpy` -/

/-- One `std::byte`. -/
abbrev Byte := Fin 256

/-- The object representation of an unsigned integer that is `width` bytes wide,
least significant byte first.  The expected byte strings of
`TestMessageConv.cpp` fix this byte order for the `memcpy` of an integer. -/
def toLE : Nat → Nat → List Byte
  | 0, _ => []
  | width + 1, n => ⟨n % 256, Nat.mod_lt n (by decide)⟩ :: toLE width (n / 256)

/-- The unsigned integer whose object representation is the given bytes, least
significant byte first. -/
def fromLE : List Byte → Nat
  | [] => 0
  | b :: bs => b.val + 256 * fromLE bs

/-- The ways a run of the codec leaves defined behaviour. -/
inductive Fault where
  /-- A `memcpy` reads the byte at `index` of an array that has no such byte. -/
  | readOutOfBounds (index : Nat)
  /-- A `memcpy` writes the byte at `index` of an array that has no such byte. -/
  | writeOutOfBounds (index : Nat)
  /-- `std::unreachable()` is executed. -/
  | unreachable
  /-- A `memcpy` reads and writes the byte at `index` of one array: its source and
  its destination overlap. -/
  | overlap (index : Nat)
  deriving DecidableEq, Repr

deriving instance DecidableEq for Except

/-- The memory a raw pointer points into.  A call of `write` or of `send` writes
one range of memory, its destination (the span it is given); all other memory
it only reads. -/
inductive Region where
  /-- Memory no byte of which is written while the pointer is used, given by its
  bytes: an array other than the one that holds the destination, or a span that
  is only read. -/
  | array (bytes : List Byte)
  /-- The array that holds the destination, from its start on: `before` are the
  bytes of the array in front of the destination; the bytes of the destination
  follow them, whatever they are when the pointer is used. -/
  | destination (before : List Byte)
  deriving DecidableEq, Repr

/-- The bytes of the memory while the destination holds `dst`. -/
def Region.bytes (mem : Region) (dst : List Byte) : List Byte :=
  match mem with
  | .array bytes => bytes
  | .destination before => before ++ dst

/-- The memory as a callee sees it that is given the destination without its
first bytes (`buffer.subspan(n)`): the bytes `skipped`, as they are at the call,
are in front of the callee's destination. -/
def Region.past (mem : Region) (skipped : List Byte) : Region :=
  match mem with
  | .array bytes => .array bytes
  | .destination before => .destination (before ++ skipped)

/-- A raw pointer (`const char*`, `const std::byte*`): the memory pointed into and
the offset of the pointee from the start of that memory. -/
structure Ptr where
  mem : Region
  off : Nat
  deriving DecidableEq, Repr

/-- The same pointer, for a callee that is given the destination without its first
bytes. -/
def Ptr.past (p : Ptr) (skipped : List Byte) : Ptr :=
  { mem := p.mem.past skipped, off := p.off }

/-- The read half of `std::memcpy(&x, mem + off, n)`: the `n` bytes
`mem[off], ..., mem[off + n - 1]`. -/
def load (mem : List Byte) (off n : Nat) : Except Fault (List Byte) :=
  if off + n ≤ mem.length then .ok ((mem.drop off).take n)
  else .error (.readOutOfBounds (max off mem.length))

/-- The write half of `std::memcpy(mem + off, src, n)`: `mem` with the bytes
`src` stored at `off, ..., off + n - 1`. -/
def store (mem : List Byte) (off : Nat) (src : List Byte) : Except Fault (List Byte) :=
  if off + src.length ≤ mem.length then
    .ok (mem.take off ++ src ++ mem.drop (off + src.length))
  else .error (.writeOutOfBounds (max off mem.length))

/-- The call `std::memcpy(dst + dstOff, src, n)` for a source given by a pointer,
`dst` being the destination as it is at the call.  The source bytes are read
from memory as it is then: for a pointer into the array that holds the
destination, from that array with `dst` in it.  The behaviour is undefined when
the source range and the destination range share a byte. -/
def memcpy (dst : List Byte) (dstOff : Nat) (src : Ptr) (n : Nat) :
    Except Fault (List Byte) := do
  let bytes ← load (src.mem.bytes dst) src.off n
  match src.mem with
  | .array _ => store dst dstOff bytes
  | .destination before =>
    let first := before.length + dstOff
    if 0 < n ∧ src.off < first + n ∧ first < src.off + n then
      .error (.overlap (max src.off first))
    else store dst dstOff bytes

/-- The bytes a view `(pointer, size)` covers while the destination holds `dst`,
when the view lies within its array. -/
def Ptr.viewIn (p : Ptr) (dst : List Byte) (size : Nat) : Option (List Byte) :=
  if p.off + size ≤ (p.mem.bytes dst).length then
    some (((p.mem.bytes dst).drop p.off).take size)
  else none

/-- The bytes a view `(pointer, size)` covers, for a pointer into an array that is
not written, when the view lies within the array (`none` for a pointer into the
array that holds the destination: what it covers is `Ptr.viewIn`). -/
def Ptr.view (p : Ptr) (size : Nat) : Option (List Byte) :=
  match p.mem with
  | .array bytes =>
    if p.off + size ≤ bytes.length then some ((bytes.drop p.off).take size) else none
  | .destination _ => none

/-! ## `MessageType.hpp` -/

/-- The type `enum class MessageType : std::uint16_t`: a value of the underlying
type. -/
abbrev MessageType := Nat

@[match_pattern]
def MessageType.BASE : MessageType := 0
@[match_pattern]
def MessageType.CODEC_HEADER : MessageType := 1
@[match_pattern]
def MessageType.WIRE_CHUNK : MessageType := 2
@[match_pattern]
def MessageType.SERVER_SETTINGS : MessageType := 3
@[match_pattern]
def MessageType.TIME : MessageType := 4
@[match_pattern]
def MessageType.HELLO : MessageType := 5
@[match_pattern]
def MessageType.CLIENT_INFO : MessageType := 6
@[match_pattern]
def MessageType.ERROR : MessageType := 7

/-! ## `Message.hpp` -/

/-- The packed `struct Time`. -/
structure Time where
  sec : Nat
  usec : Nat
  deriving DecidableEq, Repr

/-- The packed `struct Base`. -/
structure Base where
  type : MessageType
  id : Nat
  refersTo : Nat
  sent : Time
  received : Time
  size : Nat
  deriving DecidableEq, Repr

/-- The `struct JsonMessage`, the base of `Hello`, `ServerSettings` and
`ClientInfo`, which add no member. -/
structure JsonMessage where
  payload : Ptr
  size : Nat
  deriving DecidableEq, Repr

/-- The `struct WireChunk`. -/
structure WireChunk where
  timestamp : Time
  payload : Ptr
  size : Nat
  deriving DecidableEq, Repr

/-- The `struct CodecHeader`. -/
structure CodecHeader where
  codecSize : Nat
  size : Nat
  codec : Ptr
  payload : Ptr
  deriving DecidableEq, Repr

/-- The `struct Error`. -/
structure Error where
  errorCode : Nat
  errorSize : Nat
  error : Ptr
  errorMessageSize : Nat
  errorMessage : Ptr
  deriving DecidableEq, Repr

/-- The alias `using Message = std::variant<Hello, ServerSettings, ClientInfo, Time,
WireChunk, CodecHeader, Error>`. -/
inductive Message where
  | Hello (msg : JsonMessage)
  | ServerSettings (msg : JsonMessage)
  | ClientInfo (msg : JsonMessage)
  | Time (msg : Time)
  | WireChunk (msg : WireChunk)
  | CodecHeader (msg : CodecHeader)
  | Error (msg : Error)
  deriving DecidableEq, Repr

/-- The constructor `JsonMessage(std::string_view p)`, the view `p` given by
`p.data()` and `p.size()`. -/
def JsonMessage.ofView (data : Ptr) (size : Nat) : JsonMessage :=
  { payload := data, size := size % 2 ^ 32 }

/-- The constructor `WireChunk(std::span<std::byte, Extent> p)`, the span `p` given
by `p.data()` and `p.size()`. -/
def WireChunk.ofView (data : Ptr) (size : Nat) : WireChunk :=
  { timestamp := { sec := 0, usec := 0 }, payload := data, size := size % 2 ^ 32 }

/-- The constructor `CodecHeader(std::string_view c, std::span<std::byte, Extent> p)`,
each view given by its `data()` and `size()`. -/
def CodecHeader.ofViews (cData : Ptr) (cSize : Nat) (pData : Ptr) (pSize : Nat) :
    CodecHeader :=
  { codecSize := cSize % 2 ^ 32, size := pSize % 2 ^ 32, codec := cData, payload := pData }

/-- The constructor `Error(uint32_t ec, std::string_view err, std::string_view errMsg)`,
each view given by its `data()` and `size()`. -/
def Error.ofViews (ec : Nat) (errData : Ptr) (errSize : Nat) (msgData : Ptr)
    (msgSize : Nat) : Error :=
  { errorCode := ec, errorSize := errSize % 2 ^ 32, error := errData,
    errorMessageSize := msgSize % 2 ^ 32, errorMessage := msgData }

/-- The constructor `JsonMessage(std::string_view p)` for a view of the whole of an
array `p` that is not written: `JsonMessage.ofView ⟨p, 0⟩ p.length`. -/
def JsonMessage.ofString (p : List Byte) : JsonMessage :=
  { payload := ⟨.array p, 0⟩, size := p.length % 2 ^ 32 }

/-- The constructor `WireChunk(std::span<std::byte, Extent> p)` for a span that is
the whole of an array `p` that is not written. -/
def WireChunk.ofSpan (p : List Byte) : WireChunk :=
  { timestamp := ⟨0, 0⟩, payload := ⟨.array p, 0⟩, size := p.length % 2 ^ 32 }

/-- The constructor `CodecHeader(std::string_view c, std::span<std::byte, Extent> p)`
for views of the whole of two arrays `c` and `p` that are not written. -/
def CodecHeader.ofParts (c p : List Byte) : CodecHeader :=
  { codecSize := c.length % 2 ^ 32, size := p.length % 2 ^ 32,
    codec := ⟨.array c, 0⟩, payload := ⟨.array p, 0⟩ }

/-- The constructor `Error(uint32_t ec, std::string_view err, std::string_view errMsg)`
for views of the whole of two arrays `err` and `errMsg` that are not written. -/
def Error.ofParts (ec : Nat) (err errMsg : List Byte) : Error :=
  { errorCode := ec, errorSize := err.length % 2 ^ 32, error := ⟨.array err, 0⟩,
    errorMessageSize := errMsg.length % 2 ^ 32, errorMessage := ⟨.array errMsg, 0⟩ }

/-- The message as a callee sees it that is given the destination without its
first bytes: each pointer member by `Ptr.past`. -/
def Message.past (message : Message) (skipped : List Byte) : Message :=
  match message with
  | .Hello msg => .Hello { msg with payload := msg.payload.past skipped }
  | .ServerSettings msg => .ServerSettings { msg with payload := msg.payload.past skipped }
  | .ClientInfo msg => .ClientInfo { msg with payload := msg.payload.past skipped }
  | .Time msg => .Time msg
  | .WireChunk msg => .WireChunk { msg with payload := msg.payload.past skipped }
  | .CodecHeader msg =>
    .CodecHeader { msg with codec := msg.codec.past skipped,
                            payload := msg.payload.past skipped }
  | .Error msg =>
    .Error { msg with error := msg.error.past skipped,
                      errorMessage := msg.errorMessage.past skipped }

/-- The object representation of a `Time`: `sizeof(Time) = 8`, packed. -/
def Time.bytes (t : Time) : List Byte :=
  toLE 4 t.sec ++ toLE 4 t.usec

/-- The `Time` whose object representation is the given 8 bytes. -/
def Time.ofBytes (raw : List Byte) : Time :=
  { sec := fromLE (raw.take 4), usec := fromLE ((raw.drop 4).take 4) }

/-- The object representation of a `Base`: `sizeof(Base) = 26`, packed. -/
def Base.bytes (b : Base) : List Byte :=
  toLE 2 b.type ++ toLE 2 b.id ++ toLE 2 b.refersTo ++ b.sent.bytes ++ b.received.bytes
    ++ toLE 4 b.size

/-- The `Base` whose object representation is the given 26 bytes. -/
def Base.ofBytes (raw : List Byte) : Base :=
  { type := fromLE (raw.take 2),
    id := fromLE ((raw.drop 2).take 2),
    refersTo := fromLE ((raw.drop 4).take 2),
    sent := Time.ofBytes ((raw.drop 6).take 8),
    received := Time.ofBytes ((raw.drop 14).take 8),
    size := fromLE ((raw.drop 22).take 4) }

/-! ## `MessageConv.hpp` -/

/-- The overload `void read(std::span<std::byte, Extent> buffer, Time& time)`.  Its
`static_assert` on a fixed `Extent` is checked when compiling; a span of dynamic
extent, as here, passes it whatever its length. -/
def readTime (buffer : List Byte) : Except Fault Time := do
  let raw ← load buffer 0 8
  pure (Time.ofBytes raw)

/-- The overload `void read(std::span<std::byte, Extent> buffer, Base& base)`. -/
def readBase (buffer : List Byte) : Except Fault Base := do
  let raw ← load buffer 0 26
  pure (Base.ofBytes raw)

/-- The overload `void read(std::span<std::byte, Extent> buffer, T& t)` for `T` derived from
`JsonMessage`. -/
def readJson (buffer : List Byte) : Except Fault JsonMessage := do
  let size ← load buffer 0 4
  pure { size := fromLE size, payload := ⟨.array buffer, 4⟩ }

/-- The function `auto read(std::span<std::byte, Extent> buffer, MessageType type) -> Message`:
the `switch` over `type`, whose `BASE` and `default` cases are `std::unreachable()`.
The pointers in the message returned point into the span read, which `read`
does not write: the array of its bytes. -/
def read (buffer : List Byte) (type : MessageType) : Except Fault Message :=
  match type with
  | MessageType.HELLO => do
    let hello ← readJson buffer
    pure (.Hello hello)
  | MessageType.SERVER_SETTINGS => do
    let settings ← readJson buffer
    pure (.ServerSettings settings)
  | MessageType.CLIENT_INFO => do
    let info ← readJson buffer
    pure (.ClientInfo info)
  | MessageType.TIME => do
    let time ← readTime buffer
    pure (.Time time)
  | MessageType.WIRE_CHUNK => do
    let timestamp ← readTime buffer
    let data := 8
    let size ← load buffer data 4
    pure (.WireChunk { timestamp := timestamp, size := fromLE size,
                       payload := ⟨.array buffer, data + 4⟩ })
  | MessageType.CODEC_HEADER => do
    let data := 0
    let codecSize ← load buffer data 4
    let data := data + 4
    let codec : Ptr := ⟨.array buffer, data⟩
    let data := data + fromLE codecSize
    let size ← load buffer data 4
    let data := data + 4
    pure (.CodecHeader { codecSize := fromLE codecSize, codec := codec, size := fromLE size,
                         payload := ⟨.array buffer, data⟩ })
  | MessageType.ERROR => do
    let data := 0
    let errorCode ← load buffer data 4
    let data := data + 4
    let errorSize ← load buffer data 4
    let data := data + 4
    let error : Ptr := ⟨.array buffer, data⟩
    let data := data + fromLE errorSize
    let errorMessageSize ← load buffer data 4
    let data := data + 4
    pure (.Error { errorCode := fromLE errorCode, errorSize := fromLE errorSize, error := error,
                   errorMessageSize := fromLE errorMessageSize,
                   errorMessage := ⟨.array buffer, data⟩ })
  | _ => .error .unreachable

/-- The overload `void write(std::span<std::byte, Extent> buffer, const Time& time)`. -/
def writeTime (buffer : List Byte) (time : Time) : Except Fault (List Byte) :=
  store buffer 0 time.bytes

/-- The overload `void write(std::span<std::byte, Extent> buffer, const Base& base)`.  Its
`static_assert` compares a fixed `Extent` with `sizeof(Time)`; the copy is of
`sizeof(Base)` bytes. -/
def writeBase (buffer : List Byte) (base : Base) : Except Fault (List Byte) :=
  store buffer 0 base.bytes

/-- The `std::derived_from<type, JsonMessage>` branch of the visitor in `write`. -/
def writeJson (buffer : List Byte) (msg : JsonMessage) : Except Fault (List Byte) := do
  let data := 0
  let buffer ← store buffer data (toLE 4 msg.size)
  let data := data + 4
  memcpy buffer data msg.payload msg.size

/-- The function `void write(std::span<std::byte, Extent> buffer, const Message& message)`:
the visitor, one branch per alternative. -/
def write (buffer : List Byte) (message : Message) : Except Fault (List Byte) :=
  match message with
  | .Hello msg => writeJson buffer msg
  | .ServerSettings msg => writeJson buffer msg
  | .ClientInfo msg => writeJson buffer msg
  | .Time msg => writeTime buffer msg
  | .WireChunk msg => do
    let data := 0
    let buffer ← writeTime buffer msg.timestamp
    let data := data + 8
    let buffer ← store buffer data (toLE 4 msg.size)
    let data := data + 4
    memcpy buffer data msg.payload msg.size
  | .CodecHeader msg => do
    let data := 0
    let buffer ← store buffer data (toLE 4 msg.codecSize)
    let data := data + 4
    let buffer ← memcpy buffer data msg.codec msg.codecSize
    let data := data + msg.codecSize
    let buffer ← store buffer data (toLE 4 msg.size)
    let data := data + 4
    memcpy buffer data msg.payload msg.size
  | .Error msg => do
    let data := 0
    let buffer ← store buffer data (toLE 4 msg.errorCode)
    let data := data + 4
    let buffer ← store buffer data (toLE 4 msg.errorSize)
    let data := data + 4
    let buffer ← memcpy buffer data msg.error msg.errorSize
    let data := data + msg.errorSize
    let buffer ← store buffer data (toLE 4 msg.errorMessageSize)
    let data := data + 4
    memcpy buffer data msg.errorMessage msg.errorMessageSize

/-! ## `TcpClient.hpp`: the transport as `SnapClient` sees it -/

/-- A `boost::system::error_code`: the codes the repository names, and any other
value. -/
inductive ErrorCode where
  /-- The default-constructed code; `if (ec)` is false for it alone. -/
  | success
  | no_buffer_space
  | invalid_argument
  | connection_refused
  | operation_aborted
  | no_such_device
  | eof
  | other (value : Nat)
  deriving DecidableEq, Repr

/-- The socket a `TcpClient` owns, seen from its caller: the bytes the peer has
sent and the client has not read yet, the byte ranges handed to `write` so far,
the sizes of the reads issued so far, and the codes with which the coming
operations complete (`success` once the list is used up).  How many bytes of a
range a failed write has put on the wire is not modelled. -/
structure Socket where
  inData : List Byte
  outData : List (List Byte)
  readSizes : List Nat
  errors : List ErrorCode
  deriving DecidableEq, Repr

/-- The code with which the next operation on the socket completes, and the
socket with that code used up. -/
def Socket.nextError (socket : Socket) : ErrorCode × Socket :=
  match socket.errors with
  | [] => (.success, socket)
  | ec :: rest => (ec, { socket with errors := rest })

/-- The call `TcpClient::read(buffer.first(n))`: `boost::asio::async_read` completes
when the `n` bytes are filled from the stream or an error occurs.  Gives the code,
the buffer and the socket afterwards. -/
def TcpClient.read (socket : Socket) (buffer : List Byte) (n : Nat) :
    ErrorCode × List Byte × Socket :=
  let (ec, socket) := socket.nextError
  let socket := { socket with readSizes := socket.readSizes ++ [n] }
  if ec ≠ .success then (ec, buffer, socket)
  else if socket.inData.length < n then
    (.eof, socket.inData ++ buffer.drop socket.inData.length, { socket with inData := [] })
  else
    (.success, socket.inData.take n ++ buffer.drop n,
      { socket with inData := socket.inData.drop n })

/-- The call `TcpClient::write(data)`: `boost::asio::async_write` of the byte range.
Gives the code and the socket afterwards. -/
def TcpClient.write (socket : Socket) (data : List Byte) : ErrorCode × Socket :=
  let (ec, socket) := socket.nextError
  (ec, { socket with outData := socket.outData ++ [data] })

/-! ## `SnapClient.hpp` -/

/-- The conversion `static_cast<std::uint32_t>` of a signed 64-bit count. -/
def castU32 (x : Int) : Nat :=
  (x % 4294967296).toNat

/-- The time stamp `send` and `read` compute from a reading `now` of
`std::chrono::steady_clock`, in microseconds since its epoch: `nowSecs` is the
`duration_cast` to seconds, which truncates toward zero. -/
def stamp (now : Int) : Time :=
  let nowSecs := now.tdiv 1000000
  { sec := castU32 nowSecs, usec := castU32 (now - nowSecs * 1000000) }

/-- The visitor of `SnapClient::send`: the header for the message, and the message
as the visitor leaves it (a `Time` is overwritten with the stamp).  The sums of
`sizeof` values and `msg.size` are taken in `std::size_t` and cast to
`std::uint32_t`. -/
def SnapClient.makeBase (now : Int) (id : Nat) (message : Message) :
    Except Fault (Base × Message) :=
  let b : Base :=
    { type := MessageType.BASE, id := id, refersTo := 0, sent := stamp now,
      received := { sec := 0, usec := 0 }, size := 0 }
  match message with
  | .Hello msg =>
    .ok ({ b with type := MessageType.HELLO, size := (4 + msg.size) % 2 ^ 32 }, .Hello msg)
  | .ClientInfo msg =>
    .ok ({ b with type := MessageType.CLIENT_INFO, size := (4 + msg.size) % 2 ^ 32 },
      .ClientInfo msg)
  | .ServerSettings msg =>
    .ok ({ b with type := MessageType.SERVER_SETTINGS, size := (4 + msg.size) % 2 ^ 32 },
      .ServerSettings msg)
  | .Time _ =>
    .ok ({ b with type := MessageType.TIME, size := 8 % 2 ^ 32 }, .Time b.sent)
  | .WireChunk msg =>
    .ok ({ b with type := MessageType.WIRE_CHUNK, size := (8 + 4 + msg.size) % 2 ^ 32 },
      .WireChunk msg)
  | .CodecHeader _ => .error .unreachable
  | .Error _ => .error .unreachable

/-- The coroutine `SnapClient::send(id, message, buffer)` run to completion with the
clock reading `now`: what it returns, the caller's buffer afterwards and the
socket afterwards.  The destination is the caller's buffer.  The spans
`buffer.first(sizeof(Base))` and `buffer.subspan(sizeof(Base), base.size)` are
pointers into it; `write` uses their start only.  The second `write` has the
buffer from byte 26 on for its destination, the header just written in front
of it. -/
def SnapClient.send (socket : Socket) (now : Int) (id : Nat) (message : Message)
    (buffer : List Byte) : Except Fault (Except ErrorCode Time × List Byte × Socket) := do
  let (base, message) ← SnapClient.makeBase now id message
  if buffer.length < 26 + base.size then
    return (.error .no_buffer_space, buffer, socket)
  let buffer ← writeBase buffer base
  let body ← write (buffer.drop 26) (message.past (buffer.take 26))
  let buffer := buffer.take 26 ++ body
  let (ec, socket) := TcpClient.write socket (buffer.take (26 + base.size))
  if ec ≠ .success then
    return (.error ec, buffer, socket)
  return (.ok base.sent, buffer, socket)

/-- The coroutine `SnapClient::read(buffer)` run to completion; `now` is the clock
reading taken after the header has been read.  Gives what it returns, the
caller's buffer afterwards and the socket afterwards. -/
def SnapClient.read (socket : Socket) (now : Int) (buffer : List Byte) :
    Except Fault (Except ErrorCode (Base × Message) × List Byte × Socket) := do
  if buffer.length < 26 then
    return (.error .no_buffer_space, buffer, socket)
  let (ec, buffer, socket) := TcpClient.read socket buffer 26
  if ec ≠ .success then
    return (.error ec, buffer, socket)
  let base ← readBase buffer
  if buffer.length < base.size then
    return (.error .no_buffer_space, buffer, socket)
  let (ec, buffer, socket) := TcpClient.read socket buffer base.size
  if ec ≠ .success then
    return (.error ec, buffer, socket)
  let base := { base with received := stamp now }
  let message ← Snapcast.read buffer base.type
  return (.ok (base, message), buffer, socket)

/-- The loop of `SnapClient::sendJson`.  `chunks` are the views `serializer.read`
returns in turn until `serializer.done()`, each at most `TMP_BUF_SIZE` bytes of
the JSON text; each is copied with `std::memcpy` to `buffer.data() + totalSize`.
Gives the buffer and `totalSize` after the loop. -/
def SnapClient.copyJson (buffer : List Byte) (totalSize : Nat) :
    List (List Byte) → Except Fault (List Byte × Nat)
  | [] => .ok (buffer, totalSize)
  | sv :: chunks => do
    let buffer ← store buffer totalSize sv
    SnapClient.copyJson buffer (totalSize + sv.length) chunks

/-- The function `SnapClient::sendJson(id, type, object, serializer, buffer)`, with
the serializer's output for `object` given as `chunks`.  The message views the
JSON text at the start of the buffer; `send` gets `buffer.subspan(totalSize)` for
its destination, so the text is in front of that destination, in the same
array. -/
def SnapClient.sendJson (socket : Socket) (now : Int) (id : Nat) (type : MessageType)
    (chunks : List (List Byte)) (buffer : List Byte) :
    Except Fault (Except ErrorCode Time × List Byte × Socket) := do
  let (buffer, totalSize) ← SnapClient.copyJson buffer 0 chunks
  let jsonString : JsonMessage :=
    { payload := ⟨.destination (buffer.take totalSize), 0⟩, size := totalSize % 2 ^ 32 }
  let message ← match type with
    | MessageType.HELLO => pure (Message.Hello jsonString)
    | MessageType.CLIENT_INFO => pure (Message.ClientInfo jsonString)
    | MessageType.SERVER_SETTINGS => pure (Message.ServerSettings jsonString)
    | _ => Except.error Fault.unreachable
  let (result, rest, socket) ← SnapClient.send socket now id message (buffer.drop totalSize)
  return (result, buffer.take totalSize ++ rest, socket)

/-- The function `SnapClient::sendHello(utilProvider, serializer, buffer)`, with the
serializer's output for the `helloJson` object it builds given as `chunks`. -/
def SnapClient.sendHello (socket : Socket) (now : Int) (chunks : List (List Byte))
    (buffer : List Byte) : Except Fault (Except ErrorCode Time × List Byte × Socket) :=
  SnapClient.sendJson socket now 0 MessageType.HELLO chunks buffer

/-! ## `TcpClient::connect` -/

/-- The member `ipStr.c_str()` as the function that is given it reads it: the
characters of the string in front of its first null character, all of them when
it has none (the string class supplies the terminator). -/
def cStr (str : List Byte) : List Byte :=
  str.takeWhile fun c => c ≠ 0

/-- The call `boost::asio::ip::make_address(str, ec)` on a C string: the code it
sets and the address it returns.  `literal` gives the address each IP address
literal denotes and nothing for any other string; for such a string
`make_address` sets `invalid_argument` and returns a default-constructed
address. -/
def makeAddress {Address : Type} [Inhabited Address] (literal : List Byte → Option Address)
    (str : List Byte) : ErrorCode × Address :=
  match literal str with
  | some address => (.success, address)
  | none => (.invalid_argument, default)

/-- The coroutine `TcpClient::connect(ip, port)` run to completion, the characters
of the `std::string_view` given as bytes.  The string is copied to `ipStr` and
`make_address` is given `ipStr.c_str()`.  The call
`_socket.async_connect(ep, ...)` completes with the socket's next code.  Gives
the code returned, the endpoints `async_connect` was called with, in order, and
the socket afterwards. -/
def TcpClient.connect {Address : Type} [Inhabited Address]
    (literal : List Byte → Option Address) (socket : Socket) (ip : List Byte) (port : Nat) :
    ErrorCode × List (Address × Nat) × Socket :=
  let ipStr := ip
  let (ec, address) := makeAddress literal (cStr ipStr)
  if ec ≠ .success then (ec, [], socket)
  else
    let ep := (address, port)
    let (ec, socket) := socket.nextError
    (ec, [ep], socket)

/-! ## `snapcastpp/SnapClient.hpp` and `snapclient.cpp`: the earlier client -/

/-- The alias `snapcastpp::Message`, a variant of `Hello`, `ServerSettings`,
`ClientInfo`, `TimeMessage` and `WireChunk`, each given here by the arguments of
its constructor.  The variant has no `CodecHeader` alternative. -/
inductive Snapcastpp.Message where
  | Hello (id : Nat) (payload : List Byte)
  | ServerSettings (id : Nat) (payload : List Byte)
  | ClientInfo (id : Nat) (payload : List Byte)
  | TimeMessage (id : Nat)
  | WireChunk (id : Nat) (payload : List Byte)
  deriving DecidableEq, Repr

/-- The coroutine `snapcastpp::SnapClient::read()`, given the bytes waiting on the
socket: it receives into the empty vector `b`, looks at neither the code nor the
count, and returns `ServerSettings{1, ""}`.  Gives the message and the bytes
still waiting. -/
def Snapcastpp.SnapClient.read (inData : List Byte) : Snapcastpp.Message × List Byte :=
  (.ServerSettings 1 [], inData)

/-- Where a call of the coroutine `snapcastpp::SnapClient::doHandshake()` stands:
suspended at one of its three `co_await` expressions, or returned.  The class has
one member, the socket; it records no session state. -/
inductive Snapcastpp.Handshake where
  /-- At `co_await send(std::move(hello))`. -/
  | sendHello
  /-- At the first `co_await read()`, under the comment "wait for server
  settings". -/
  | waitServerSettings
  /-- At the second `co_await read()`, under the comment "wait for codec header". -/
  | waitCodecHeader
  /-- After the last statement. -/
  | returned
  deriving DecidableEq, Repr

/-- What resumes the coroutine: the completion of `send` with a code and a count,
or the completion of `read` with a message. -/
inductive Snapcastpp.Completion where
  | sent (ec : ErrorCode) (bytesSent : Nat)
  | received (msg : Snapcastpp.Message)
  deriving DecidableEq, Repr

/-- One resumption of `doHandshake`: the result of `send` is bound to `ec` and
`bytesSent` and not used; each result of `read` is assigned to `msg` and not
used.  A completion of the other kind does not resume the coroutine. -/
def Snapcastpp.SnapClient.doHandshake :
    Snapcastpp.Handshake → Snapcastpp.Completion → Snapcastpp.Handshake
  | .sendHello, .sent _ _ => .waitServerSettings
  | .waitServerSettings, .received _ => .waitCodecHeader
  | .waitCodecHeader, .received _ => .returned
  | state, _ => state

/-- The call `doHandshake()` from its start until it returns, with the `send` of
the `Hello` completing with `(ec, bytesSent)` and both reads done by
`SnapClient::read` on the bytes waiting on the socket: the places the coroutine
passes through after each resumption, and the bytes still waiting. -/
def Snapcastpp.SnapClient.runHandshake (ec : ErrorCode) (bytesSent : Nat)
    (inData : List Byte) : List Snapcastpp.Handshake × List Byte :=
  let s1 := Snapcastpp.SnapClient.doHandshake .sendHello (.sent ec bytesSent)
  let (msg, inData) := Snapcastpp.SnapClient.read inData
  let s2 := Snapcastpp.SnapClient.doHandshake s1 (.received msg)
  let (msg, inData) := Snapcastpp.SnapClient.read inData
  let s3 := Snapcastpp.SnapClient.doHandshake s2 (.received msg)
  ([s1, s2, s3], inData)

/-- The `Base` subobject of a `snapcastpp` message as its constructor initialises
it: `JsonMessage(type, id, payload)`, `TimeMessage(id)` and `WireChunk(id, payload)`
set type and id, zero refersTo, sent and received, and cast to `std::uint32_t` a
size that starts with `sizeof(Base)`, which is 26 under `#pragma pack(1)`. -/
def Snapcastpp.Message.base : Snapcastpp.Message → Base
  | .Hello id payload =>
    { type := MessageType.HELLO, id := id, refersTo := 0, sent := { sec := 0, usec := 0 },
      received := { sec := 0, usec := 0 }, size := (26 + 4 + payload.length) % 2 ^ 32 }
  | .ServerSettings id payload =>
    { type := MessageType.SERVER_SETTINGS, id := id, refersTo := 0,
      sent := { sec := 0, usec := 0 }, received := { sec := 0, usec := 0 },
      size := (26 + 4 + payload.length) % 2 ^ 32 }
  | .ClientInfo id payload =>
    { type := MessageType.CLIENT_INFO, id := id, refersTo := 0,
      sent := { sec := 0, usec := 0 }, received := { sec := 0, usec := 0 },
      size := (26 + 4 + payload.length) % 2 ^ 32 }
  | .TimeMessage id =>
    { type := MessageType.TIME, id := id, refersTo := 0, sent := { sec := 0, usec := 0 },
      received := { sec := 0, usec := 0 }, size := (26 + 8) % 2 ^ 32 }
  | .WireChunk id payload =>
    { type := MessageType.WIRE_CHUNK, id := id, refersTo := 0,
      sent := { sec := 0, usec := 0 }, received := { sec := 0, usec := 0 },
      size := (26 + 8 + 4 + payload.length) % 2 ^ 32 }

/-- A call on the `boost::asio::ip::tcp::socket` member of
`snapcastpp::SnapClient`. -/
inductive Snapcastpp.SocketCall where
  /-- The call `socket.async_send(buffer, ...)`: the bytes of `buffer`. -/
  | asyncSend (buffer : List Byte)
  /-- The call `socket.async_receive(buffer, ...)`: the number of bytes `buffer`
  has room for. -/
  | asyncReceive (room : Nat)
  deriving DecidableEq, Repr

/-- The function `snapcastpp::SnapClient::send(Message message)`, with the reading
`now` of `std::chrono::system_clock` in microseconds: the time the visitor
stores in `msg.sent` of its parameter, computed as `stamp` is, and the call it
makes on the socket.  For every alternative the visitor returns the string
literal `""` under the comment "serialize", so the buffer given to `async_send`
holds no byte of the message.  The awaitable of `async_send` is what `send`
returns. -/
def Snapcastpp.SnapClient.send (now : Int) (message : Snapcastpp.Message) :
    Time × Snapcastpp.SocketCall :=
  match message with
  | .Hello _ _ => (stamp now, .asyncSend [])
  | .ServerSettings _ _ => (stamp now, .asyncSend [])
  | .ClientInfo _ _ => (stamp now, .asyncSend [])
  | .TimeMessage _ => (stamp now, .asyncSend [])
  | .WireChunk _ _ => (stamp now, .asyncSend [])

/-- The call `snapcastpp::SnapClient::read()` makes on the socket:
`socket.async_receive(b, ...)` with the vector `b` declared empty on the line
before. -/
def Snapcastpp.SnapClient.readCall : Snapcastpp.SocketCall :=
  .asyncReceive 0

/-- The call on the socket made by the expression `doHandshake` awaits where it is
suspended: `send(std::move(hello))` for `Hello hello(0, ...)` of the text
`boost::json::serialize(helloJson)`, given here as `helloJson`, or `read()`. -/
def Snapcastpp.Handshake.call (now : Int) (helloJson : List Byte) :
    Snapcastpp.Handshake → Option Snapcastpp.SocketCall
  | .sendHello => some (Snapcastpp.SnapClient.send now (.Hello 0 helloJson)).2
  | .waitServerSettings => some Snapcastpp.SnapClient.readCall
  | .waitCodecHeader => some Snapcastpp.SnapClient.readCall
  | .returned => none

/-- The calls on the socket that `doHandshake` has made and had completed, in
order, and where it stands, after the given completions arrive one after the
other.  A completion that does not resume the coroutine completes no call of
it. -/
def Snapcastpp.SnapClient.calls (now : Int) (helloJson : List Byte) :
    Snapcastpp.Handshake → List Snapcastpp.Completion →
      List Snapcastpp.SocketCall × Snapcastpp.Handshake
  | state, [] => ([], state)
  | state, completion :: later =>
    let next := Snapcastpp.SnapClient.doHandshake state completion
    let done := if next = state then [] else (state.call now helloJson).toList
    let rest := Snapcastpp.SnapClient.calls now helloJson next later
    (done ++ rest.1, rest.2)

/-- An instance of the address literals, for the dotted-decimal IPv4 form as
`inet_pton` reads it: the value of one field, which is one to three decimal
digits, without a zero in front of another digit, and at most 255. -/
def ipv4Field (field : List Byte) : Option Nat :=
  if field.length = 0 ∨ 3 < field.length then none
  else if ¬ field.all (fun c => 0x30 ≤ c.val ∧ c.val ≤ 0x39) then none
  else if field.head? = some 0x30 ∧ 1 < field.length then none
  else
    let value := field.foldl (fun acc c => 10 * acc + (c.val - 0x30)) 0
    if value ≤ 255 then some value else none

/-- The fields of a string, which the character `.` separates. -/
def dotFields : List Byte → List (List Byte)
  | [] => [[]]
  | c :: cs =>
    match dotFields cs with
    | [] => [[]]
    | field :: fields => if c = 0x2e then [] :: field :: fields else (c :: field) :: fields

/-- The address a dotted-decimal IPv4 literal denotes: four fields.  No other
form of literal is covered (an IPv6 literal holds a colon). -/
def ipv4Literal (str : List Byte) : Option (Nat × Nat × Nat × Nat) :=
  match (dotFields str).map ipv4Field with
  | [some a, some b, some c, some d] => some (a, b, c, d)
  | _ => none

/-! ## Vocabulary of the statements -/

/-- The value of the byte at index `i` of the buffer (0 when there is none). -/
def byteAt (buffer : List Byte) (i : Nat) : Nat :=
  (buffer.getD i 0).val

/-- The `MessageType` whose case in `read` returns the variant of the message. -/
def Message.type : Message → MessageType
  | .Hello _ => MessageType.HELLO
  | .ServerSettings _ => MessageType.SERVER_SETTINGS
  | .ClientInfo _ => MessageType.CLIENT_INFO
  | .Time _ => MessageType.TIME
  | .WireChunk _ => MessageType.WIRE_CHUNK
  | .CodecHeader _ => MessageType.CODEC_HEADER
  | .Error _ => MessageType.ERROR

/-- The number of bytes the branch of `write` for the message copies: the sizes
of its `memcpy` calls added up. -/
def Message.bodySize : Message → Nat
  | .Hello msg => 4 + msg.size
  | .ServerSettings msg => 4 + msg.size
  | .ClientInfo msg => 4 + msg.size
  | .Time _ => 8
  | .WireChunk msg => 8 + 4 + msg.size
  | .CodecHeader msg => 4 + msg.codecSize + 4 + msg.size
  | .Error msg => 4 + 4 + msg.errorSize + 4 + msg.errorMessageSize

/-- The memory is memory that is not written, of at least `last` bytes. -/
def Region.Holds (mem : Region) (last : Nat) : Prop :=
  match mem with
  | .array bytes => last ≤ bytes.length
  | .destination _ => False

instance (mem : Region) (last : Nat) : Decidable (mem.Holds last) := by
  cases mem <;> unfold Region.Holds <;> infer_instance

/-- The view `(p, n)` is a length member `n` that fits `std::uint32_t` together
with `n` bytes of data at `p`, all inside the memory `p` points into, which is
memory that is not written: the data lies outside the destination. -/
def Ptr.HoldsData (p : Ptr) (n : Nat) : Prop :=
  n < 2 ^ 32 ∧ p.mem.Holds (p.off + n)

/-- The messages whose members fit their types, whose length members are the
lengths of their data, and whose data lies outside the destination, the buffer
that `write` or `send` is given to write. -/
def Message.WellFormed : Message → Prop
  | .Hello msg => msg.payload.HoldsData msg.size
  | .ServerSettings msg => msg.payload.HoldsData msg.size
  | .ClientInfo msg => msg.payload.HoldsData msg.size
  | .Time msg => msg.sec < 2 ^ 32 ∧ msg.usec < 2 ^ 32
  | .WireChunk msg =>
    msg.timestamp.sec < 2 ^ 32 ∧ msg.timestamp.usec < 2 ^ 32 ∧ msg.payload.HoldsData msg.size
  | .CodecHeader msg => msg.codec.HoldsData msg.codecSize ∧ msg.payload.HoldsData msg.size
  | .Error msg =>
    msg.errorCode < 2 ^ 32 ∧ msg.error.HoldsData msg.errorSize
      ∧ msg.errorMessage.HoldsData msg.errorMessageSize

/-- The views `(p, n)` and `(q, k)` have the same length and cover the same
bytes, byte for byte, neither leaving its array. -/
def Ptr.SameData (p : Ptr) (n : Nat) (q : Ptr) (k : Nat) : Prop :=
  n = k ∧ (p.view n).isSome ∧ p.view n = q.view k

/-- The two messages are the same variant, with equal integer members and with
payloads and strings that are equal byte for byte. -/
def Message.SameContent : Message → Message → Prop
  | .Hello a, .Hello b => a.payload.SameData a.size b.payload b.size
  | .ServerSettings a, .ServerSettings b => a.payload.SameData a.size b.payload b.size
  | .ClientInfo a, .ClientInfo b => a.payload.SameData a.size b.payload b.size
  | .Time a, .Time b => a.sec = b.sec ∧ a.usec = b.usec
  | .WireChunk a, .WireChunk b =>
    a.timestamp.sec = b.timestamp.sec ∧ a.timestamp.usec = b.timestamp.usec
      ∧ a.payload.SameData a.size b.payload b.size
  | .CodecHeader a, .CodecHeader b =>
    a.codec.SameData a.codecSize b.codec b.codecSize ∧ a.payload.SameData a.size b.payload b.size
  | .Error a, .Error b =>
    a.errorCode = b.errorCode ∧ a.error.SameData a.errorSize b.error b.errorSize
      ∧ a.errorMessage.SameData a.errorMessageSize b.errorMessage b.errorMessageSize
  | _, _ => False

/-- The values a `Base` can hold: 16-bit type, id and refersTo, 32-bit times and
size. -/
def Base.Valid (b : Base) : Prop :=
  b.type < 2 ^ 16 ∧ b.id < 2 ^ 16 ∧ b.refersTo < 2 ^ 16 ∧ b.sent.sec < 2 ^ 32
    ∧ b.sent.usec < 2 ^ 32 ∧ b.received.sec < 2 ^ 32 ∧ b.received.usec < 2 ^ 32
    ∧ b.size < 2 ^ 32

instance (b : Base) : Decidable b.Valid := by
  unfold Base.Valid; infer_instance

instance (p : Ptr) (n : Nat) : Decidable (p.HoldsData n) := by
  unfold Ptr.HoldsData; infer_instance

instance (p : Ptr) (n : Nat) (q : Ptr) (k : Nat) : Decidable (p.SameData n q k) := by
  unfold Ptr.SameData; infer_instance

instance (m : Message) : Decidable m.WellFormed := by
  cases m <;> unfold Message.WellFormed <;> infer_instance

instance (a b : Message) : Decidable (a.SameContent b) := by
  cases a <;> cases b <;> unfold Message.SameContent <;> infer_instance

/-- The 32-bit value stored least significant byte first at offset `k` of the
buffer. -/
def u32At (buffer : List Byte) (k : Nat) : Nat :=
  fromLE ((buffer.drop k).take 4)

/-- The variants for which the visitor of `SnapClient::send` has a branch. -/
def Message.Sendable : Message → Prop
  | .CodecHeader _ => False
  | .Error _ => False
  | _ => True

instance (m : Message) : Decidable m.Sendable := by
  cases m <;> unfold Message.Sendable <;> infer_instance

/-- The body bytes of a message: what `write` leaves in a buffer of exactly the
body size (no bytes when a copy of `write` leaves its array). -/
def Message.wire (m : Message) : List Byte :=
  match write (List.replicate m.bodySize 0) m with
  | .ok encoded => encoded
  | .error _ => []

/-- The next `n` operations on the socket complete with `success`. -/
def Socket.Succeeds (socket : Socket) (n : Nat) : Prop :=
  ∀ ec ∈ socket.errors.take n, ec = ErrorCode.success

instance (socket : Socket) (n : Nat) : Decidable (socket.Succeeds n) := by
  unfold Socket.Succeeds; infer_instance

/-- A socket on which nothing has been received or handed over and no error is
pending. -/
def Socket.idle : Socket :=
  { inData := [], outData := [], readSizes := [], errors := [] }

/-- The view `(p, n)` points into `buffer` and covers only bytes among its first
`limit` bytes. -/
def Ptr.Within (p : Ptr) (n : Nat) (buffer : List Byte) (limit : Nat) : Prop :=
  p.mem = .array buffer ∧ p.off + n ≤ limit

/-- Every payload and string view of the message points into `buffer` and covers
only bytes among its first `limit` bytes. -/
def Message.ViewsWithin (buffer : List Byte) (limit : Nat) : Message → Prop
  | .Hello msg => msg.payload.Within msg.size buffer limit
  | .ServerSettings msg => msg.payload.Within msg.size buffer limit
  | .ClientInfo msg => msg.payload.Within msg.size buffer limit
  | .Time _ => True
  | .WireChunk msg => msg.payload.Within msg.size buffer limit
  | .CodecHeader msg =>
    msg.codec.Within msg.codecSize buffer limit ∧ msg.payload.Within msg.size buffer limit
  | .Error msg =>
    msg.error.Within msg.errorSize buffer limit
      ∧ msg.errorMessage.Within msg.errorMessageSize buffer limit

instance (p : Ptr) (n : Nat) (buffer : List Byte) (limit : Nat) :
    Decidable (p.Within n buffer limit) := by
  unfold Ptr.Within; infer_instance

instance (buffer : List Byte) (limit : Nat) (m : Message) :
    Decidable (m.ViewsWithin buffer limit) := by
  cases m <;> unfold Message.ViewsWithin <;> infer_instance

/-- The bytes each payload and string view of the message covers, in the order
of the members (`none` for a view that leaves its array). -/
def Message.views : Message → List (Option (List Byte))
  | .Hello msg => [msg.payload.view msg.size]
  | .ServerSettings msg => [msg.payload.view msg.size]
  | .ClientInfo msg => [msg.payload.view msg.size]
  | .Time _ => []
  | .WireChunk msg => [msg.payload.view msg.size]
  | .CodecHeader msg => [msg.codec.view msg.codecSize, msg.payload.view msg.size]
  | .Error msg => [msg.error.view msg.errorSize, msg.errorMessage.view msg.errorMessageSize]

/-- The time point a `Time` holds, in microseconds. -/
def Time.micros (t : Time) : Nat :=
  t.sec * 1000000 + t.usec

/-- Modelled from the spec: the latency computation.  No function under `src/`
computes a latency: `snapcastpp::TimeMessage` declares the member `Time latency`,
which its constructor sets to zero, and `SnapClient::send` returns the sent stamp
for the caller "to calculate network latency".  The spec: "latency = received -
sent, with microsecond precision, computed with correct borrow/carry across the
seconds/microseconds split".  The result is a `Time`, as the member is; a
microsecond is borrowed from the seconds when `received.usec` is the smaller. -/
def latency (sent received : Time) : Time :=
  if received.usec < sent.usec then
    { sec := received.sec - sent.sec - 1, usec := received.usec + 1000000 - sent.usec }
  else
    { sec := received.sec - sent.sec, usec := received.usec - sent.usec }

/-! ## Lemmas on bytes and `memcpy` -/

theorem toLE_length (width n : Nat) : (toLE width n).length = width := by
  induction width generalizing n with
  | zero => rfl
  | succ w ih => simp [toLE, ih]

theorem toLE2_val (n : Nat) : (toLE 2 n).map Fin.val = [n % 256, n / 256 % 256] := by
  simp [toLE]

theorem toLE4_val (n : Nat) :
    (toLE 4 n).map Fin.val = [n % 256, n / 256 % 256, n / 65536 % 256, n / 16777216 % 256] := by
  simp [toLE, Nat.div_div_eq_div_mul]

theorem fromLE_toLE2 (n : Nat) (h : n < 2 ^ 16) : fromLE (toLE 2 n) = n := by
  simp only [toLE, fromLE]
  omega

theorem fromLE_toLE4 (n : Nat) (h : n < 2 ^ 32) : fromLE (toLE 4 n) = n := by
  simp only [toLE, fromLE]
  omega

theorem byteAt_cons_succ (b : Byte) (buffer : List Byte) (i : Nat) :
    byteAt (b :: buffer) (i + 1) = byteAt buffer i := by
  simp [byteAt]

theorem fromLE_take2_drop (buffer : List Byte) (k : Nat) (h : k + 2 ≤ buffer.length) :
    fromLE ((buffer.drop k).take 2) = byteAt buffer k + 256 * byteAt buffer (k + 1) := by
  induction k generalizing buffer with
  | zero =>
    match buffer, h with
    | a :: b :: rest, _ => simp [fromLE, byteAt]
  | succ k ih =>
    match buffer, h with
    | a :: rest, h =>
      have h2 : k + 2 ≤ rest.length := by simpa using h
      simp only [List.drop_succ_cons, byteAt_cons_succ]
      exact ih rest h2

theorem fromLE_take4_drop (buffer : List Byte) (k : Nat) (h : k + 4 ≤ buffer.length) :
    fromLE ((buffer.drop k).take 4)
      = byteAt buffer k + 256 * byteAt buffer (k + 1) + 65536 * byteAt buffer (k + 2)
          + 16777216 * byteAt buffer (k + 3) := by
  induction k generalizing buffer with
  | zero =>
    match buffer, h with
    | a :: b :: c :: d :: rest, _ =>
      simp only [List.drop_zero, List.take_succ_cons, List.take_zero, fromLE, byteAt,
        List.getD_cons_zero, List.getD_cons_succ, Nat.zero_add]
      omega
  | succ k ih =>
    match buffer, h with
    | a :: rest, h =>
      have h2 : k + 4 ≤ rest.length := by simpa using h
      simp only [List.drop_succ_cons, byteAt_cons_succ]
      exact ih rest h2

theorem take_drop_take (l : List Byte) (a b c : Nat) (h : a + b ≤ c) :
    ((l.take c).drop a).take b = (l.drop a).take b := by
  rw [List.drop_take, List.take_take, Nat.min_eq_left (by omega)]

theorem time_ofBytes_take_drop (l : List Byte) (k : Nat) :
    Time.ofBytes ((l.drop k).take 8)
      = { sec := fromLE ((l.drop k).take 4), usec := fromLE ((l.drop (k + 4)).take 4) } := by
  have e1 : ((l.drop k).take 8).take 4 = (l.drop k).take 4 := by
    rw [List.take_take, Nat.min_eq_left (by omega)]
  have e2 : (((l.drop k).take 8).drop 4).take 4 = (l.drop (k + 4)).take 4 := by
    rw [take_drop_take _ 4 4 8 (by omega), List.drop_drop, Nat.add_comm]
  simp only [Time.ofBytes, e1, e2]

theorem ok_bind {α β : Type} (a : α) (f : α → Except Fault β) :
    (Except.ok a >>= f) = f a := rfl

theorem error_bind {α β : Type} (e : Fault) (f : α → Except Fault β) :
    (Except.error e >>= f) = Except.error e := rfl

theorem store_zero (mem src : List Byte) (h : src.length ≤ mem.length) :
    store mem 0 src = .ok (src ++ mem.drop src.length) := by
  simp [store, h]

theorem store_after (pre rest src : List Byte) (off : Nat) (hoff : off = pre.length)
    (h : src.length ≤ rest.length) :
    store (pre ++ rest) off src = .ok ((pre ++ src) ++ rest.drop src.length) := by
  subst hoff
  have h2 : pre.length + src.length ≤ (pre ++ rest).length := by
    simp only [List.length_append]; omega
  simp [store, h]

theorem load_at (pre data post : List Byte) (off n : Nat) (hoff : off = pre.length)
    (hn : n = data.length) : load (pre ++ (data ++ post)) off n = .ok data := by
  subst hoff hn
  have h2 : pre.length + data.length ≤ (pre ++ (data ++ post)).length := by
    simp only [List.length_append]; omega
  simp [load, h2]

theorem view_array (p : Ptr) (n : Nat) (v : List Byte) (h : p.view n = some v) :
    ∃ bytes, p.mem = .array bytes ∧ p.off + n ≤ bytes.length
      ∧ v = (bytes.drop p.off).take n := by
  unfold Ptr.view at h
  split at h
  · rename_i bytes hm
    split at h
    · rename_i hle
      simp only [Option.some.injEq] at h
      exact ⟨bytes, hm, hle, h.symm⟩
    · simp at h
  · simp at h

theorem load_view (p : Ptr) (n : Nat) (v : List Byte) (h : p.view n = some v) :
    (∀ dst, load (p.mem.bytes dst) p.off n = .ok v) ∧ v.length = n := by
  obtain ⟨bytes, hm, hle, rfl⟩ := view_array p n v h
  refine ⟨fun dst => by simp [hm, Region.bytes, load, hle], ?_⟩
  simp only [List.length_take, List.length_drop]
  omega

theorem memcpy_array (dst : List Byte) (off : Nat) (p : Ptr) (n : Nat) (v : List Byte)
    (hv : p.view n = some v) : memcpy dst off p n = store dst off v := by
  obtain ⟨bytes, hm, -, -⟩ := view_array p n v hv
  unfold memcpy
  rw [(load_view p n v hv).1 dst, ok_bind]
  simp only [hm]

theorem memcpy_after (pre rest : List Byte) (off : Nat) (p : Ptr) (n : Nat) (v : List Byte)
    (hv : p.view n = some v) (hoff : off = pre.length) (h : v.length ≤ rest.length) :
    memcpy (pre ++ rest) off p n = .ok ((pre ++ v) ++ rest.drop v.length) := by
  rw [memcpy_array _ _ p n v hv]
  exact store_after pre rest v off hoff h

/-! ## What `write` stores -/

theorem writeTime_eq (buffer : List Byte) (time : Time) (hb : 8 ≤ buffer.length) :
    writeTime buffer time = .ok (time.bytes ++ buffer.drop 8) := by
  have hl : time.bytes.length = 8 := by simp [Time.bytes, toLE_length]
  unfold writeTime
  rw [store_zero _ _ (by omega), hl]

theorem writeBase_eq (buffer : List Byte) (base : Base) (hb : 26 ≤ buffer.length) :
    writeBase buffer base = .ok (base.bytes ++ buffer.drop 26) := by
  have hl : base.bytes.length = 26 := by simp [Base.bytes, Time.bytes, toLE_length]
  unfold writeBase
  rw [store_zero _ _ (by omega), hl]

theorem writeJson_eq (buffer : List Byte) (msg : JsonMessage) (p : List Byte)
    (hv : msg.payload.view msg.size = some p) (hb : 4 + p.length ≤ buffer.length) :
    writeJson buffer msg = .ok (toLE 4 msg.size ++ p ++ buffer.drop (4 + p.length)) := by
  have h4 : (toLE 4 msg.size).length = 4 := toLE_length 4 msg.size
  simp only [writeJson, Nat.zero_add]
  rw [store_zero _ _ (by omega), ok_bind, h4,
    memcpy_after _ _ 4 _ _ p hv h4.symm (by simp only [List.length_drop]; omega),
    List.drop_drop]

theorem write_WireChunk_eq (buffer : List Byte) (msg : WireChunk) (p : List Byte)
    (hv : msg.payload.view msg.size = some p) (hb : 12 + p.length ≤ buffer.length) :
    write buffer (.WireChunk msg)
      = .ok (msg.timestamp.bytes ++ toLE 4 msg.size ++ p ++ buffer.drop (12 + p.length)) := by
  have h4 : (toLE 4 msg.size).length = 4 := toLE_length 4 msg.size
  have h8 : msg.timestamp.bytes.length = 8 := by simp [Time.bytes, toLE_length]
  simp only [write, Nat.zero_add]
  rw [writeTime_eq _ _ (by omega), ok_bind,
    store_after _ _ _ 8 h8.symm (by simp only [List.length_drop]; omega), ok_bind, h4,
    memcpy_after _ _ (8 + 4) _ _ p hv (by simp only [List.length_append]; omega)
      (by simp only [List.length_drop]; omega),
    List.drop_drop, List.drop_drop]
  have e : 8 + (4 + p.length) = 12 + p.length := by omega
  rw [e]

theorem write_CodecHeader_eq (buffer : List Byte) (msg : CodecHeader) (c p : List Byte)
    (hc : msg.codec.view msg.codecSize = some c) (hp : msg.payload.view msg.size = some p)
    (hb : 8 + c.length + p.length ≤ buffer.length) :
    write buffer (.CodecHeader msg)
      = .ok (toLE 4 msg.codecSize ++ c ++ toLE 4 msg.size ++ p
              ++ buffer.drop (8 + c.length + p.length)) := by
  have h4 : (toLE 4 msg.codecSize).length = 4 := toLE_length 4 msg.codecSize
  have h4s : (toLE 4 msg.size).length = 4 := toLE_length 4 msg.size
  have hcl : c.length = msg.codecSize := (load_view _ _ _ hc).2
  simp only [write, Nat.zero_add]
  rw [store_zero _ _ (by omega), ok_bind, h4,
    memcpy_after _ _ 4 _ _ c hc h4.symm (by simp only [List.length_drop]; omega), ok_bind,
    store_after _ _ _ (4 + msg.codecSize) (by simp only [List.length_append]; omega)
      (by simp only [List.length_drop]; omega), ok_bind, h4s,
    memcpy_after _ _ (4 + msg.codecSize + 4) _ _ p hp (by simp only [List.length_append]; omega)
      (by simp only [List.length_drop]; omega),
    List.drop_drop, List.drop_drop, List.drop_drop]
  have e : 4 + (c.length + (4 + p.length)) = 8 + c.length + p.length := by omega
  rw [e]

theorem write_Error_eq (buffer : List Byte) (msg : Error) (s m : List Byte)
    (hs : msg.error.view msg.errorSize = some s)
    (hm : msg.errorMessage.view msg.errorMessageSize = some m)
    (hb : 12 + s.length + m.length ≤ buffer.length) :
    write buffer (.Error msg)
      = .ok (toLE 4 msg.errorCode ++ toLE 4 msg.errorSize ++ s ++ toLE 4 msg.errorMessageSize ++ m
              ++ buffer.drop (12 + s.length + m.length)) := by
  have h4c : (toLE 4 msg.errorCode).length = 4 := toLE_length 4 msg.errorCode
  have h4s : (toLE 4 msg.errorSize).length = 4 := toLE_length 4 msg.errorSize
  have h4m : (toLE 4 msg.errorMessageSize).length = 4 := toLE_length 4 msg.errorMessageSize
  have hsl : s.length = msg.errorSize := (load_view _ _ _ hs).2
  simp only [write, Nat.zero_add]
  rw [store_zero _ _ (by omega), ok_bind, h4c,
    store_after _ _ _ 4 h4c.symm (by simp only [List.length_drop]; omega), ok_bind, h4s,
    memcpy_after _ _ (4 + 4) _ _ s hs (by simp only [List.length_append]; omega)
      (by simp only [List.length_drop]; omega), ok_bind,
    store_after _ _ _ (4 + 4 + msg.errorSize) (by simp only [List.length_append]; omega)
      (by simp only [List.length_drop]; omega), ok_bind, h4m,
    memcpy_after _ _ (4 + 4 + msg.errorSize + 4) _ _ m hm
      (by simp only [List.length_append]; omega) (by simp only [List.length_drop]; omega),
    List.drop_drop, List.drop_drop, List.drop_drop, List.drop_drop]
  have e : 4 + (4 + (s.length + (4 + m.length))) = 12 + s.length + m.length := by omega
  rw [e]

/-! ## What `read` finds in encoded bytes -/

theorem load_zero (data post : List Byte) (n : Nat) (hn : n = data.length) :
    load (data ++ post) 0 n = .ok data :=
  load_at [] data post 0 n rfl hn

theorem load_skip (pre rest d : List Byte) (off k n : Nat) (hoff : off = pre.length + k)
    (h : load rest k n = .ok d) : load (pre ++ rest) off n = .ok d := by
  subst hoff
  unfold load at h ⊢
  split at h
  · rename_i hle
    have h2 : pre.length + k + n ≤ pre.length + rest.length := by omega
    simp only [Except.ok.injEq] at h
    simp [h2, h]
  · simp at h

theorem view_zero (data post : List Byte) (n : Nat) (hn : n = data.length) :
    (Ptr.mk (.array (data ++ post)) 0).view n = some data := by
  subst hn
  simp [Ptr.view]

theorem view_skip (pre rest d : List Byte) (off k n : Nat) (hoff : off = pre.length + k)
    (h : (Ptr.mk (.array rest) k).view n = some d) : (Ptr.mk (.array (pre ++ rest)) off).view n = some d := by
  subst hoff
  simp only [Ptr.view] at h ⊢
  split at h
  · rename_i hle
    have h2 : pre.length + k + n ≤ pre.length + rest.length := by omega
    simp only [Option.some.injEq] at h
    simp [h2, h]
  · simp at h

theorem holds_array (mem : Region) (last : Nat) (h : mem.Holds last) :
    ∃ bytes, mem = .array bytes ∧ last ≤ bytes.length := by
  cases mem with
  | array bytes => exact ⟨bytes, rfl, h⟩
  | destination before => exact h.elim

theorem view_of_holdsData (p : Ptr) (n : Nat) (h : p.HoldsData n) :
    ∃ v, p.view n = some v ∧ v.length = n := by
  obtain ⟨bytes, hm, hle⟩ := holds_array _ _ h.2
  refine ⟨(bytes.drop p.off).take n, by simp [Ptr.view, hm, hle], ?_⟩
  simp only [List.length_take, List.length_drop]
  omega

theorem time_ofBytes_bytes (t : Time) (hs : t.sec < 2 ^ 32) (hu : t.usec < 2 ^ 32) :
    Time.ofBytes t.bytes = t := by
  have h4 : (toLE 4 t.sec).length = 4 := toLE_length 4 t.sec
  have e1 : t.bytes.take 4 = toLE 4 t.sec := by
    simp only [Time.bytes]; rw [List.take_left' h4]
  have e2 : (t.bytes.drop 4).take 4 = toLE 4 t.usec := by
    simp only [Time.bytes]
    rw [List.drop_left' h4, List.take_of_length_le (by simp [toLE_length])]
  cases t
  simp only [Time.ofBytes, e1, e2, fromLE_toLE4 _ hs, fromLE_toLE4 _ hu]

theorem json_roundtrip (msg : JsonMessage) (buffer : List Byte)
    (hm : msg.payload.HoldsData msg.size) (hb : buffer.length = 4 + msg.size) :
    ∃ encoded decoded, writeJson buffer msg = .ok encoded ∧ encoded.length = 4 + msg.size
      ∧ readJson encoded = .ok decoded
      ∧ msg.payload.SameData msg.size decoded.payload decoded.size := by
  obtain ⟨p, hv, hl⟩ := view_of_holdsData _ _ hm
  have h4 : (toLE 4 msg.size).length = 4 := toLE_length 4 msg.size
  refine ⟨toLE 4 msg.size ++ (p ++ []),
    { size := msg.size, payload := ⟨.array (toLE 4 msg.size ++ (p ++ [])), 4⟩ }, ?_, ?_, ?_, ?_⟩
  · rw [writeJson_eq buffer msg p hv (by omega), List.drop_of_length_le (by omega)]
    simp only [List.append_assoc]
  · simp only [List.length_append, List.length_nil, h4, hl, Nat.add_zero]
  · unfold readJson
    rw [load_zero _ _ 4 h4.symm, ok_bind, fromLE_toLE4 _ hm.1]
    rfl
  · refine ⟨rfl, by simp [hv], ?_⟩
    rw [hv]
    exact (view_skip (toLE 4 msg.size) _ p 4 0 _ (by omega) (view_zero _ _ _ hl.symm)).symm

theorem wireChunk_roundtrip (msg : WireChunk) (buffer : List Byte)
    (hm : (Message.WireChunk msg).WellFormed)
    (hb : buffer.length = (Message.WireChunk msg).bodySize) :
    ∃ encoded decoded, write buffer (.WireChunk msg) = .ok encoded
      ∧ encoded.length = (Message.WireChunk msg).bodySize
      ∧ read encoded MessageType.WIRE_CHUNK = .ok decoded
      ∧ (Message.WireChunk msg).SameContent decoded := by
  simp only [Message.WellFormed, Message.bodySize] at hm hb ⊢
  obtain ⟨hs, hu, hd⟩ := hm
  obtain ⟨p, hv, hl⟩ := view_of_holdsData _ _ hd
  have h4 : (toLE 4 msg.size).length = 4 := toLE_length 4 msg.size
  have h8 : msg.timestamp.bytes.length = 8 := by simp [Time.bytes, toLE_length]
  refine ⟨msg.timestamp.bytes ++ (toLE 4 msg.size ++ (p ++ [])),
    .WireChunk { timestamp := msg.timestamp, size := msg.size,
                 payload := ⟨.array (msg.timestamp.bytes ++ (toLE 4 msg.size ++ (p ++ []))), 8 + 4⟩ },
    ?_, ?_, ?_, ?_⟩
  · rw [write_WireChunk_eq buffer msg p hv (by omega), List.drop_of_length_le (by omega)]
    simp only [List.append_assoc]
  · simp only [List.length_append, List.length_nil, h4, h8, hl]
    omega
  · simp only [read, readTime]
    rw [load_zero _ _ 8 h8.symm, ok_bind]
    simp only [pure, Except.pure]
    rw [ok_bind, load_skip _ _ (toLE 4 msg.size) 8 0 4 (by omega) (load_zero _ _ 4 h4.symm),
      ok_bind, fromLE_toLE4 _ hd.1, time_ofBytes_bytes _ hs hu]
  · refine ⟨rfl, rfl, rfl, by simp [hv], ?_⟩
    rw [hv]
    exact (view_skip msg.timestamp.bytes _ p (8 + 4) 4 _ (by omega)
      (view_skip (toLE 4 msg.size) _ p 4 0 _ (by omega) (view_zero _ _ _ hl.symm))).symm

theorem codecHeader_roundtrip (msg : CodecHeader) (buffer : List Byte)
    (hm : (Message.CodecHeader msg).WellFormed)
    (hb : buffer.length = (Message.CodecHeader msg).bodySize) :
    ∃ encoded decoded, write buffer (.CodecHeader msg) = .ok encoded
      ∧ encoded.length = (Message.CodecHeader msg).bodySize
      ∧ read encoded MessageType.CODEC_HEADER = .ok decoded
      ∧ (Message.CodecHeader msg).SameContent decoded := by
  simp only [Message.WellFormed, Message.bodySize] at hm hb ⊢
  obtain ⟨hcd, hpd⟩ := hm
  obtain ⟨c, hc, hcl⟩ := view_of_holdsData _ _ hcd
  obtain ⟨p, hp, hpl⟩ := view_of_holdsData _ _ hpd
  have h4c : (toLE 4 msg.codecSize).length = 4 := toLE_length 4 msg.codecSize
  have h4s : (toLE 4 msg.size).length = 4 := toLE_length 4 msg.size
  refine ⟨toLE 4 msg.codecSize ++ (c ++ (toLE 4 msg.size ++ (p ++ []))),
    .CodecHeader { codecSize := msg.codecSize, size := msg.size,
                   codec := ⟨.array (toLE 4 msg.codecSize ++ (c ++ (toLE 4 msg.size ++ (p ++ [])))), 4⟩,
                   payload := ⟨.array (toLE 4 msg.codecSize ++ (c ++ (toLE 4 msg.size ++ (p ++ [])))),
                               4 + msg.codecSize + 4⟩ },
    ?_, ?_, ?_, ?_⟩
  · rw [write_CodecHeader_eq buffer msg c p hc hp (by omega), List.drop_of_length_le (by omega)]
    simp only [List.append_assoc]
  · simp only [List.length_append, List.length_nil, h4c, h4s, hcl, hpl]
    omega
  · simp only [read, Nat.zero_add]
    rw [load_zero _ _ 4 h4c.symm, ok_bind, fromLE_toLE4 _ hcd.1,
      load_skip _ _ (toLE 4 msg.size) (4 + msg.codecSize) msg.codecSize 4 (by omega)
        (load_skip c _ _ msg.codecSize 0 4 (by omega) (load_zero _ _ 4 h4s.symm)),
      ok_bind, fromLE_toLE4 _ hpd.1]
    rfl
  · refine ⟨⟨rfl, by simp [hc], ?_⟩, ⟨rfl, by simp [hp], ?_⟩⟩
    · rw [hc]
      exact (view_skip (toLE 4 msg.codecSize) _ c 4 0 _ (by omega)
        (view_zero _ _ _ hcl.symm)).symm
    · rw [hp]
      exact (view_skip (toLE 4 msg.codecSize) _ p (4 + msg.codecSize + 4) (msg.codecSize + 4) _
        (by omega) (view_skip c _ p (msg.codecSize + 4) 4 _ (by omega)
          (view_skip (toLE 4 msg.size) _ p 4 0 _ (by omega) (view_zero _ _ _ hpl.symm)))).symm

theorem error_roundtrip (msg : Error) (buffer : List Byte)
    (hm : (Message.Error msg).WellFormed)
    (hb : buffer.length = (Message.Error msg).bodySize) :
    ∃ encoded decoded, write buffer (.Error msg) = .ok encoded
      ∧ encoded.length = (Message.Error msg).bodySize
      ∧ read encoded MessageType.ERROR = .ok decoded
      ∧ (Message.Error msg).SameContent decoded := by
  simp only [Message.WellFormed, Message.bodySize] at hm hb ⊢
  obtain ⟨hec, hsd, hmd⟩ := hm
  obtain ⟨s, hs, hsl⟩ := view_of_holdsData _ _ hsd
  obtain ⟨m, hmv, hml⟩ := view_of_holdsData _ _ hmd
  have h4c : (toLE 4 msg.errorCode).length = 4 := toLE_length 4 msg.errorCode
  have h4s : (toLE 4 msg.errorSize).length = 4 := toLE_length 4 msg.errorSize
  have h4m : (toLE 4 msg.errorMessageSize).length = 4 := toLE_length 4 msg.errorMessageSize
  refine ⟨toLE 4 msg.errorCode ++ (toLE 4 msg.errorSize ++ (s
            ++ (toLE 4 msg.errorMessageSize ++ (m ++ [])))),
    .Error { errorCode := msg.errorCode, errorSize := msg.errorSize,
             error := ⟨.array (toLE 4 msg.errorCode ++ (toLE 4 msg.errorSize ++ (s
                        ++ (toLE 4 msg.errorMessageSize ++ (m ++ []))))), 4 + 4⟩,
             errorMessageSize := msg.errorMessageSize,
             errorMessage := ⟨.array (toLE 4 msg.errorCode ++ (toLE 4 msg.errorSize ++ (s
                        ++ (toLE 4 msg.errorMessageSize ++ (m ++ []))))),
                              4 + 4 + msg.errorSize + 4⟩ },
    ?_, ?_, ?_, ?_⟩
  · rw [write_Error_eq buffer msg s m hs hmv (by omega), List.drop_of_length_le (by omega)]
    simp only [List.append_assoc]
  · simp only [List.length_append, List.length_nil, h4c, h4s, h4m, hsl, hml]
    omega
  · simp only [read, Nat.zero_add]
    rw [load_zero _ _ 4 h4c.symm, ok_bind, fromLE_toLE4 _ hec,
      load_skip _ _ (toLE 4 msg.errorSize) 4 0 4 (by omega) (load_zero _ _ 4 h4s.symm),
      ok_bind, fromLE_toLE4 _ hsd.1,
      load_skip _ _ (toLE 4 msg.errorMessageSize) (4 + 4 + msg.errorSize) (4 + msg.errorSize) 4
        (by omega) (load_skip _ _ _ (4 + msg.errorSize) msg.errorSize 4 (by omega)
          (load_skip s _ _ msg.errorSize 0 4 (by omega) (load_zero _ _ 4 h4m.symm))),
      ok_bind, fromLE_toLE4 _ hmd.1]
    rfl
  · refine ⟨rfl, ⟨rfl, by simp [hs], ?_⟩, ⟨rfl, by simp [hmv], ?_⟩⟩
    · rw [hs]
      exact (view_skip (toLE 4 msg.errorCode) _ s (4 + 4) 4 _ (by omega)
        (view_skip (toLE 4 msg.errorSize) _ s 4 0 _ (by omega)
          (view_zero _ _ _ hsl.symm))).symm
    · rw [hmv]
      exact (view_skip (toLE 4 msg.errorCode) _ m (4 + 4 + msg.errorSize + 4)
        (4 + msg.errorSize + 4) _ (by omega)
        (view_skip (toLE 4 msg.errorSize) _ m (4 + msg.errorSize + 4) (msg.errorSize + 4) _
          (by omega) (view_skip s _ m (msg.errorSize + 4) 4 _ (by omega)
            (view_skip (toLE 4 msg.errorMessageSize) _ m 4 0 _ (by omega)
              (view_zero _ _ _ hml.symm))))).symm

theorem view_ofData (p : List Byte) (h : p.length < 2 ^ 32) :
    (Ptr.mk (.array p) 0).view (p.length % 2 ^ 32) = some p := by
  rw [Nat.mod_eq_of_lt h]
  simp [Ptr.view]

/-! ## `read` and the length members it finds -/

theorem load_ok (mem : List Byte) (off n : Nat) (h : off + n ≤ mem.length) :
    load mem off n = .ok ((mem.drop off).take n) := by
  simp [load, h]

theorem load_beyond (mem : List Byte) (off n : Nat) (h : mem.length < off + n)
    (ho : mem.length ≤ off) : load mem off n = .error (.readOutOfBounds off) := by
  have h1 : ¬ (off + n ≤ mem.length) := by omega
  have h2 : max off mem.length = off := by omega
  simp only [load, h1, if_false, h2]

theorem view_none (buffer : List Byte) (off n : Nat) (h : buffer.length < off + n) :
    (Ptr.mk (.array buffer) off).view n = none := by
  have h1 : ¬ (off + n ≤ buffer.length) := by omega
  simp only [Ptr.view, h1, if_false]

theorem view_isSome (p : Ptr) (n : Nat) (h : p.mem.Holds (p.off + n)) :
    (p.view n).isSome = true := by
  obtain ⟨bytes, hm, hle⟩ := holds_array _ _ h
  simp [Ptr.view, hm, hle]

theorem time_bytes_length (t : Time) : t.bytes.length = 8 := by
  simp [Time.bytes, toLE_length]

theorem base_bytes_length (b : Base) : b.bytes.length = 26 := by
  simp [Base.bytes, Time.bytes, toLE_length]

theorem time_bytes_val (t : Time) :
    t.bytes.map Fin.val
      = [t.sec % 256, t.sec / 256 % 256, t.sec / 65536 % 256, t.sec / 16777216 % 256,
         t.usec % 256, t.usec / 256 % 256, t.usec / 65536 % 256, t.usec / 16777216 % 256] := by
  simp [Time.bytes, toLE, Nat.div_div_eq_div_mul]

theorem base_bytes_val (b : Base) :
    b.bytes.map Fin.val
      = [b.type % 256, b.type / 256 % 256,
         b.id % 256, b.id / 256 % 256,
         b.refersTo % 256, b.refersTo / 256 % 256,
         b.sent.sec % 256, b.sent.sec / 256 % 256, b.sent.sec / 65536 % 256,
         b.sent.sec / 16777216 % 256,
         b.sent.usec % 256, b.sent.usec / 256 % 256, b.sent.usec / 65536 % 256,
         b.sent.usec / 16777216 % 256,
         b.received.sec % 256, b.received.sec / 256 % 256, b.received.sec / 65536 % 256,
         b.received.sec / 16777216 % 256,
         b.received.usec % 256, b.received.usec / 256 % 256, b.received.usec / 65536 % 256,
         b.received.usec / 16777216 % 256,
         b.size % 256, b.size / 256 % 256, b.size / 65536 % 256, b.size / 16777216 % 256] := by
  simp [Base.bytes, Time.bytes, toLE, Nat.div_div_eq_div_mul]

theorem readTime_eq (buffer : List Byte) (h : 8 ≤ buffer.length) :
    readTime buffer
      = .ok { sec := byteAt buffer 0 + 256 * byteAt buffer 1 + 65536 * byteAt buffer 2
                      + 16777216 * byteAt buffer 3,
              usec := byteAt buffer 4 + 256 * byteAt buffer 5 + 65536 * byteAt buffer 6
                      + 16777216 * byteAt buffer 7 } := by
  unfold readTime
  rw [load_ok buffer 0 8 (by omega), ok_bind, time_ofBytes_take_drop,
    fromLE_take4_drop buffer 0 (by omega), fromLE_take4_drop buffer (0 + 4) (by omega)]
  rfl

theorem readBase_eq (buffer : List Byte) (h : 26 ≤ buffer.length) :
    readBase buffer
      = .ok { type := byteAt buffer 0 + 256 * byteAt buffer 1,
              id := byteAt buffer 2 + 256 * byteAt buffer 3,
              refersTo := byteAt buffer 4 + 256 * byteAt buffer 5,
              sent :=
                { sec := byteAt buffer 6 + 256 * byteAt buffer 7 + 65536 * byteAt buffer 8
                          + 16777216 * byteAt buffer 9,
                  usec := byteAt buffer 10 + 256 * byteAt buffer 11 + 65536 * byteAt buffer 12
                          + 16777216 * byteAt buffer 13 },
              received :=
                { sec := byteAt buffer 14 + 256 * byteAt buffer 15 + 65536 * byteAt buffer 16
                          + 16777216 * byteAt buffer 17,
                  usec := byteAt buffer 18 + 256 * byteAt buffer 19 + 65536 * byteAt buffer 20
                          + 16777216 * byteAt buffer 21 },
              size := byteAt buffer 22 + 256 * byteAt buffer 23 + 65536 * byteAt buffer 24
                          + 16777216 * byteAt buffer 25 } := by
  have e0 : (buffer.take 26).take 2 = (buffer.drop 0).take 2 := by
    rw [List.take_take, Nat.min_eq_left (by omega), List.drop_zero]
  have e6 : Time.ofBytes (((buffer.take 26).drop 6).take 8)
      = Time.ofBytes ((buffer.drop 6).take 8) := by
    rw [take_drop_take _ 6 8 26 (by omega)]
  have e14 : Time.ofBytes (((buffer.take 26).drop 14).take 8)
      = Time.ofBytes ((buffer.drop 14).take 8) := by
    rw [take_drop_take _ 14 8 26 (by omega)]
  unfold readBase
  rw [load_ok buffer 0 26 (by omega), ok_bind, List.drop_zero]
  simp only [Base.ofBytes, e0, e6, e14, take_drop_take _ 2 2 26 (by omega),
    take_drop_take _ 4 2 26 (by omega), take_drop_take _ 22 4 26 (by omega),
    time_ofBytes_take_drop, fromLE_take2_drop buffer 0 (by omega),
    fromLE_take2_drop buffer 2 (by omega), fromLE_take2_drop buffer 4 (by omega),
    fromLE_take4_drop buffer 6 (by omega), fromLE_take4_drop buffer (6 + 4) (by omega),
    fromLE_take4_drop buffer 14 (by omega), fromLE_take4_drop buffer (14 + 4) (by omega),
    fromLE_take4_drop buffer 22 (by omega)]
  rfl

theorem base_ofBytes_bytes (b : Base) (h : b.Valid) : Base.ofBytes b.bytes = b := by
  obtain ⟨h1, h2, h3, h4, h5, h6, h7, h8⟩ := h
  obtain ⟨type, id, refersTo, ⟨ss, su⟩, ⟨rs, ru⟩, size⟩ := b
  simp only at h1 h2 h3 h4 h5 h6 h7 h8
  simp only [Base.ofBytes, Base.bytes, Time.bytes, Time.ofBytes, toLE, List.cons_append,
    List.nil_append, List.take_succ_cons, List.take_zero, List.drop_succ_cons, List.drop_zero,
    fromLE, Base.mk.injEq, Time.mk.injEq]
  have h1n : @LT.lt Nat _ type (2 ^ 16) := h1
  refine ⟨?_, ?_, ?_, ⟨?_, ?_⟩, ⟨?_, ?_⟩, ?_⟩
  · show @Eq Nat _ type
    omega
  all_goals omega

theorem read_CodecHeader_beyond (buffer : List Byte) (h4 : 4 ≤ buffer.length)
    (h : buffer.length - 4 < fromLE (buffer.take 4)) :
    read buffer MessageType.CODEC_HEADER
      = .error (.readOutOfBounds (4 + fromLE (buffer.take 4))) := by
  simp only [read, Nat.zero_add]
  rw [load_ok buffer 0 4 (by omega), ok_bind, List.drop_zero,
    load_beyond buffer _ 4 (by omega) (by omega), error_bind]

theorem read_CodecHeader_ok (buffer : List Byte)
    (h : 4 + fromLE (buffer.take 4) + 4 ≤ buffer.length) :
    read buffer MessageType.CODEC_HEADER
      = .ok (.CodecHeader
          { codecSize := fromLE (buffer.take 4),
            size := fromLE ((buffer.drop (4 + fromLE (buffer.take 4))).take 4),
            codec := ⟨.array buffer, 4⟩,
            payload := ⟨.array buffer, 4 + fromLE (buffer.take 4) + 4⟩ }) := by
  simp only [read, Nat.zero_add]
  rw [load_ok buffer 0 4 (by omega), ok_bind, List.drop_zero, load_ok buffer _ 4 h, ok_bind]
  rfl

theorem read_Error_beyond (buffer : List Byte) (h8 : 8 ≤ buffer.length)
    (h : buffer.length - 8 < fromLE ((buffer.drop 4).take 4)) :
    read buffer MessageType.ERROR
      = .error (.readOutOfBounds (4 + 4 + fromLE ((buffer.drop 4).take 4))) := by
  simp only [read, Nat.zero_add]
  rw [load_ok buffer 0 4 (by omega), ok_bind, load_ok buffer 4 4 (by omega), ok_bind,
    load_beyond buffer _ 4 (by omega) (by omega), error_bind]

theorem read_Error_ok (buffer : List Byte)
    (h : 4 + 4 + fromLE ((buffer.drop 4).take 4) + 4 ≤ buffer.length) :
    read buffer MessageType.ERROR
      = .ok (.Error
          { errorCode := fromLE (buffer.take 4),
            errorSize := fromLE ((buffer.drop 4).take 4),
            error := ⟨.array buffer, 4 + 4⟩,
            errorMessageSize :=
              fromLE ((buffer.drop (4 + 4 + fromLE ((buffer.drop 4).take 4))).take 4),
            errorMessage := ⟨.array buffer, 4 + 4 + fromLE ((buffer.drop 4).take 4) + 4⟩ }) := by
  simp only [read, Nat.zero_add]
  rw [load_ok buffer 0 4 (by omega), ok_bind, load_ok buffer 4 4 (by omega), ok_bind,
    List.drop_zero, load_ok buffer _ 4 h, ok_bind]
  rfl

theorem load_ne_unreachable (mem : List Byte) (off n : Nat) {α : Type}
    (f : List Byte → Except Fault α) (hf : ∀ d, f d ≠ .error .unreachable) :
    (load mem off n >>= f) ≠ .error .unreachable := by
  unfold load
  split
  · exact hf _
  · intro h
    cases h

theorem read_known_type (buffer : List Byte) (type : Nat) (h1 : 1 ≤ type) (h7 : type ≤ 7) :
    read buffer type ≠ .error .unreachable := by
  interval_cases type
  all_goals
    simp only [read, readJson, readTime, bind_assoc, pure_bind]
    repeat' first
      | (apply load_ne_unreachable; intro _)
      | (intro h; cases h)

/-! ## The views `read` returns -/

theorem readJson_ok (buffer : List Byte) (h : 4 ≤ buffer.length) :
    readJson buffer = .ok { payload := ⟨.array buffer, 4⟩, size := u32At buffer 0 } := by
  unfold readJson
  rw [load_ok buffer 0 4 (by omega), ok_bind]
  rfl

theorem read_WireChunk_ok (buffer : List Byte) (h : 12 ≤ buffer.length) :
    read buffer MessageType.WIRE_CHUNK
      = .ok (.WireChunk { timestamp := Time.ofBytes (buffer.take 8), payload := ⟨.array buffer, 12⟩,
                          size := u32At buffer 8 }) := by
  simp only [read, readTime]
  rw [load_ok buffer 0 8 (by omega), ok_bind]
  simp only [pure, Except.pure]
  rw [ok_bind, load_ok buffer 8 4 (by omega), ok_bind]
  rfl

theorem view_eq_of_le (buffer : List Byte) (off n : Nat) (h : off + n ≤ buffer.length) :
    (Ptr.mk (.array buffer) off).view n = some ((buffer.drop off).take n) := by
  simp [Ptr.view, h]

theorem readBase_short (buffer : List Byte) (h : buffer.length < 26) :
    readBase buffer = .error (.readOutOfBounds buffer.length) := by
  have h1 : ¬ (0 + 26 ≤ buffer.length) := by omega
  have h2 : max 0 buffer.length = buffer.length := by omega
  simp only [readBase, load, h1, if_false, h2]
  rfl

/-! ## `SnapClient::send` -/

theorem castU32_lt (x : Int) : castU32 x < 2 ^ 32 := by
  unfold castU32
  omega

theorem stamp_valid (now : Int) : (stamp now).sec < 2 ^ 32 ∧ (stamp now).usec < 2 ^ 32 :=
  ⟨castU32_lt _, castU32_lt _⟩

theorem wire_of_write (m : Message) (encoding : List Byte)
    (h : ∀ buffer : List Byte, m.bodySize ≤ buffer.length →
      write buffer m = .ok (encoding ++ buffer.drop m.bodySize)) :
    m.wire = encoding := by
  have h0 := h (List.replicate m.bodySize 0) (by simp)
  rw [List.drop_of_length_le (by simp), List.append_nil] at h0
  simp only [Message.wire, h0]

theorem write_wire (m : Message) (hm : m.WellFormed) :
    m.wire.length = m.bodySize
      ∧ ∀ buffer : List Byte, m.bodySize ≤ buffer.length →
          write buffer m = .ok (m.wire ++ buffer.drop m.bodySize) := by
  suffices h : ∃ encoding : List Byte, encoding.length = m.bodySize
      ∧ ∀ buffer : List Byte, m.bodySize ≤ buffer.length →
          write buffer m = .ok (encoding ++ buffer.drop m.bodySize) by
    obtain ⟨e, hl, hw⟩ := h
    rw [wire_of_write m e hw]
    exact ⟨hl, hw⟩
  cases m with
  | Hello msg =>
    obtain ⟨p, hv, hl⟩ := view_of_holdsData _ _ hm
    refine ⟨toLE 4 msg.size ++ p, by simp [Message.bodySize, toLE_length, hl], ?_⟩
    intro buffer hb
    simp only [Message.bodySize] at hb ⊢
    have h := writeJson_eq buffer msg p hv (by omega)
    rw [hl] at h
    exact h
  | ServerSettings msg =>
    obtain ⟨p, hv, hl⟩ := view_of_holdsData _ _ hm
    refine ⟨toLE 4 msg.size ++ p, by simp [Message.bodySize, toLE_length, hl], ?_⟩
    intro buffer hb
    simp only [Message.bodySize] at hb ⊢
    have h := writeJson_eq buffer msg p hv (by omega)
    rw [hl] at h
    exact h
  | ClientInfo msg =>
    obtain ⟨p, hv, hl⟩ := view_of_holdsData _ _ hm
    refine ⟨toLE 4 msg.size ++ p, by simp [Message.bodySize, toLE_length, hl], ?_⟩
    intro buffer hb
    simp only [Message.bodySize] at hb ⊢
    have h := writeJson_eq buffer msg p hv (by omega)
    rw [hl] at h
    exact h
  | Time msg =>
    refine ⟨msg.bytes, time_bytes_length msg, ?_⟩
    intro buffer hb
    simp only [Message.bodySize] at hb ⊢
    exact writeTime_eq buffer msg hb
  | WireChunk msg =>
    obtain ⟨p, hv, hl⟩ := view_of_holdsData _ _ hm.2.2
    refine ⟨msg.timestamp.bytes ++ toLE 4 msg.size ++ p,
      by simp [Message.bodySize, toLE_length, hl, time_bytes_length]; omega, ?_⟩
    intro buffer hb
    simp only [Message.bodySize] at hb ⊢
    have h := write_WireChunk_eq buffer msg p hv (by omega)
    rw [hl] at h
    exact h
  | CodecHeader msg =>
    obtain ⟨c, hc, hcl⟩ := view_of_holdsData _ _ hm.1
    obtain ⟨p, hp, hpl⟩ := view_of_holdsData _ _ hm.2
    refine ⟨toLE 4 msg.codecSize ++ c ++ toLE 4 msg.size ++ p,
      by simp [Message.bodySize, toLE_length, hcl, hpl]; omega, ?_⟩
    intro buffer hb
    simp only [Message.bodySize] at hb ⊢
    have h := write_CodecHeader_eq buffer msg c p hc hp (by omega)
    rw [hcl, hpl] at h
    have e : 8 + msg.codecSize + msg.size = 4 + msg.codecSize + 4 + msg.size := by omega
    rw [e] at h
    exact h
  | Error msg =>
    obtain ⟨s, hs, hsl⟩ := view_of_holdsData _ _ hm.2.1
    obtain ⟨t, ht, htl⟩ := view_of_holdsData _ _ hm.2.2
    refine ⟨toLE 4 msg.errorCode ++ toLE 4 msg.errorSize ++ s ++ toLE 4 msg.errorMessageSize ++ t,
      by simp [Message.bodySize, toLE_length, hsl, htl]; omega, ?_⟩
    intro buffer hb
    simp only [Message.bodySize] at hb ⊢
    have h := write_Error_eq buffer msg s t hs ht (by omega)
    rw [hsl, htl] at h
    have e : 12 + msg.errorSize + msg.errorMessageSize
        = 4 + 4 + msg.errorSize + 4 + msg.errorMessageSize := by omega
    rw [e] at h
    exact h

theorem read_wire (m : Message) (hm : m.WellFormed) :
    ∃ decoded, read m.wire m.type = .ok decoded ∧ m.SameContent decoded := by
  have hw := (write_wire m hm).2 (List.replicate m.bodySize 0) (by simp)
  rw [List.drop_of_length_le (by simp), List.append_nil] at hw
  have hl : (List.replicate m.bodySize (0 : Byte)).length = m.bodySize := by simp
  have key : ∃ encoded decoded, write (List.replicate m.bodySize 0) m = .ok encoded
      ∧ encoded.length = m.bodySize ∧ read encoded m.type = .ok decoded
      ∧ m.SameContent decoded := by
    cases m with
    | Hello msg =>
      obtain ⟨e, d, h1, h2, h3, h4⟩ := json_roundtrip msg _ hm hl
      exact ⟨e, .Hello d, h1, h2, by simp only [Message.type, read, h3]; rfl, h4⟩
    | ServerSettings msg =>
      obtain ⟨e, d, h1, h2, h3, h4⟩ := json_roundtrip msg _ hm hl
      exact ⟨e, .ServerSettings d, h1, h2, by simp only [Message.type, read, h3]; rfl, h4⟩
    | ClientInfo msg =>
      obtain ⟨e, d, h1, h2, h3, h4⟩ := json_roundtrip msg _ hm hl
      exact ⟨e, .ClientInfo d, h1, h2, by simp only [Message.type, read, h3]; rfl, h4⟩
    | Time msg =>
      have h8 : msg.bytes.length = 8 := time_bytes_length msg
      refine ⟨msg.bytes ++ [], .Time msg, ?_, by simpa using h8, ?_, ⟨rfl, rfl⟩⟩
      · show writeTime _ msg = _
        rw [writeTime_eq _ msg (by simp [Message.bodySize]),
          List.drop_of_length_le (by simp [Message.bodySize])]
      · simp only [Message.type, read, readTime]
        rw [load_zero _ _ 8 h8.symm, ok_bind]
        simp only [pure, Except.pure]
        rw [ok_bind, time_ofBytes_bytes _ hm.1 hm.2]
    | WireChunk msg => exact wireChunk_roundtrip msg _ hm hl
    | CodecHeader msg => exact codecHeader_roundtrip msg _ hm hl
    | Error msg => exact error_roundtrip msg _ hm hl
  obtain ⟨e, d, h1, _, h3, h4⟩ := key
  rw [hw] at h1
  cases h1
  exact ⟨d, h3, h4⟩

theorem makeBase_sendable (now : Int) (id : Nat) (m : Message) (hs : m.Sendable) :
    ∃ m', SnapClient.makeBase now id m
        = .ok ({ type := m.type, id := id, refersTo := 0, sent := stamp now,
                 received := { sec := 0, usec := 0 }, size := m'.bodySize % 2 ^ 32 }, m')
      ∧ m'.type = m.type ∧ m'.Sendable
      ∧ (m' = m ∨ ((∃ t, m = .Time t) ∧ m' = .Time (stamp now))) := by
  cases m with
  | Hello msg => exact ⟨.Hello msg, rfl, rfl, hs, Or.inl rfl⟩
  | ServerSettings msg => exact ⟨.ServerSettings msg, rfl, rfl, hs, Or.inl rfl⟩
  | ClientInfo msg => exact ⟨.ClientInfo msg, rfl, rfl, hs, Or.inl rfl⟩
  | Time msg => exact ⟨.Time (stamp now), rfl, rfl, hs, Or.inr ⟨⟨msg, rfl⟩, rfl⟩⟩
  | WireChunk msg => exact ⟨.WireChunk msg, rfl, rfl, hs, Or.inl rfl⟩
  | CodecHeader msg => exact hs.elim
  | Error msg => exact hs.elim

theorem makeBase_unreachable (now : Int) (id : Nat) (m : Message) (hs : ¬ m.Sendable) :
    SnapClient.makeBase now id m = .error .unreachable := by
  cases m with
  | CodecHeader msg => rfl
  | Error msg => rfl
  | Hello msg => exact (hs trivial).elim
  | ServerSettings msg => exact (hs trivial).elim
  | ClientInfo msg => exact (hs trivial).elim
  | Time msg => exact (hs trivial).elim
  | WireChunk msg => exact (hs trivial).elim

theorem region_past_holds (mem : Region) (skipped : List Byte) (last : Nat)
    (h : mem.Holds last) : mem.past skipped = mem := by
  cases mem with
  | array bytes => rfl
  | destination before => exact h.elim

theorem ptr_past_holdsData (p : Ptr) (skipped : List Byte) (n : Nat) (h : p.HoldsData n) :
    p.past skipped = p := by
  unfold Ptr.past
  rw [region_past_holds _ _ _ h.2]

theorem past_wellFormed (m : Message) (skipped : List Byte) (h : m.WellFormed) :
    m.past skipped = m := by
  cases m with
  | Hello msg =>
    simp only [Message.past, ptr_past_holdsData _ skipped _ h]
  | ServerSettings msg =>
    simp only [Message.past, ptr_past_holdsData _ skipped _ h]
  | ClientInfo msg =>
    simp only [Message.past, ptr_past_holdsData _ skipped _ h]
  | Time msg => rfl
  | WireChunk msg =>
    simp only [Message.past, ptr_past_holdsData _ skipped _ h.2.2]
  | CodecHeader msg =>
    simp only [Message.past, ptr_past_holdsData _ skipped _ h.1,
      ptr_past_holdsData _ skipped _ h.2]
  | Error msg =>
    simp only [Message.past, ptr_past_holdsData _ skipped _ h.2.1,
      ptr_past_holdsData _ skipped _ h.2.2]

theorem send_check_fails (socket : Socket) (now : Int) (id : Nat) (message message' : Message)
    (base : Base) (buffer : List Byte)
    (hb : SnapClient.makeBase now id message = .ok (base, message'))
    (hlt : buffer.length < 26 + base.size) :
    SnapClient.send socket now id message buffer
      = .ok (.error .no_buffer_space, buffer, socket) := by
  unfold SnapClient.send
  rw [hb]
  simp only [ok_bind, hlt, if_true]
  rfl

theorem send_check_passes (socket : Socket) (now : Int) (id : Nat)
    (message message' : Message) (base : Base) (buffer body : List Byte)
    (hb : SnapClient.makeBase now id message = .ok (base, message'))
    (hge : 26 + base.size ≤ buffer.length)
    (hw : write (buffer.drop 26) (message'.past base.bytes) = .ok body) :
    SnapClient.send socket now id message buffer
      = .ok (if socket.nextError.1 ≠ .success then .error socket.nextError.1
              else .ok base.sent,
          base.bytes ++ body,
          { socket.nextError.2 with
            outData := socket.nextError.2.outData
              ++ [(base.bytes ++ body).take (26 + base.size)] }) := by
  have hlt : ¬ (buffer.length < 26 + base.size) := by omega
  have hl : base.bytes.length = 26 := base_bytes_length base
  unfold SnapClient.send
  rw [hb]
  simp only [ok_bind, hlt, if_false]
  rw [writeBase_eq buffer base (by omega), ok_bind, List.drop_left' hl, List.take_left' hl,
    hw, ok_bind]
  simp only [TcpClient.write]
  split <;> rfl

theorem send_write_faults (socket : Socket) (now : Int) (id : Nat)
    (message message' : Message) (base : Base) (buffer : List Byte) (fault : Fault)
    (hb : SnapClient.makeBase now id message = .ok (base, message'))
    (hge : 26 + base.size ≤ buffer.length)
    (hw : write (buffer.drop 26) (message'.past base.bytes) = .error fault) :
    SnapClient.send socket now id message buffer = .error fault := by
  have hlt : ¬ (buffer.length < 26 + base.size) := by omega
  have hl : base.bytes.length = 26 := base_bytes_length base
  unfold SnapClient.send
  rw [hb]
  simp only [ok_bind, hlt, if_false]
  rw [writeBase_eq buffer base (by omega), ok_bind, List.drop_left' hl, List.take_left' hl,
    hw]
  rfl

theorem nextError_outData (socket : Socket) :
    socket.nextError.2.outData = socket.outData := by
  unfold Socket.nextError
  split <;> rfl

theorem nextError_inData (socket : Socket) :
    socket.nextError.2.inData = socket.inData := by
  unfold Socket.nextError
  split <;> rfl

theorem nextError_readSizes (socket : Socket) :
    socket.nextError.2.readSizes = socket.readSizes := by
  unfold Socket.nextError
  split <;> rfl

theorem send_outcome (socket : Socket) (now : Int) (id : Nat) (message : Message)
    (buffer : List Byte) (out : Except ErrorCode Time × List Byte × Socket)
    (h : SnapClient.send socket now id message buffer = .ok out) :
    ∃ base message', SnapClient.makeBase now id message = .ok (base, message')
      ∧ ((buffer.length < 26 + base.size ∧ out = (.error .no_buffer_space, buffer, socket))
        ∨ (26 + base.size ≤ buffer.length
          ∧ ∃ body, write (buffer.drop 26) (message'.past base.bytes) = .ok body
            ∧ out = (if socket.nextError.1 ≠ .success then .error socket.nextError.1
                      else .ok base.sent,
                base.bytes ++ body,
                { socket.nextError.2 with
                  outData := socket.nextError.2.outData
                    ++ [(base.bytes ++ body).take (26 + base.size)] }))) := by
  by_cases hs : message.Sendable
  · obtain ⟨m', hb, -, -, -⟩ := makeBase_sendable now id message hs
    refine ⟨_, m', hb, ?_⟩
    by_cases hlt : buffer.length < 26 + m'.bodySize % 2 ^ 32
    · rw [send_check_fails socket now id message m' _ buffer hb hlt] at h
      exact Or.inl ⟨hlt, (Except.ok.inj h).symm⟩
    · have hge : 26 + m'.bodySize % 2 ^ 32 ≤ buffer.length := by omega
      refine Or.inr ⟨hge, ?_⟩
      cases hw : write (buffer.drop 26) (m'.past (Base.bytes
          { type := message.type, id := id, refersTo := 0, sent := stamp now,
            received := { sec := 0, usec := 0 }, size := m'.bodySize % 2 ^ 32 })) with
      | error fault =>
        rw [send_write_faults socket now id message m' _ buffer fault hb hge hw] at h
        cases h
      | ok body =>
        rw [send_check_passes socket now id message m' _ buffer body hb hge hw] at h
        exact ⟨body, rfl, (Except.ok.inj h).symm⟩
  · have hu : SnapClient.send socket now id message buffer = .error .unreachable := by
      unfold SnapClient.send
      rw [makeBase_unreachable now id message hs]
      rfl
    rw [hu] at h
    cases h

theorem send_wellFormed (socket : Socket) (now : Int) (id : Nat)
    (message message' : Message) (base : Base) (buffer : List Byte)
    (hb : SnapClient.makeBase now id message = .ok (base, message'))
    (hsz : base.size = message'.bodySize)
    (hwf : message'.WellFormed)
    (hge : 26 + message'.bodySize ≤ buffer.length) :
    SnapClient.send socket now id message buffer
      = .ok (if socket.nextError.1 ≠ .success then .error socket.nextError.1
              else .ok base.sent,
          base.bytes ++ (message'.wire ++ buffer.drop (26 + message'.bodySize)),
          { socket.nextError.2 with
            outData := socket.outData ++ [base.bytes ++ message'.wire] }) := by
  have hl : base.bytes.length = 26 := base_bytes_length base
  obtain ⟨hwl, hw⟩ := write_wire message' hwf
  have hw' := hw (buffer.drop 26) (by simp only [List.length_drop]; omega)
  rw [List.drop_drop, ← past_wellFormed message' base.bytes hwf] at hw'
  rw [send_check_passes socket now id message message' base buffer _ hb (by omega) hw',
    nextError_outData, past_wellFormed message' base.bytes hwf]
  have e : (base.bytes ++ (message'.wire ++ buffer.drop (26 + message'.bodySize))).take
      (26 + base.size) = base.bytes ++ message'.wire := by
    rw [← List.append_assoc, List.take_left' (by simp only [List.length_append]; omega)]
  rw [e]

theorem fromLE_toLE2_mod (n : Nat) : fromLE (toLE 2 n) = n % 2 ^ 16 := by
  simp only [toLE, fromLE]
  omega

theorem fromLE_toLE4_mod (n : Nat) : fromLE (toLE 4 n) = n % 2 ^ 32 := by
  simp only [toLE, fromLE]
  omega

theorem base_ofBytes_bytes_mod (b : Base) :
    Base.ofBytes b.bytes
      = { type := (b.type : Nat) % 2 ^ 16, id := b.id % 2 ^ 16,
          refersTo := b.refersTo % 2 ^ 16,
          sent := { sec := b.sent.sec % 2 ^ 32, usec := b.sent.usec % 2 ^ 32 },
          received := { sec := b.received.sec % 2 ^ 32, usec := b.received.usec % 2 ^ 32 },
          size := b.size % 2 ^ 32 } := by
  obtain ⟨type, id, refersTo, ⟨ss, su⟩, ⟨rs, ru⟩, size⟩ := b
  simp only [Base.ofBytes, Base.bytes, Time.bytes, Time.ofBytes, toLE, List.cons_append,
    List.nil_append, List.take_succ_cons, List.take_zero, List.drop_succ_cons, List.drop_zero,
    fromLE, Base.mk.injEq, Time.mk.injEq]
  refine ⟨?_, ?_, ?_, ⟨?_, ?_⟩, ⟨?_, ?_⟩, ?_⟩
  · show @Eq Nat _ _
    omega
  all_goals omega

theorem readBase_bytes (b : Base) (rest : List Byte) :
    readBase (b.bytes ++ rest) = .ok (Base.ofBytes b.bytes) := by
  unfold readBase
  rw [load_zero _ _ 26 (base_bytes_length b).symm, ok_bind]
  rfl

theorem makeBase_ok_inv (now : Int) (id : Nat) (m m' : Message) (base : Base)
    (h : SnapClient.makeBase now id m = .ok (base, m')) :
    m.Sendable
      ∧ base = { type := m.type, id := id, refersTo := 0, sent := stamp now,
                 received := { sec := 0, usec := 0 }, size := m'.bodySize % 2 ^ 32 }
      ∧ m'.type = m.type ∧ m'.Sendable
      ∧ (m' = m ∨ ((∃ t, m = .Time t) ∧ m' = .Time (stamp now))) := by
  by_cases hs : m.Sendable
  · obtain ⟨m'', hb, h1, h2, h3⟩ := makeBase_sendable now id m hs
    rw [hb] at h
    have e := Except.ok.inj h
    have e1 := congrArg Prod.fst e
    have e2 := congrArg Prod.snd e
    simp only at e1 e2
    subst e2
    exact ⟨hs, e1.symm, h1, h2, h3⟩
  · rw [makeBase_unreachable now id m hs] at h
    cases h

theorem type_mod (m : Message) : (m.type : Nat) % 2 ^ 16 = m.type := by
  cases m <;> rfl

theorem take_frame (header body : List Byte) (n : Nat) (h : header.length = 26) :
    (header ++ body).take (26 + n) = header ++ body.take n := by
  rw [← h, List.take_append]

theorem sameContent_type (a b : Message) (h : a.SameContent b) : b.type = a.type := by
  cases a <;> cases b <;> first | rfl | exact h.elim

theorem sameContent_time (t : Time) (b : Message) (h : (Message.Time t).SameContent b) :
    b = .Time t := by
  cases b with
  | Time d =>
    obtain ⟨h1, h2⟩ := h
    cases t
    cases d
    simp only at h1 h2
    subst h1 h2
    rfl
  | Hello _ => exact h.elim
  | ServerSettings _ => exact h.elim
  | ClientInfo _ => exact h.elim
  | WireChunk _ => exact h.elim
  | CodecHeader _ => exact h.elim
  | Error _ => exact h.elim

theorem send_frame_decodes (socket : Socket) (now : Int) (id : Nat) (m : Message)
    (buffer buffer' : List Byte) (socket' : Socket) (time : Time)
    (hs : m.Sendable) (hwf : m.WellFormed) (hfit : m.bodySize < 2 ^ 32)
    (hge : 26 + m.bodySize ≤ buffer.length)
    (h : SnapClient.send socket now id m buffer = .ok (.ok time, buffer', socket')) :
    ∃ frame header decoded,
      socket'.outData = socket.outData ++ [frame]
        ∧ readBase (frame.take 26) = .ok header
        ∧ frame.length = 26 + header.size
        ∧ header.type = m.type
        ∧ read ((frame.drop 26).take header.size) header.type = .ok decoded
        ∧ decoded.type = m.type
        ∧ (((∃ t, m = .Time t) ∧ decoded = .Time time) ∨ m.SameContent decoded) := by
  obtain ⟨m', hb, htype, -, hm'⟩ := makeBase_sendable now id m hs
  have hwf' : m'.WellFormed := by
    rcases hm' with rfl | ⟨-, rfl⟩
    · exact hwf
    · exact stamp_valid now
  have hbs : m'.bodySize = m.bodySize := by
    rcases hm' with rfl | ⟨⟨t, rfl⟩, rfl⟩
    · rfl
    · rfl
  have hmod : m'.bodySize % 2 ^ 32 = m'.bodySize := Nat.mod_eq_of_lt (by omega)
  have hsend := send_wellFormed socket now id m m' _ buffer hb hmod hwf' (by omega)
  rw [hsend] at h
  have e := Except.ok.inj h
  have e1 := congrArg (fun x => x.1) e
  have e3 := congrArg (fun x => x.2.2.outData) e
  simp only at e1 e3
  have htime : stamp now = time := by
    by_cases hec : socket.nextError.1 = .success
    · simp only [hec, ne_eq, not_true_eq_false, if_false] at e1
      exact Except.ok.inj e1
    · simp only [ne_eq, hec, not_false_eq_true, if_true] at e1
      cases e1
  have hl : ∀ b : Base, b.bytes.length = 26 := base_bytes_length
  obtain ⟨hwl, -⟩ := write_wire m' hwf'
  obtain ⟨decoded, hread, hsame⟩ := read_wire m' hwf'
  have hv := stamp_valid now
  refine ⟨_,
    Base.ofBytes (Base.bytes
      { type := m.type, id := id, refersTo := 0, sent := stamp now,
        received := { sec := 0, usec := 0 }, size := m'.bodySize % 2 ^ 32 }),
    decoded, e3.symm, ?_, ?_, ?_, ?_, ?_, ?_⟩
  · rw [List.take_left' (hl _)]
    have := readBase_bytes
      { type := m.type, id := id, refersTo := 0, sent := stamp now,
        received := { sec := 0, usec := 0 }, size := m'.bodySize % 2 ^ 32 } []
    rw [List.append_nil] at this
    exact this
  · rw [base_ofBytes_bytes_mod]
    simp only [List.length_append, hl, hwl, Nat.mod_mod]
    omega
  · rw [base_ofBytes_bytes_mod]
    exact type_mod m
  · rw [base_ofBytes_bytes_mod, List.drop_left' (hl _)]
    simp only [Nat.mod_mod, hmod]
    rw [List.take_of_length_le (by omega), type_mod, ← htype]
    exact hread
  · rw [sameContent_type m' decoded hsame, htype]
  · rcases hm' with rfl | ⟨ht, rfl⟩
    · exact Or.inr hsame
    · exact Or.inl ⟨ht, by rw [← htime]; exact sameContent_time _ _ hsame⟩

theorem read_json_short (l : List Byte) (h : l.length = 3) :
    read l MessageType.HELLO = .error (.readOutOfBounds 3) := by
  have h1 : ¬ (0 + 4 ≤ l.length) := by omega
  have h2 : max 0 l.length = 3 := by omega
  simp only [read, readJson, load, h1, if_false, h2]
  rfl

theorem send_wrapped_frame (socket : Socket) (now : Int) (id : Nat) (msg : JsonMessage)
    (buffer : List Byte) (hsz : msg.size = 4294967295)
    (hd : msg.payload.HoldsData msg.size) (hb : 4294967325 ≤ buffer.length)
    (hec : socket.nextError.1 = .success) :
    ∃ frame buffer' header,
      SnapClient.send socket now id (.Hello msg) buffer
          = .ok (.ok (stamp now), buffer',
              { socket.nextError.2 with outData := socket.outData ++ [frame] })
        ∧ frame.length = 29
        ∧ readBase (frame.take 26) = .ok header
        ∧ header.type = MessageType.HELLO
        ∧ header.size = 3
        ∧ read ((frame.drop 26).take header.size) header.type
            = .error (.readOutOfBounds 3) := by
  have hwf : (Message.Hello msg).WellFormed := hd
  obtain ⟨hwl, hw⟩ := write_wire (.Hello msg) hwf
  have hbody : (Message.Hello msg).bodySize = 4294967299 := by
    show 4 + msg.size = 4294967299
    rw [hsz]
  have hw' := hw (buffer.drop 26) (by simp only [List.length_drop]; omega)
  rw [← past_wellFormed (.Hello msg)
    (Base.bytes { type := MessageType.HELLO, id := id, refersTo := 0, sent := stamp now,
                  received := { sec := 0, usec := 0 }, size := 3 }) hwf] at hw'
  have hsize : (4 + msg.size) % 2 ^ 32 = 3 := by rw [hsz]; rfl
  have hmk : SnapClient.makeBase now id (.Hello msg)
      = .ok ({ type := MessageType.HELLO, id := id, refersTo := 0, sent := stamp now,
               received := { sec := 0, usec := 0 }, size := 3 }, .Hello msg) := by
    show Except.ok (_, _) = _
    rw [hsize]
  have hsend := send_check_passes socket now id (.Hello msg) (.Hello msg) _ buffer _ hmk
    (by show 26 + 3 ≤ buffer.length; omega) hw'
  rw [past_wellFormed (.Hello msg) _ hwf] at hsend
  have hl : ∀ b : Base, b.bytes.length = 26 := base_bytes_length
  rw [nextError_outData, take_frame _ _ _ (hl _)] at hsend
  simp only [hec, ne_eq, not_true_eq_false, if_false] at hsend
  have hl3 : (((Message.Hello msg).wire
      ++ (buffer.drop 26).drop (Message.Hello msg).bodySize).take 3).length = 3 := by
    simp only [List.length_take, List.length_append, hwl]
    omega
  have hv := stamp_valid now
  refine ⟨_, _,
    Base.ofBytes (Base.bytes
      { type := MessageType.HELLO, id := id, refersTo := 0, sent := stamp now,
        received := { sec := 0, usec := 0 }, size := 3 }),
    hsend, ?_, ?_, ?_, ?_, ?_⟩
  · simp only [List.length_append, hl, hl3]
  · rw [List.take_left' (hl _)]
    have := readBase_bytes
      { type := MessageType.HELLO, id := id, refersTo := 0, sent := stamp now,
        received := { sec := 0, usec := 0 }, size := 3 } []
    rw [List.append_nil] at this
    exact this
  · rw [base_ofBytes_bytes_mod]
    rfl
  · rw [base_ofBytes_bytes_mod]
    rfl
  · rw [base_ofBytes_bytes_mod, List.drop_left' (hl _)]
    exact read_json_short _ (by
      simp only [List.length_take, hl3]
      show min (3 % 2 ^ 32) 3 = 3
      rfl)

/-! ## `SnapClient::read` -/

theorem load_append (body extra d : List Byte) (off n : Nat)
    (h : load body off n = .ok d) : load (body ++ extra) off n = .ok d := by
  unfold load at h ⊢
  split at h
  · rename_i hle
    have h2 : off + n ≤ (body ++ extra).length := by
      simp only [List.length_append]; omega
    simp only [h2, if_true]
    simp only [Except.ok.injEq] at h ⊢
    rw [← h, List.drop_append_of_le_length (by omega),
      List.take_append_of_le_length (by simp only [List.length_drop]; omega)]
  · cases h

theorem view_append (body extra : List Byte) (off n : Nat)
    (h : off + n ≤ body.length) :
    (Ptr.mk (.array (body ++ extra)) off).view n = (Ptr.mk (.array body) off).view n := by
  have h2 : off + n ≤ (body ++ extra).length := by
    simp only [List.length_append]; omega
  simp only [Ptr.view, h, h2, if_true]
  rw [List.drop_append_of_le_length (by omega),
    List.take_append_of_le_length (by simp only [List.length_drop]; omega)]

theorem sameData_append (body extra : List Byte) (off n : Nat)
    (h : (Ptr.mk (.array body) off).HoldsData n) :
    (Ptr.mk (.array body) off).SameData n (Ptr.mk (.array (body ++ extra)) off) n :=
  ⟨rfl, view_isSome _ _ h.2, (view_append body extra off n h.2).symm⟩

theorem bind_ok_inv {α β : Type} (x : Except Fault α) (f : α → Except Fault β) (b : β)
    (h : (x >>= f) = .ok b) : ∃ a, x = .ok a ∧ f a = .ok b := by
  cases x with
  | error e => cases h
  | ok a => exact ⟨a, rfl, h⟩

theorem read_unreachable_of (buffer : List Byte) (type : Nat) (h : type = 0 ∨ 7 < type) :
    read buffer type = .error .unreachable := by
  rcases h with rfl | h
  · rfl
  · obtain ⟨n, rfl⟩ := Nat.exists_eq_add_of_le' (Nat.succ_le_of_lt h)
    rfl

theorem read_append (body extra : List Byte) (type : Nat) (m : Message)
    (h : read body type = .ok m) :
    ∃ m', read (body ++ extra) type = .ok m' ∧ (m.WellFormed → m.SameContent m') := by
  have hle : type ≤ 7 := by
    by_contra hgt
    rw [read_unreachable_of body type (Or.inr (by omega))] at h
    cases h
  have hpos : type ≠ 0 := by
    rintro rfl
    rw [read_unreachable_of body 0 (Or.inl rfl)] at h
    cases h
  interval_cases type
  · exact (hpos rfl).elim
  · -- CODEC_HEADER
    simp only [read, readJson, readTime, bind_assoc, pure_bind] at h ⊢
    obtain ⟨d1, h1, h⟩ := bind_ok_inv _ _ _ h
    rw [load_append _ extra _ _ _ h1, ok_bind]
    obtain ⟨d2, h2, h⟩ := bind_ok_inv _ _ _ h
    rw [load_append _ extra _ _ _ h2, ok_bind]
    have e := Except.ok.inj h
    subst e
    exact ⟨_, rfl, fun hwf => ⟨sameData_append _ _ _ _ hwf.1, sameData_append _ _ _ _ hwf.2⟩⟩
  · -- WIRE_CHUNK
    simp only [read, readJson, readTime, bind_assoc, pure_bind] at h ⊢
    obtain ⟨d1, h1, h⟩ := bind_ok_inv _ _ _ h
    rw [load_append _ extra _ _ _ h1, ok_bind]
    obtain ⟨d2, h2, h⟩ := bind_ok_inv _ _ _ h
    rw [load_append _ extra _ _ _ h2, ok_bind]
    have e := Except.ok.inj h
    subst e
    exact ⟨_, rfl, fun hwf => ⟨rfl, rfl, sameData_append _ _ _ _ hwf.2.2⟩⟩
  · -- SERVER_SETTINGS
    simp only [read, readJson, readTime, bind_assoc, pure_bind] at h ⊢
    obtain ⟨d1, h1, h⟩ := bind_ok_inv _ _ _ h
    rw [load_append _ extra _ _ _ h1, ok_bind]
    have e := Except.ok.inj h
    subst e
    exact ⟨_, rfl, fun hwf => sameData_append _ _ _ _ hwf⟩
  · -- TIME
    simp only [read, readJson, readTime, bind_assoc, pure_bind] at h ⊢
    obtain ⟨d1, h1, h⟩ := bind_ok_inv _ _ _ h
    rw [load_append _ extra _ _ _ h1, ok_bind]
    have e := Except.ok.inj h
    subst e
    exact ⟨_, rfl, fun _ => ⟨rfl, rfl⟩⟩
  · -- HELLO
    simp only [read, readJson, readTime, bind_assoc, pure_bind] at h ⊢
    obtain ⟨d1, h1, h⟩ := bind_ok_inv _ _ _ h
    rw [load_append _ extra _ _ _ h1, ok_bind]
    have e := Except.ok.inj h
    subst e
    exact ⟨_, rfl, fun hwf => sameData_append _ _ _ _ hwf⟩
  · -- CLIENT_INFO
    simp only [read, readJson, readTime, bind_assoc, pure_bind] at h ⊢
    obtain ⟨d1, h1, h⟩ := bind_ok_inv _ _ _ h
    rw [load_append _ extra _ _ _ h1, ok_bind]
    have e := Except.ok.inj h
    subst e
    exact ⟨_, rfl, fun hwf => sameData_append _ _ _ _ hwf⟩
  · -- ERROR
    simp only [read, readJson, readTime, bind_assoc, pure_bind] at h ⊢
    obtain ⟨d1, h1, h⟩ := bind_ok_inv _ _ _ h
    rw [load_append _ extra _ _ _ h1, ok_bind]
    obtain ⟨d2, h2, h⟩ := bind_ok_inv _ _ _ h
    rw [load_append _ extra _ _ _ h2, ok_bind]
    obtain ⟨d3, h3, h⟩ := bind_ok_inv _ _ _ h
    rw [load_append _ extra _ _ _ h3, ok_bind]
    have e := Except.ok.inj h
    subst e
    exact ⟨_, rfl, fun hwf =>
      ⟨rfl, sameData_append _ _ _ _ hwf.2.1, sameData_append _ _ _ _ hwf.2.2⟩⟩

theorem nextError_succeeds (socket : Socket) (k : Nat) (h : socket.Succeeds (k + 1)) :
    socket.nextError = (.success, { socket with errors := socket.errors.drop 1 })
      ∧ Socket.Succeeds { socket with errors := socket.errors.drop 1 } k := by
  rcases socket with ⟨i, o, r, e⟩
  cases e with
  | nil => exact ⟨rfl, fun ec hec => by simp at hec⟩
  | cons ec rest =>
    have hec : ec = .success := h ec (by simp [List.take_succ_cons])
    subst hec
    refine ⟨rfl, fun ec hec => h ec ?_⟩
    simp only [List.take_succ_cons, List.mem_cons]
    exact Or.inr hec

theorem tcp_read_success (socket : Socket) (buffer : List Byte) (n k : Nat)
    (hs : socket.Succeeds (k + 1)) (hn : n ≤ socket.inData.length) :
    TcpClient.read socket buffer n
        = (.success, socket.inData.take n ++ buffer.drop n,
            { inData := socket.inData.drop n, outData := socket.outData,
              readSizes := socket.readSizes ++ [n], errors := socket.errors.drop 1 })
      ∧ Socket.Succeeds
          { inData := socket.inData.drop n, outData := socket.outData,
            readSizes := socket.readSizes ++ [n], errors := socket.errors.drop 1 } k := by
  obtain ⟨h1, h2⟩ := nextError_succeeds socket k hs
  refine ⟨?_, h2⟩
  have hlt : ¬ socket.inData.length < n := by omega
  unfold TcpClient.read
  rw [h1]
  simp only [ne_eq, not_true_eq_false, if_false, hlt]

theorem readBase_append (header rest : List Byte) (h : header.length = 26) :
    readBase (header ++ rest) = .ok (Base.ofBytes header) := by
  unfold readBase
  rw [load_zero _ _ 26 h.symm, ok_bind]
  rfl

theorem snapClient_read_ok (socket : Socket) (now : Int)
    (buffer header body rest : List Byte) (decoded : Message)
    (hb : 26 ≤ buffer.length) (hh : header.length = 26)
    (hin : socket.inData = header ++ body ++ rest)
    (hs : body.length = (Base.ofBytes header).size)
    (hfit : (Base.ofBytes header).size ≤ buffer.length)
    (hok : socket.Succeeds 2)
    (hd : read body (Base.ofBytes header).type = .ok decoded) (hwf : decoded.WellFormed) :
    ∃ message,
      SnapClient.read socket now buffer
          = .ok (.ok ({ Base.ofBytes header with received := stamp now }, message),
              body ++ (header ++ buffer.drop 26).drop body.length,
              { inData := rest, outData := socket.outData,
                readSizes := socket.readSizes ++ [26, (Base.ofBytes header).size],
                errors := socket.errors.drop 2 })
        ∧ read (body ++ (header ++ buffer.drop 26).drop body.length) (Base.ofBytes header).type
            = .ok message
        ∧ decoded.SameContent message := by
  obtain ⟨m', hm', hsc⟩ :=
    read_append body ((header ++ buffer.drop 26).drop body.length) _ decoded hd
  refine ⟨m', ?_, hm', hsc hwf⟩
  have hlen : 26 ≤ socket.inData.length := by
    rw [hin]; simp only [List.length_append]; omega
  obtain ⟨t1, ok1⟩ := tcp_read_success socket buffer 26 1 hok hlen
  have e1 : socket.inData.take 26 = header := by
    rw [hin, List.append_assoc, List.take_left' hh]
  have e2 : socket.inData.drop 26 = body ++ rest := by
    rw [hin, List.append_assoc, List.drop_left' hh]
  rw [e1, e2] at t1
  rw [e2] at ok1
  obtain ⟨t2, -⟩ := tcp_read_success _ (header ++ buffer.drop 26)
    (Base.ofBytes header).size 0 ok1 (by simp only [List.length_append]; omega)
  simp only [List.take_left' hs, List.drop_left' hs] at t2
  have hlt : ¬ buffer.length < 26 := by omega
  have hl1 : (header ++ buffer.drop 26).length = buffer.length := by
    simp only [List.length_append, List.length_drop]; omega
  have hlt2 : ¬ (header ++ buffer.drop 26).length < (Base.ofBytes header).size := by
    rw [hl1]; omega
  unfold SnapClient.read
  simp only [hlt, if_false, t1, ne_eq, not_true_eq_false, readBase_append _ _ hh, ok_bind,
    hlt2, t2]
  rw [hs] at hm' ⊢
  simp only [pure_bind, hm', ok_bind, List.drop_drop, List.append_assoc,
    List.singleton_append]
  rfl

theorem snapClient_read_short (socket : Socket) (now : Int) (buffer : List Byte)
    (h : buffer.length < 26) :
    SnapClient.read socket now buffer = .ok (.error .no_buffer_space, buffer, socket) := by
  unfold SnapClient.read
  simp only [h, if_true]
  rfl

theorem snapClient_read_header (socket : Socket) (now : Int) (buffer header rest : List Byte)
    (hb : 26 ≤ buffer.length) (hh : header.length = 26)
    (hin : socket.inData = header ++ rest) (hok : socket.Succeeds 1) :
    SnapClient.read socket now buffer
      = (if buffer.length < (Base.ofBytes header).size then
          .ok (.error .no_buffer_space, header ++ buffer.drop 26,
            { inData := rest, outData := socket.outData,
              readSizes := socket.readSizes ++ [26], errors := socket.errors.drop 1 })
        else
          let second := TcpClient.read
            { inData := rest, outData := socket.outData,
              readSizes := socket.readSizes ++ [26], errors := socket.errors.drop 1 }
            (header ++ buffer.drop 26) (Base.ofBytes header).size
          if second.1 ≠ .success then .ok (.error second.1, second.2.1, second.2.2)
          else
            (Snapcast.read second.2.1 (Base.ofBytes header).type).map fun message =>
              (.ok ({ Base.ofBytes header with received := stamp now }, message),
                second.2.1, second.2.2)) := by
  have hlen : 26 ≤ socket.inData.length := by
    rw [hin]; simp only [List.length_append]; omega
  obtain ⟨t1, -⟩ := tcp_read_success socket buffer 26 0 hok hlen
  have e1 : socket.inData.take 26 = header := by rw [hin, List.take_left' hh]
  have e2 : socket.inData.drop 26 = rest := by rw [hin, List.drop_left' hh]
  rw [e1, e2] at t1
  have hlt : ¬ buffer.length < 26 := by omega
  have hl1 : (header ++ buffer.drop 26).length = buffer.length := by
    simp only [List.length_append, List.length_drop]; omega
  unfold SnapClient.read
  simp only [hlt, if_false, t1, ne_eq, not_true_eq_false, readBase_append _ _ hh, ok_bind,
    hl1, pure_bind]
  split
  · rfl
  · split
    · rfl
    · cases Snapcast.read _ _ <;> rfl

theorem succeeds_one_of_two (socket : Socket) (h : socket.Succeeds 2) : socket.Succeeds 1 := by
  intro ec hec
  refine h ec ?_
  rcases socket with ⟨i, o, r, e⟩
  cases e with
  | nil => simp at hec
  | cons a rest =>
    simp only [List.take_succ_cons, List.take_zero, List.mem_singleton] at hec
    simp only [List.take_succ_cons, List.mem_cons]
    exact Or.inl hec

theorem snapClient_read_outcome (socket : Socket) (now : Int)
    (buffer header body rest : List Byte)
    (hb : 26 ≤ buffer.length) (hh : header.length = 26)
    (hin : socket.inData = header ++ body ++ rest)
    (hs : body.length = (Base.ofBytes header).size)
    (hfit : (Base.ofBytes header).size ≤ buffer.length)
    (hok : socket.Succeeds 2) :
    SnapClient.read socket now buffer
      = (Snapcast.read (body ++ (header ++ buffer.drop 26).drop body.length)
          (Base.ofBytes header).type).map fun message =>
            (.ok ({ Base.ofBytes header with received := stamp now }, message),
              body ++ (header ++ buffer.drop 26).drop body.length,
              { inData := rest, outData := socket.outData,
                readSizes := socket.readSizes ++ [26, (Base.ofBytes header).size],
                errors := socket.errors.drop 2 }) := by
  have hin' : socket.inData = header ++ (body ++ rest) := by rw [hin, List.append_assoc]
  have hlen : 26 ≤ socket.inData.length := by
    rw [hin']; simp only [List.length_append]; omega
  obtain ⟨-, ok1⟩ := tcp_read_success socket buffer 26 1 hok hlen
  have e2 : socket.inData.drop 26 = body ++ rest := by rw [hin', List.drop_left' hh]
  rw [e2] at ok1
  obtain ⟨t2, -⟩ := tcp_read_success _ (header ++ buffer.drop 26)
    (Base.ofBytes header).size 0 ok1 (by simp only [List.length_append]; omega)
  simp only [List.take_left' hs, List.drop_left' hs] at t2
  have hlt : ¬ buffer.length < (Base.ofBytes header).size := by omega
  rw [snapClient_read_header socket now buffer header (body ++ rest) hb hh hin'
    (succeeds_one_of_two socket hok)]
  simp only [hlt, if_false, t2, ne_eq, not_true_eq_false, hs, List.drop_drop,
    List.append_assoc, List.singleton_append]

theorem read_buffer_split (buffer header body : List Byte)
    (hh : header.length = 26) (hs : body.length ≤ 26) :
    body ++ (header ++ buffer.drop 26).drop body.length
      = (body ++ header.drop body.length) ++ buffer.drop 26
      ∧ (body ++ header.drop body.length).length = 26 := by
  constructor
  · rw [List.drop_append_of_le_length (by omega), List.append_assoc]
  · simp only [List.length_append, List.length_drop]
    omega

theorem read_time_short_body (buffer header body : List Byte)
    (hh : header.length = 26) (hs : body.length < 8) :
    read (body ++ (header ++ buffer.drop 26).drop body.length) MessageType.TIME
      = .ok (.Time (Time.ofBytes ((body ++ header.drop body.length).take 8))) := by
  obtain ⟨e, hl⟩ := read_buffer_split buffer header body hh (by omega)
  rw [e]
  simp only [read, readTime]
  rw [load_ok _ 0 8 (by simp only [List.length_append] at hl ⊢; omega), ok_bind]
  simp only [List.drop_zero, pure, Except.pure]
  rw [ok_bind, List.take_append_of_le_length (by omega)]

theorem read_append_within (body extra : List Byte) (type : Nat) (m : Message)
    (h : read body type = .ok m) (hwf : m.WellFormed) :
    ∃ m', read (body ++ extra) type = .ok m'
      ∧ m'.ViewsWithin (body ++ extra) body.length := by
  have hle : type ≤ 7 := by
    by_contra hgt
    rw [read_unreachable_of body type (Or.inr (by omega))] at h
    cases h
  have hpos : type ≠ 0 := by
    rintro rfl
    rw [read_unreachable_of body 0 (Or.inl rfl)] at h
    cases h
  interval_cases type
  · exact (hpos rfl).elim
  · -- CODEC_HEADER
    simp only [read, readJson, readTime, bind_assoc, pure_bind] at h ⊢
    obtain ⟨d1, h1, h⟩ := bind_ok_inv _ _ _ h
    rw [load_append _ extra _ _ _ h1, ok_bind]
    obtain ⟨d2, h2, h⟩ := bind_ok_inv _ _ _ h
    rw [load_append _ extra _ _ _ h2, ok_bind]
    have e := Except.ok.inj h
    subst e
    exact ⟨_, rfl, ⟨rfl, hwf.1.2⟩, ⟨rfl, hwf.2.2⟩⟩
  · -- WIRE_CHUNK
    simp only [read, readJson, readTime, bind_assoc, pure_bind] at h ⊢
    obtain ⟨d1, h1, h⟩ := bind_ok_inv _ _ _ h
    rw [load_append _ extra _ _ _ h1, ok_bind]
    obtain ⟨d2, h2, h⟩ := bind_ok_inv _ _ _ h
    rw [load_append _ extra _ _ _ h2, ok_bind]
    have e := Except.ok.inj h
    subst e
    exact ⟨_, rfl, rfl, hwf.2.2.2⟩
  · -- SERVER_SETTINGS
    simp only [read, readJson, readTime, bind_assoc, pure_bind] at h ⊢
    obtain ⟨d1, h1, h⟩ := bind_ok_inv _ _ _ h
    rw [load_append _ extra _ _ _ h1, ok_bind]
    have e := Except.ok.inj h
    subst e
    exact ⟨_, rfl, rfl, hwf.2⟩
  · -- TIME
    simp only [read, readJson, readTime, bind_assoc, pure_bind] at h ⊢
    obtain ⟨d1, h1, h⟩ := bind_ok_inv _ _ _ h
    rw [load_append _ extra _ _ _ h1, ok_bind]
    exact ⟨_, rfl, trivial⟩
  · -- HELLO
    simp only [read, readJson, readTime, bind_assoc, pure_bind] at h ⊢
    obtain ⟨d1, h1, h⟩ := bind_ok_inv _ _ _ h
    rw [load_append _ extra _ _ _ h1, ok_bind]
    have e := Except.ok.inj h
    subst e
    exact ⟨_, rfl, rfl, hwf.2⟩
  · -- CLIENT_INFO
    simp only [read, readJson, readTime, bind_assoc, pure_bind] at h ⊢
    obtain ⟨d1, h1, h⟩ := bind_ok_inv _ _ _ h
    rw [load_append _ extra _ _ _ h1, ok_bind]
    have e := Except.ok.inj h
    subst e
    exact ⟨_, rfl, rfl, hwf.2⟩
  · -- ERROR
    simp only [read, readJson, readTime, bind_assoc, pure_bind] at h ⊢
    obtain ⟨d1, h1, h⟩ := bind_ok_inv _ _ _ h
    rw [load_append _ extra _ _ _ h1, ok_bind]
    obtain ⟨d2, h2, h⟩ := bind_ok_inv _ _ _ h
    rw [load_append _ extra _ _ _ h2, ok_bind]
    obtain ⟨d3, h3, h⟩ := bind_ok_inv _ _ _ h
    rw [load_append _ extra _ _ _ h3, ok_bind]
    have e := Except.ok.inj h
    subst e
    exact ⟨_, rfl, ⟨rfl, hwf.2.1.2⟩, ⟨rfl, hwf.2.2.2⟩⟩

/-! ## `SnapClient::sendJson` -/

theorem store_ok (mem src : List Byte) (off : Nat) (h : off + src.length ≤ mem.length) :
    store mem off src = .ok (mem.take off ++ src ++ mem.drop (off + src.length))
      ∧ (mem.take off ++ src ++ mem.drop (off + src.length)).length = mem.length := by
  constructor
  · simp only [store, h, if_true]
  · simp only [List.length_append, List.length_take, List.length_drop]
    omega

theorem store_overflow (mem src : List Byte) (off : Nat) (ho : off ≤ mem.length)
    (h : mem.length < off + src.length) :
    store mem off src = .error (.writeOutOfBounds mem.length) := by
  have h1 : ¬ (off + src.length ≤ mem.length) := by omega
  simp only [store, h1, if_false, Nat.max_eq_right ho]

theorem copyJson_overflow (chunks : List (List Byte)) (buffer : List Byte) (t : Nat)
    (ht : t ≤ buffer.length) (h : buffer.length < t + chunks.flatten.length) :
    SnapClient.copyJson buffer t chunks = .error (.writeOutOfBounds buffer.length) := by
  induction chunks generalizing buffer t with
  | nil => simp only [List.flatten_nil, List.length_nil] at h; omega
  | cons sv rest ih =>
    simp only [List.flatten_cons, List.length_append] at h
    unfold SnapClient.copyJson
    by_cases hsv : t + sv.length ≤ buffer.length
    · obtain ⟨e, hl⟩ := store_ok buffer sv t hsv
      rw [e, ok_bind, ih _ _ (by rw [hl]; exact hsv) (by rw [hl]; omega), hl]
    · rw [store_overflow buffer sv t ht (by omega), error_bind]

theorem copyJson_ok (chunks : List (List Byte)) (buffer : List Byte) (t : Nat)
    (h : t + chunks.flatten.length ≤ buffer.length) :
    SnapClient.copyJson buffer t chunks
      = .ok (buffer.take t ++ chunks.flatten ++ buffer.drop (t + chunks.flatten.length),
          t + chunks.flatten.length) := by
  induction chunks generalizing buffer t with
  | nil =>
    simp only [SnapClient.copyJson, List.flatten_nil, List.length_nil, List.append_nil,
      Nat.add_zero, List.take_append_drop]
  | cons sv rest ih =>
    simp only [List.flatten_cons, List.length_append] at h ⊢
    unfold SnapClient.copyJson
    obtain ⟨e, hl⟩ := store_ok buffer sv t (by omega)
    rw [e, ok_bind, ih _ _ (by rw [hl]; omega)]
    have h1 : (buffer.take t ++ sv ++ buffer.drop (t + sv.length)).take (t + sv.length)
        = buffer.take t ++ sv := by
      rw [List.take_left' (by simp only [List.length_append, List.length_take]; omega)]
    have h2 : (buffer.take t ++ sv ++ buffer.drop (t + sv.length)).drop
        (t + sv.length + rest.flatten.length) = buffer.drop (t + (sv.length + rest.flatten.length)) := by
      rw [List.drop_append_eq_append_drop]
      have hlen : (buffer.take t ++ sv).length = t + sv.length := by
        simp only [List.length_append, List.length_take]; omega
      rw [hlen, List.drop_of_length_le (by omega), List.nil_append, List.drop_drop]
      congr 1
      omega
    rw [h1, h2]
    simp only [List.append_assoc, Nat.add_assoc]

theorem sendJson_overflow (socket : Socket) (now : Int) (id : Nat) (type : MessageType)
    (chunks : List (List Byte)) (buffer : List Byte)
    (h : buffer.length < chunks.flatten.length) :
    SnapClient.sendJson socket now id type chunks buffer
      = .error (.writeOutOfBounds buffer.length) := by
  unfold SnapClient.sendJson
  rw [copyJson_overflow chunks buffer 0 (Nat.zero_le _) (by omega), error_bind]

theorem memcpy_front (dst before : List Byte) (off o n : Nat) (h : o + n ≤ before.length) :
    memcpy dst off ⟨.destination before, o⟩ n = store dst off ((before.drop o).take n) := by
  have hl : o + n ≤ (before ++ dst).length := by
    simp only [List.length_append]; omega
  have hov : ¬ (0 < n ∧ o < before.length + off + n ∧ before.length + off < o + n) := by
    omega
  simp only [memcpy, Region.bytes, load, hl, if_true, ok_bind, hov, if_false]
  rw [List.drop_append_of_le_length (by omega),
    List.take_append_of_le_length (by simp only [List.length_drop]; omega)]

theorem memcpy_whole (dst before rest : List Byte) (off o n : Nat)
    (h : o + n ≤ before.length) :
    memcpy dst off ⟨.array (before ++ rest), o⟩ n = store dst off ((before.drop o).take n) := by
  have hl : o + n ≤ (before ++ rest).length := by
    simp only [List.length_append]; omega
  simp only [memcpy, Region.bytes, load, hl, if_true, ok_bind]
  rw [List.drop_append_of_le_length (by omega),
    List.take_append_of_le_length (by simp only [List.length_drop]; omega)]

theorem writeJson_front (dst before rest skipped : List Byte) (n : Nat)
    (h : n ≤ before.length) :
    writeJson dst { payload := ⟨.destination (before ++ skipped), 0⟩, size := n }
      = writeJson dst { payload := ⟨.array (before ++ rest), 0⟩, size := n } := by
  simp only [writeJson, Nat.zero_add]
  congr 1
  funext b
  rw [memcpy_front b (before ++ skipped) 4 0 n (by simp only [List.length_append]; omega),
    memcpy_whole b before rest 4 0 n (by omega), List.drop_zero, List.drop_zero,
    List.take_append_of_le_length h]

theorem send_json_front (socket : Socket) (now : Int) (id : Nat)
    (before rest buffer : List Byte) (n : Nat) (h : n ≤ before.length) :
    SnapClient.send socket now id (.Hello { payload := ⟨.destination before, 0⟩, size := n })
          buffer
        = SnapClient.send socket now id
            (.Hello { payload := ⟨.array (before ++ rest), 0⟩, size := n }) buffer
      ∧ SnapClient.send socket now id
            (.ClientInfo { payload := ⟨.destination before, 0⟩, size := n }) buffer
        = SnapClient.send socket now id
            (.ClientInfo { payload := ⟨.array (before ++ rest), 0⟩, size := n }) buffer
      ∧ SnapClient.send socket now id
            (.ServerSettings { payload := ⟨.destination before, 0⟩, size := n }) buffer
        = SnapClient.send socket now id
            (.ServerSettings { payload := ⟨.array (before ++ rest), 0⟩, size := n }) buffer := by
  refine ⟨?_, ?_, ?_⟩ <;>
    simp only [SnapClient.send, SnapClient.makeBase, ok_bind, Message.past, Ptr.past,
      Region.past, write, writeJson_front _ before rest _ n h]

theorem sendJson_hello (socket : Socket) (now : Int) (id : Nat)
    (chunks : List (List Byte)) (buffer : List Byte)
    (h : chunks.flatten.length ≤ buffer.length) :
    SnapClient.sendJson socket now id MessageType.HELLO chunks buffer
      = (SnapClient.send socket now id
          (.Hello { payload := ⟨.array (chunks.flatten ++ buffer.drop chunks.flatten.length), 0⟩,
                    size := chunks.flatten.length % 2 ^ 32 })
          (buffer.drop chunks.flatten.length)).map
          fun out => (out.1, chunks.flatten ++ out.2.1, out.2.2) := by
  unfold SnapClient.sendJson
  rw [copyJson_ok chunks buffer 0 (by omega), ok_bind]
  simp only [List.take_zero, List.nil_append, Nat.zero_add, pure_bind, List.drop_left' rfl,
    List.take_left' rfl]
  obtain ⟨e1, e2, e3⟩ := send_json_front socket now id chunks.flatten
    (buffer.drop chunks.flatten.length) (buffer.drop chunks.flatten.length)
    (chunks.flatten.length % 2 ^ 32) (Nat.mod_le _ _)
  simp only [e1, e2, e3]
  cases SnapClient.send socket now id _ (buffer.drop chunks.flatten.length) <;> rfl

theorem sendJson_clientInfo (socket : Socket) (now : Int) (id : Nat)
    (chunks : List (List Byte)) (buffer : List Byte)
    (h : chunks.flatten.length ≤ buffer.length) :
    SnapClient.sendJson socket now id MessageType.CLIENT_INFO chunks buffer
      = (SnapClient.send socket now id
          (.ClientInfo { payload := ⟨.array (chunks.flatten ++ buffer.drop chunks.flatten.length), 0⟩,
                         size := chunks.flatten.length % 2 ^ 32 })
          (buffer.drop chunks.flatten.length)).map
          fun out => (out.1, chunks.flatten ++ out.2.1, out.2.2) := by
  unfold SnapClient.sendJson
  rw [copyJson_ok chunks buffer 0 (by omega), ok_bind]
  simp only [List.take_zero, List.nil_append, Nat.zero_add, pure_bind, List.drop_left' rfl,
    List.take_left' rfl]
  obtain ⟨e1, e2, e3⟩ := send_json_front socket now id chunks.flatten
    (buffer.drop chunks.flatten.length) (buffer.drop chunks.flatten.length)
    (chunks.flatten.length % 2 ^ 32) (Nat.mod_le _ _)
  simp only [e1, e2, e3]
  cases SnapClient.send socket now id _ (buffer.drop chunks.flatten.length) <;> rfl

theorem sendJson_serverSettings (socket : Socket) (now : Int) (id : Nat)
    (chunks : List (List Byte)) (buffer : List Byte)
    (h : chunks.flatten.length ≤ buffer.length) :
    SnapClient.sendJson socket now id MessageType.SERVER_SETTINGS chunks buffer
      = (SnapClient.send socket now id
          (.ServerSettings
            { payload := ⟨.array (chunks.flatten ++ buffer.drop chunks.flatten.length), 0⟩,
              size := chunks.flatten.length % 2 ^ 32 })
          (buffer.drop chunks.flatten.length)).map
          fun out => (out.1, chunks.flatten ++ out.2.1, out.2.2) := by
  unfold SnapClient.sendJson
  rw [copyJson_ok chunks buffer 0 (by omega), ok_bind]
  simp only [List.take_zero, List.nil_append, Nat.zero_add, pure_bind, List.drop_left' rfl,
    List.take_left' rfl]
  obtain ⟨e1, e2, e3⟩ := send_json_front socket now id chunks.flatten
    (buffer.drop chunks.flatten.length) (buffer.drop chunks.flatten.length)
    (chunks.flatten.length % 2 ^ 32) (Nat.mod_le _ _)
  simp only [e1, e2, e3]
  cases SnapClient.send socket now id _ (buffer.drop chunks.flatten.length) <;> rfl

theorem send_json_no_room (socket : Socket) (now : Int) (id : Nat) (msg : JsonMessage)
    (buffer : List Byte) (h : buffer.length < 26 + (4 + msg.size) % 2 ^ 32) :
    SnapClient.send socket now id (.Hello msg) buffer
        = .ok (.error .no_buffer_space, buffer, socket)
      ∧ SnapClient.send socket now id (.ClientInfo msg) buffer
        = .ok (.error .no_buffer_space, buffer, socket)
      ∧ SnapClient.send socket now id (.ServerSettings msg) buffer
        = .ok (.error .no_buffer_space, buffer, socket) :=
  ⟨send_check_fails socket now id (.Hello msg) (.Hello msg)
      { type := MessageType.HELLO, id := id, refersTo := 0, sent := stamp now,
        received := { sec := 0, usec := 0 }, size := (4 + msg.size) % 2 ^ 32 } buffer rfl h,
    send_check_fails socket now id (.ClientInfo msg) (.ClientInfo msg)
      { type := MessageType.CLIENT_INFO, id := id, refersTo := 0, sent := stamp now,
        received := { sec := 0, usec := 0 }, size := (4 + msg.size) % 2 ^ 32 } buffer rfl h,
    send_check_fails socket now id (.ServerSettings msg) (.ServerSettings msg)
      { type := MessageType.SERVER_SETTINGS, id := id, refersTo := 0, sent := stamp now,
        received := { sec := 0, usec := 0 }, size := (4 + msg.size) % 2 ^ 32 } buffer rfl h⟩

theorem sendJson_no_room (socket : Socket) (now : Int) (id : Nat) (type : MessageType)
    (chunks : List (List Byte)) (buffer : List Byte)
    (htype : type = MessageType.HELLO ∨ type = MessageType.CLIENT_INFO
      ∨ type = MessageType.SERVER_SETTINGS)
    (h : chunks.flatten.length ≤ buffer.length)
    (h32 : chunks.flatten.length + 4 < 2 ^ 32)
    (hlt : buffer.length < 26 + 4 + 2 * chunks.flatten.length) :
    SnapClient.sendJson socket now id type chunks buffer
      = .ok (.error .no_buffer_space,
          chunks.flatten ++ buffer.drop chunks.flatten.length, socket) := by
  have hsz : (4 + chunks.flatten.length % 2 ^ 32) % 2 ^ 32 = 4 + chunks.flatten.length := by
    rw [Nat.mod_eq_of_lt (a := chunks.flatten.length) (by omega), Nat.mod_eq_of_lt (by omega)]
  have hroom : (buffer.drop chunks.flatten.length).length
      < 26 + (4 + chunks.flatten.length % 2 ^ 32) % 2 ^ 32 := by
    rw [hsz, List.length_drop]
    omega
  obtain ⟨h1, h2, h3⟩ := send_json_no_room socket now id
    { payload := ⟨.array (chunks.flatten ++ buffer.drop chunks.flatten.length), 0⟩,
      size := chunks.flatten.length % 2 ^ 32 }
    (buffer.drop chunks.flatten.length) hroom
  rcases htype with rfl | rfl | rfl
  · rw [sendJson_hello socket now id chunks buffer h, h1]
    rfl
  · rw [sendJson_clientInfo socket now id chunks buffer h, h2]
    rfl
  · rw [sendJson_serverSettings socket now id chunks buffer h, h3]
    rfl

/-! ## Transport errors -/

theorem tcp_read_error (socket : Socket) (buffer : List Byte) (n : Nat)
    (hne : socket.nextError.1 ≠ .success) :
    TcpClient.read socket buffer n
      = (socket.nextError.1, buffer,
          { socket.nextError.2 with readSizes := socket.nextError.2.readSizes ++ [n] }) := by
  unfold TcpClient.read
  simp only [ne_eq, hne, not_false_eq_true, if_true]

theorem snapClient_read_header_error (socket : Socket) (now : Int) (buffer : List Byte)
    (hb : 26 ≤ buffer.length) (hne : socket.nextError.1 ≠ .success) :
    SnapClient.read socket now buffer
      = .ok (.error socket.nextError.1, buffer,
          { socket.nextError.2 with readSizes := socket.nextError.2.readSizes ++ [26] }) := by
  have hlt : ¬ buffer.length < 26 := by omega
  unfold SnapClient.read
  simp only [hlt, if_false, tcp_read_error socket buffer 26 hne, ne_eq, hne,
    not_false_eq_true, if_true, pure_bind]
  rfl

theorem snapClient_read_body_error (socket : Socket) (now : Int)
    (buffer header rest : List Byte) (e : ErrorCode) (later : List ErrorCode)
    (hb : 26 ≤ buffer.length) (hh : header.length = 26)
    (hin : socket.inData = header ++ rest)
    (hfit : (Base.ofBytes header).size ≤ buffer.length)
    (herr : socket.errors = .success :: e :: later) (hne : e ≠ .success) :
    SnapClient.read socket now buffer
      = .ok (.error e, header ++ buffer.drop 26,
          { inData := rest, outData := socket.outData,
            readSizes := socket.readSizes ++ [26, (Base.ofBytes header).size],
            errors := later }) := by
  have hok : socket.Succeeds 1 := by
    intro ec hec
    rw [herr] at hec
    simpa using hec
  have hlt : ¬ buffer.length < (Base.ofBytes header).size := by omega
  rw [snapClient_read_header socket now buffer header rest hb hh hin hok]
  have hn :
      Socket.nextError
          { inData := rest, outData := socket.outData,
            readSizes := socket.readSizes ++ [26], errors := socket.errors.drop 1 }
        = (e, { inData := rest, outData := socket.outData,
                readSizes := socket.readSizes ++ [26], errors := later }) := by
    rw [herr]; rfl
  have hne' :
      (Socket.nextError
          { inData := rest, outData := socket.outData,
            readSizes := socket.readSizes ++ [26], errors := socket.errors.drop 1 }).1
        ≠ .success := by
    rw [hn]; exact hne
  simp only [hlt, if_false, tcp_read_error _ _ _ hne', hn, ne_eq, hne, not_false_eq_true,
    if_true, List.append_assoc, List.singleton_append]

theorem send_reaches_write (socket : Socket) (now : Int) (id : Nat) (m : Message)
    (buffer : List Byte) (hs : m.Sendable) (hwf : m.WellFormed)
    (hfit : m.bodySize < 2 ^ 32) (hge : 26 + m.bodySize ≤ buffer.length) :
    ∃ buffer' frame,
      SnapClient.send socket now id m buffer
        = .ok (if socket.nextError.1 ≠ .success then .error socket.nextError.1
                else .ok (stamp now),
            buffer', { socket.nextError.2 with outData := socket.outData ++ [frame] }) := by
  obtain ⟨m', hb, -, -, hm'⟩ := makeBase_sendable now id m hs
  have hprops : m'.WellFormed ∧ m'.bodySize = m.bodySize := by
    rcases hm' with rfl | ⟨⟨t, rfl⟩, rfl⟩
    · exact ⟨hwf, rfl⟩
    · exact ⟨stamp_valid now, rfl⟩
  have h := send_wellFormed socket now id m m' _ buffer hb
    (by show m'.bodySize % 2 ^ 32 = m'.bodySize
        rw [hprops.2]; exact Nat.mod_eq_of_lt hfit)
    hprops.1 (by rw [hprops.2]; exact hge)
  exact ⟨_, _, h⟩

/-! ## The type field of the header -/

theorem writeBase_type_bytes (base : Base) (buffer : List Byte) (h : 26 ≤ buffer.length) :
    ∃ buffer', writeBase buffer base = .ok buffer' ∧ buffer'.length = buffer.length
      ∧ byteAt buffer' 0 = base.type % 256 ∧ byteAt buffer' 1 = base.type / 256 % 256 := by
  refine ⟨_, writeBase_eq buffer base h, ?_, ?_, ?_⟩
  · simp only [List.length_append, base_bytes_length, List.length_drop]
    omega
  · simp [Base.bytes, toLE, byteAt]
  · simp [Base.bytes, toLE, byteAt]

theorem readBase_type (buffer : List Byte) (h : 26 ≤ buffer.length) :
    (readBase buffer).map (fun base => base.type)
      = .ok (byteAt buffer 0 + 256 * byteAt buffer 1) := by
  rw [readBase_eq buffer h]
  rfl

/-! ## The header `SnapClient::send` writes -/

theorem send_frame_header (socket : Socket) (now : Int) (id : Nat) (m : Message)
    (buffer : List Byte) (out : Except ErrorCode Time × List Byte × Socket)
    (h : SnapClient.send socket now id m buffer = .ok out)
    (hout : out.2.2.outData ≠ socket.outData) :
    ∃ (frame : List Byte) (m' : Message), out.2.2.outData = socket.outData ++ [frame]
      ∧ readBase frame
          = .ok (Base.ofBytes (Base.bytes
              { type := m.type, id := id, refersTo := 0, sent := stamp now,
                received := { sec := 0, usec := 0 }, size := m'.bodySize % 2 ^ 32 }))
      ∧ readBase out.2.1 = readBase frame := by
  obtain ⟨base, m', hb, hcase⟩ := send_outcome socket now id m buffer out h
  obtain ⟨-, hbase, -, -, -⟩ := makeBase_ok_inv now id m m' base hb
  rcases hcase with ⟨-, rfl⟩ | ⟨-, body, -, rfl⟩
  · exact (hout rfl).elim
  · refine ⟨(base.bytes ++ body).take (26 + base.size), m', ?_, ?_, ?_⟩
    · show socket.nextError.2.outData ++ [(base.bytes ++ body).take (26 + base.size)] = _
      rw [nextError_outData]
    · rw [take_frame _ _ _ (base_bytes_length base), readBase_bytes, hbase]
    · show readBase (base.bytes ++ body) = _
      rw [take_frame _ _ _ (base_bytes_length base), readBase_bytes, readBase_bytes]

/-! ## The time stamp -/

theorem stamp_of_nat (n : Nat) :
    stamp (n : Int) = { sec := n / 1000000 % 2 ^ 32, usec := n % 1000000 } := by
  unfold stamp castU32
  have h : (n : Int).tdiv 1000000 = (n : Int) / 1000000 :=
    Int.tdiv_eq_ediv (Int.ofNat_nonneg n) (by decide)
  simp only [h]
  congr 1
  omega

theorem snapClient_read_received (socket : Socket) (now : Int) (buffer : List Byte)
    (header : Base) (message : Message) (buffer' : List Byte) (socket' : Socket)
    (h : SnapClient.read socket now buffer = .ok (.ok (header, message), buffer', socket')) :
    header.received = stamp now := by
  unfold SnapClient.read at h
  by_cases h1 : buffer.length < 26
  · simp only [h1, if_true] at h
    cases h
  · simp only [h1, if_false] at h
    by_cases h2 : (TcpClient.read socket buffer 26).1 = .success
    · simp only [ne_eq, h2, not_true_eq_false, if_false, pure_bind] at h
      obtain ⟨base, -, h⟩ := bind_ok_inv _ _ _ h
      by_cases h3 : (TcpClient.read socket buffer 26).2.1.length < base.size
      · simp only [h3, if_true] at h
        cases h
      · simp only [h3, if_false, pure_bind] at h
        by_cases h4 : (TcpClient.read (TcpClient.read socket buffer 26).2.2
            (TcpClient.read socket buffer 26).2.1 base.size).1 = .success
        · simp only [ne_eq, h4, not_true_eq_false, if_false, pure_bind] at h
          obtain ⟨msg, -, h⟩ := bind_ok_inv _ _ _ h
          have e := Except.ok.inj h
          have e1 := congrArg (fun x => x.1) e
          simp only [Except.ok.injEq, Prod.mk.injEq] at e1
          rw [← e1.1]
        · simp only [ne_eq, h4, not_false_eq_true, if_true] at h
          cases h
    · simp only [ne_eq, h2, not_false_eq_true, if_true, pure_bind] at h
      cases h

/-! ## The bytes `write` leaves as they were -/

theorem store_keeps (mem src out : List Byte) (off k : Nat)
    (h : store mem off src = .ok out) (hk : off + src.length ≤ k) :
    out.length = mem.length ∧ out.drop k = mem.drop k := by
  unfold store at h
  split at h
  · rename_i hle
    have e := Except.ok.inj h
    subst e
    constructor
    · simp only [List.length_append, List.length_take, List.length_drop]
      omega
    · have hlen : (mem.take off ++ src).length = off + src.length := by
        simp only [List.length_append, List.length_take]; omega
      rw [List.drop_append_eq_append_drop, hlen, List.drop_of_length_le (by omega),
        List.nil_append, List.drop_drop]
      congr 1
      omega
  · cases h

theorem load_length (mem d : List Byte) (off n : Nat) (h : load mem off n = .ok d) :
    d.length = n := by
  unfold load at h
  split at h
  · have e := Except.ok.inj h
    subst e
    simp only [List.length_take, List.length_drop]
    omega
  · cases h

theorem memcpy_keeps (dst out : List Byte) (src : Ptr) (off n k : Nat)
    (h : memcpy dst off src n = .ok out) (hk : off + n ≤ k) :
    out.length = dst.length ∧ out.drop k = dst.drop k := by
  unfold memcpy at h
  obtain ⟨d, hd, hs⟩ := bind_ok_inv _ _ _ h
  have hst : store dst off d = .ok out := by
    split at hs
    · exact hs
    · simp only at hs
      split at hs
      · cases hs
      · exact hs
  exact store_keeps dst d out off k hst (by rw [load_length _ _ _ _ hd]; exact hk)

theorem writeTime_keeps (buffer out : List Byte) (time : Time) (k : Nat)
    (h : writeTime buffer time = .ok out) (hk : 8 ≤ k) :
    out.length = buffer.length ∧ out.drop k = buffer.drop k :=
  store_keeps buffer time.bytes out 0 k h (by rw [time_bytes_length]; omega)

theorem writeBase_keeps (buffer out : List Byte) (base : Base) (k : Nat)
    (h : writeBase buffer base = .ok out) (hk : 26 ≤ k) :
    out.length = buffer.length ∧ out.drop k = buffer.drop k :=
  store_keeps buffer base.bytes out 0 k h (by rw [base_bytes_length]; omega)

theorem writeJson_keeps (buffer out : List Byte) (msg : JsonMessage) (k : Nat)
    (h : writeJson buffer msg = .ok out) (hk : 4 + msg.size ≤ k) :
    out.length = buffer.length ∧ out.drop k = buffer.drop k := by
  unfold writeJson at h
  obtain ⟨b1, h1, h⟩ := bind_ok_inv _ _ _ h
  obtain ⟨l1, d1⟩ := store_keeps _ _ _ _ k h1 (by rw [toLE_length]; omega)
  obtain ⟨l2, d2⟩ := memcpy_keeps _ _ _ _ _ k h (by omega)
  exact ⟨l2.trans l1, d2.trans d1⟩

theorem write_keeps (buffer out : List Byte) (m : Message) (k : Nat)
    (h : write buffer m = .ok out) (hk : m.bodySize ≤ k) :
    out.length = buffer.length ∧ out.drop k = buffer.drop k := by
  cases m with
  | Hello msg => exact writeJson_keeps buffer out msg k h hk
  | ServerSettings msg => exact writeJson_keeps buffer out msg k h hk
  | ClientInfo msg => exact writeJson_keeps buffer out msg k h hk
  | Time msg => exact writeTime_keeps buffer out msg k h hk
  | WireChunk msg =>
    simp only [Message.bodySize] at hk
    simp only [write] at h
    obtain ⟨b1, h1, h⟩ := bind_ok_inv _ _ _ h
    obtain ⟨b2, h2, h⟩ := bind_ok_inv _ _ _ h
    obtain ⟨l1, d1⟩ := writeTime_keeps _ _ _ k h1 (by omega)
    obtain ⟨l2, d2⟩ := store_keeps _ _ _ _ k h2 (by rw [toLE_length]; omega)
    obtain ⟨l3, d3⟩ := memcpy_keeps _ _ _ _ _ k h (by omega)
    exact ⟨l3.trans (l2.trans l1), d3.trans (d2.trans d1)⟩
  | CodecHeader msg =>
    simp only [Message.bodySize] at hk
    simp only [write] at h
    obtain ⟨b1, h1, h⟩ := bind_ok_inv _ _ _ h
    obtain ⟨b2, h2, h⟩ := bind_ok_inv _ _ _ h
    obtain ⟨b3, h3, h⟩ := bind_ok_inv _ _ _ h
    obtain ⟨l1, d1⟩ := store_keeps _ _ _ _ k h1 (by rw [toLE_length]; omega)
    obtain ⟨l2, d2⟩ := memcpy_keeps _ _ _ _ _ k h2 (by omega)
    obtain ⟨l3, d3⟩ := store_keeps _ _ _ _ k h3 (by rw [toLE_length]; omega)
    obtain ⟨l4, d4⟩ := memcpy_keeps _ _ _ _ _ k h (by omega)
    exact ⟨l4.trans (l3.trans (l2.trans l1)), d4.trans (d3.trans (d2.trans d1))⟩
  | Error msg =>
    simp only [Message.bodySize] at hk
    simp only [write] at h
    obtain ⟨b1, h1, h⟩ := bind_ok_inv _ _ _ h
    obtain ⟨b2, h2, h⟩ := bind_ok_inv _ _ _ h
    obtain ⟨b3, h3, h⟩ := bind_ok_inv _ _ _ h
    obtain ⟨b4, h4, h⟩ := bind_ok_inv _ _ _ h
    obtain ⟨l1, d1⟩ := store_keeps _ _ _ _ k h1 (by rw [toLE_length]; omega)
    obtain ⟨l2, d2⟩ := store_keeps _ _ _ _ k h2 (by rw [toLE_length]; omega)
    obtain ⟨l3, d3⟩ := memcpy_keeps _ _ _ _ _ k h3 (by omega)
    obtain ⟨l4, d4⟩ := store_keeps _ _ _ _ k h4 (by rw [toLE_length]; omega)
    obtain ⟨l5, d5⟩ := memcpy_keeps _ _ _ _ _ k h (by omega)
    exact ⟨l5.trans (l4.trans (l3.trans (l2.trans l1))),
      d5.trans (d4.trans (d3.trans (d2.trans d1)))⟩

theorem byteAt_of_drop_eq (a b : List Byte) (k i : Nat) (h : a.drop k = b.drop k)
    (hi : k ≤ i) : byteAt a i = byteAt b i := by
  have e : ∀ l : List Byte, byteAt l i = byteAt (l.drop k) (i - k) := by
    intro l
    simp only [byteAt, List.getD_eq_getElem?_getD, List.getElem?_drop]
    congr 3
    omega
  rw [e a, e b, h]

/-! ## Headers read and written back -/

theorem toLE_fromLE (l : List Byte) : toLE l.length (fromLE l) = l := by
  induction l with
  | nil => rfl
  | cons b bs ih =>
    have hb := b.isLt
    have h1 : (b.val + 256 * fromLE bs) % 256 = b.val := by omega
    have h2 : (b.val + 256 * fromLE bs) / 256 = fromLE bs := by omega
    simp only [List.length_cons, toLE, fromLE, h1, h2, ih]

theorem toLE_fromLE_of_length (l : List Byte) (k : Nat) (h : l.length = k) :
    toLE k (fromLE l) = l := by
  subst h
  exact toLE_fromLE l

theorem time_bytes_ofBytes (raw : List Byte) (h : raw.length = 8) :
    (Time.ofBytes raw).bytes = raw := by
  unfold Time.bytes Time.ofBytes
  rw [toLE_fromLE_of_length (raw.take 4) 4 (by simp only [List.length_take]; omega),
    toLE_fromLE_of_length ((raw.drop 4).take 4) 4
      (by simp only [List.length_take, List.length_drop]; omega),
    ← List.take_add, List.take_of_length_le (by omega)]

theorem base_bytes_ofBytes (s : List Byte) (h : s.length = 26) :
    (Base.ofBytes s).bytes = s := by
  unfold Base.bytes Base.ofBytes
  rw [toLE_fromLE_of_length (s.take 2) 2 (by simp only [List.length_take]; omega),
    toLE_fromLE_of_length ((s.drop 2).take 2) 2
      (by simp only [List.length_take, List.length_drop]; omega),
    toLE_fromLE_of_length ((s.drop 4).take 2) 2
      (by simp only [List.length_take, List.length_drop]; omega),
    toLE_fromLE_of_length ((s.drop 22).take 4) 4
      (by simp only [List.length_take, List.length_drop]; omega),
    time_bytes_ofBytes ((s.drop 6).take 8)
      (by simp only [List.length_take, List.length_drop]; omega),
    time_bytes_ofBytes ((s.drop 14).take 8)
      (by simp only [List.length_take, List.length_drop]; omega),
    ← List.take_add, ← List.take_add, ← List.take_add, ← List.take_add, ← List.take_add,
    List.take_of_length_le (by omega)]

/-! ## The frame `SnapClient::sendJson` builds -/

theorem json_wire (msg : JsonMessage) (text : List Byte)
    (hv : msg.payload.view msg.size = some text) (hl : text.length = msg.size) :
    (Message.Hello msg).wire = toLE 4 msg.size ++ text
      ∧ (Message.ClientInfo msg).wire = toLE 4 msg.size ++ text
      ∧ (Message.ServerSettings msg).wire = toLE 4 msg.size ++ text := by
  have key : ∀ buffer : List Byte, 4 + msg.size ≤ buffer.length →
      writeJson buffer msg = .ok (toLE 4 msg.size ++ text ++ buffer.drop (4 + msg.size)) := by
    intro buffer hb
    rw [writeJson_eq buffer msg text hv (by omega), hl]
  exact ⟨wire_of_write (.Hello msg) _ key, wire_of_write (.ClientInfo msg) _ key,
    wire_of_write (.ServerSettings msg) _ key⟩

theorem send_json_frame (socket : Socket) (now : Int) (id : Nat) (msg : JsonMessage)
    (text buffer : List Byte) (mk : JsonMessage → Message) (t : MessageType)
    (hmk : (mk = Message.Hello ∧ t = MessageType.HELLO)
      ∨ (mk = Message.ClientInfo ∧ t = MessageType.CLIENT_INFO)
      ∨ (mk = Message.ServerSettings ∧ t = MessageType.SERVER_SETTINGS))
    (hv : msg.payload.view msg.size = some text) (hl : text.length = msg.size)
    (hwf : msg.payload.HoldsData msg.size)
    (h32 : 4 + msg.size < 2 ^ 32) (hge : 26 + (4 + msg.size) ≤ buffer.length) :
    SnapClient.send socket now id (mk msg) buffer
      = .ok (if socket.nextError.1 ≠ .success then .error socket.nextError.1
              else .ok (stamp now),
          Base.bytes { type := t, id := id, refersTo := 0, sent := stamp now,
                       received := { sec := 0, usec := 0 }, size := 4 + msg.size }
            ++ ((toLE 4 msg.size ++ text) ++ buffer.drop (26 + (4 + msg.size))),
          { socket.nextError.2 with
            outData := socket.outData
              ++ [Base.bytes { type := t, id := id, refersTo := 0, sent := stamp now,
                               received := { sec := 0, usec := 0 }, size := 4 + msg.size }
                    ++ (toLE 4 msg.size ++ text)] }) := by
  obtain ⟨w1, w2, w3⟩ := json_wire msg text hv hl
  have hmod : (4 + msg.size) % 2 ^ 32 = 4 + msg.size := Nat.mod_eq_of_lt h32
  rcases hmk with ⟨rfl, rfl⟩ | ⟨rfl, rfl⟩ | ⟨rfl, rfl⟩
  · have h := send_wellFormed socket now id (.Hello msg) (.Hello msg)
      { type := MessageType.HELLO, id := id, refersTo := 0, sent := stamp now,
        received := { sec := 0, usec := 0 }, size := (4 + msg.size) % 2 ^ 32 }
      buffer rfl hmod hwf hge
    rw [h, w1]
    simp only [hmod, Message.bodySize]
  · have h := send_wellFormed socket now id (.ClientInfo msg) (.ClientInfo msg)
      { type := MessageType.CLIENT_INFO, id := id, refersTo := 0, sent := stamp now,
        received := { sec := 0, usec := 0 }, size := (4 + msg.size) % 2 ^ 32 }
      buffer rfl hmod hwf hge
    rw [h, w2]
    simp only [hmod, Message.bodySize]
  · have h := send_wellFormed socket now id (.ServerSettings msg) (.ServerSettings msg)
      { type := MessageType.SERVER_SETTINGS, id := id, refersTo := 0, sent := stamp now,
        received := { sec := 0, usec := 0 }, size := (4 + msg.size) % 2 ^ 32 }
      buffer rfl hmod hwf hge
    rw [h, w3]
    simp only [hmod, Message.bodySize]

theorem sendJson_room (socket : Socket) (now : Int) (id : Nat) (type : MessageType)
    (chunks : List (List Byte)) (buffer : List Byte)
    (htype : type = MessageType.HELLO ∨ type = MessageType.CLIENT_INFO
      ∨ type = MessageType.SERVER_SETTINGS)
    (h32 : chunks.flatten.length + 4 < 2 ^ 32)
    (hge : 2 * chunks.flatten.length + 30 ≤ buffer.length) :
    SnapClient.sendJson socket now id type chunks buffer
      = .ok (if socket.nextError.1 ≠ .success then .error socket.nextError.1
              else .ok (stamp now),
          chunks.flatten
            ++ (Base.bytes { type := type, id := id, refersTo := 0, sent := stamp now,
                             received := { sec := 0, usec := 0 },
                             size := 4 + chunks.flatten.length }
              ++ ((toLE 4 chunks.flatten.length ++ chunks.flatten)
                ++ buffer.drop (2 * chunks.flatten.length + 30))),
          { socket.nextError.2 with
            outData := socket.outData
              ++ [Base.bytes { type := type, id := id, refersTo := 0, sent := stamp now,
                               received := { sec := 0, usec := 0 },
                               size := 4 + chunks.flatten.length }
                    ++ (toLE 4 chunks.flatten.length ++ chunks.flatten)] }) := by
  have hL : chunks.flatten.length % 2 ^ 32 = chunks.flatten.length :=
    Nat.mod_eq_of_lt (by omega)
  have hle : chunks.flatten.length ≤ buffer.length := by omega
  have hview : (Ptr.mk (.array (chunks.flatten ++ buffer.drop chunks.flatten.length)) 0).view
      chunks.flatten.length = some chunks.flatten := by
    simp only [Ptr.view, Nat.zero_add, List.length_append, Nat.le_add_right, if_true,
      List.drop_zero, List.take_left' rfl]
  have hdrop : (buffer.drop chunks.flatten.length).drop (26 + (4 + chunks.flatten.length))
      = buffer.drop (2 * chunks.flatten.length + 30) := by
    rw [List.drop_drop]
    congr 1
    omega
  have hframe : ∀ (mk : JsonMessage → Message),
      (mk = Message.Hello ∧ type = MessageType.HELLO)
        ∨ (mk = Message.ClientInfo ∧ type = MessageType.CLIENT_INFO)
        ∨ (mk = Message.ServerSettings ∧ type = MessageType.SERVER_SETTINGS) →
      SnapClient.send socket now id
          (mk { payload := ⟨.array (chunks.flatten ++ buffer.drop chunks.flatten.length), 0⟩,
                size := chunks.flatten.length % 2 ^ 32 })
          (buffer.drop chunks.flatten.length)
        = .ok (if socket.nextError.1 ≠ .success then .error socket.nextError.1
                else .ok (stamp now),
            Base.bytes { type := type, id := id, refersTo := 0, sent := stamp now,
                         received := { sec := 0, usec := 0 },
                         size := 4 + chunks.flatten.length }
              ++ ((toLE 4 chunks.flatten.length ++ chunks.flatten)
                ++ buffer.drop (2 * chunks.flatten.length + 30)),
            { socket.nextError.2 with
              outData := socket.outData
                ++ [Base.bytes { type := type, id := id, refersTo := 0, sent := stamp now,
                                 received := { sec := 0, usec := 0 },
                                 size := 4 + chunks.flatten.length }
                      ++ (toLE 4 chunks.flatten.length ++ chunks.flatten)] }) := by
    intro mk hmk
    rw [hL, ← hdrop]
    exact send_json_frame socket now id
      { payload := ⟨.array (chunks.flatten ++ buffer.drop chunks.flatten.length), 0⟩,
        size := chunks.flatten.length }
      chunks.flatten (buffer.drop chunks.flatten.length) mk type hmk hview rfl
      ⟨by show chunks.flatten.length < 2 ^ 32; omega,
        by simp only [Region.Holds, Nat.zero_add, List.length_append]; omega⟩
      (by show 4 + chunks.flatten.length < 2 ^ 32; omega)
      (by simp only [List.length_drop]; omega)
  rcases htype with rfl | rfl | rfl
  · rw [sendJson_hello socket now id chunks buffer hle, hframe _ (Or.inl ⟨rfl, rfl⟩)]
    rfl
  · rw [sendJson_clientInfo socket now id chunks buffer hle,
      hframe _ (Or.inr (Or.inl ⟨rfl, rfl⟩))]
    rfl
  · rw [sendJson_serverSettings socket now id chunks buffer hle,
      hframe _ (Or.inr (Or.inr ⟨rfl, rfl⟩))]
    rfl

/-! ## `doHandshake`: the order of its calls on the socket -/

theorem calls_returned (now : Int) (helloJson : List Byte)
    (completions : List Snapcastpp.Completion) :
    Snapcastpp.SnapClient.calls now helloJson .returned completions = ([], .returned) := by
  induction completions with
  | nil => rfl
  | cons c cs ih =>
    cases c <;>
      simp only [Snapcastpp.SnapClient.calls, Snapcastpp.SnapClient.doHandshake, ih, if_true,
        List.append_nil]

theorem calls_waitCodecHeader (now : Int) (helloJson : List Byte)
    (completions : List Snapcastpp.Completion) :
    (Snapcastpp.SnapClient.calls now helloJson .waitCodecHeader completions).1
      <+: [Snapcastpp.SocketCall.asyncReceive 0] := by
  induction completions with
  | nil => exact List.nil_prefix
  | cons c cs ih =>
    cases c with
    | sent ec n =>
      simpa only [Snapcastpp.SnapClient.calls, Snapcastpp.SnapClient.doHandshake, if_true,
        List.nil_append] using ih
    | received m =>
      simp [Snapcastpp.SnapClient.calls, Snapcastpp.SnapClient.doHandshake, calls_returned,
        Snapcastpp.Handshake.call, Snapcastpp.SnapClient.readCall]

theorem calls_waitServerSettings (now : Int) (helloJson : List Byte)
    (completions : List Snapcastpp.Completion) :
    (Snapcastpp.SnapClient.calls now helloJson .waitServerSettings completions).1
      <+: [Snapcastpp.SocketCall.asyncReceive 0, Snapcastpp.SocketCall.asyncReceive 0] := by
  induction completions with
  | nil => exact List.nil_prefix
  | cons c cs ih =>
    cases c with
    | sent ec n =>
      simpa only [Snapcastpp.SnapClient.calls, Snapcastpp.SnapClient.doHandshake, if_true,
        List.nil_append] using ih
    | received m =>
      have h := calls_waitCodecHeader now helloJson cs
      simp only [Snapcastpp.SnapClient.calls, Snapcastpp.SnapClient.doHandshake,
        Snapcastpp.Handshake.call, Snapcastpp.SnapClient.readCall, reduceCtorEq, if_false,
        Option.toList_some, List.singleton_append]
      exact (List.prefix_cons_inj _).mpr h

theorem calls_sendHello (now : Int) (helloJson : List Byte)
    (completions : List Snapcastpp.Completion) :
    (Snapcastpp.SnapClient.calls now helloJson .sendHello completions).1
      <+: [Snapcastpp.SocketCall.asyncSend [], Snapcastpp.SocketCall.asyncReceive 0,
           Snapcastpp.SocketCall.asyncReceive 0] := by
  induction completions with
  | nil => exact List.nil_prefix
  | cons c cs ih =>
    cases c with
    | received m =>
      simpa only [Snapcastpp.SnapClient.calls, Snapcastpp.SnapClient.doHandshake, if_true,
        List.nil_append] using ih
    | sent ec n =>
      have h := calls_waitServerSettings now helloJson cs
      simp only [Snapcastpp.SnapClient.calls, Snapcastpp.SnapClient.doHandshake,
        Snapcastpp.Handshake.call, Snapcastpp.SnapClient.send, reduceCtorEq, if_false,
        Option.toList_some, List.singleton_append]
      exact (List.prefix_cons_inj _).mpr h

/-! ## `TcpClient::connect` and the C string -/

theorem cStr_of_no_null (str : List Byte) (h : ∀ c ∈ str, c ≠ 0) : cStr str = str := by
  unfold cStr
  rw [List.takeWhile_eq_self_iff]
  intro c hc
  simpa using h c hc

theorem connect_no_literal {Address : Type} [Inhabited Address]
    (literal : List Byte → Option Address) (socket : Socket) (ip : List Byte) (port : Nat)
    (h : literal (cStr ip) = none) :
    TcpClient.connect literal socket ip port = (.invalid_argument, [], socket) := by
  simp only [TcpClient.connect, makeAddress, h, ne_eq, reduceCtorEq, not_false_eq_true, if_true]

theorem connect_literal {Address : Type} [Inhabited Address]
    (literal : List Byte → Option Address) (socket : Socket) (ip : List Byte) (port : Nat)
    (address : Address) (h : literal (cStr ip) = some address) :
    TcpClient.connect literal socket ip port
      = (socket.nextError.1, [(address, port)], socket.nextError.2) := by
  simp only [TcpClient.connect, makeAddress, h, ne_eq, not_true_eq_false, if_false]

/-! ## The claims -/

/-- C1, as stated, fails for a message whose data lies in the buffer written.
The `Hello` whose payload is the first byte, 41, of the 5-byte buffer has size 1,
the length of its data, and the buffer has exactly its body size.  `write`
stores the length over that byte before it copies the payload from it: the
buffer becomes 01 00 00 00 01, and `read` returns a payload of the byte 01. -/
theorem write_read_roundtrip_counterexample :
    (Ptr.mk (.destination []) 0).viewIn [0x41, 0, 0, 0, 0] 1 = some [0x41]
      ∧ ([0x41, 0, 0, 0, 0] : List Byte).length
          = (Message.Hello { payload := ⟨.destination [], 0⟩, size := 1 }).bodySize
      ∧ write [0x41, 0, 0, 0, 0] (.Hello { payload := ⟨.destination [], 0⟩, size := 1 })
          = .ok [1, 0, 0, 0, 1]
      ∧ read [1, 0, 0, 0, 1] MessageType.HELLO
          = .ok (.Hello { payload := ⟨.array [1, 0, 0, 0, 1], 4⟩, size := 1 })
      ∧ (Ptr.mk (.array [1, 0, 0, 0, 1]) 4).view 1 = some [1]
      ∧ (Ptr.mk (.array [1, 0, 0, 0, 1]) 4).view 1
          ≠ (Ptr.mk (.destination []) 0).viewIn [0x41, 0, 0, 0, 0] 1 := by
  decide

/-- C1, amended (round trip): for a message of any of the seven variants whose
members fit their types, whose length members are the lengths of their data and
whose data lies outside the buffer written, `write` into a buffer of exactly the
body size succeeds and fills the buffer, and `read` of the written bytes under
the type of the message returns the same variant with equal integer members and
byte-for-byte equal payloads and strings. -/
theorem write_read_roundtrip (m : Message) (buffer : List Byte)
    (hm : m.WellFormed) (hb : buffer.length = m.bodySize) :
    ∃ encoded decoded, write buffer m = .ok encoded ∧ encoded.length = m.bodySize
      ∧ read encoded m.type = .ok decoded ∧ m.SameContent decoded := by
  cases m with
  | Hello msg =>
    obtain ⟨e, d, h1, h2, h3, h4⟩ := json_roundtrip msg buffer hm hb
    exact ⟨e, .Hello d, h1, h2, by simp only [Message.type, read, h3]; rfl, h4⟩
  | ServerSettings msg =>
    obtain ⟨e, d, h1, h2, h3, h4⟩ := json_roundtrip msg buffer hm hb
    exact ⟨e, .ServerSettings d, h1, h2, by simp only [Message.type, read, h3]; rfl, h4⟩
  | ClientInfo msg =>
    obtain ⟨e, d, h1, h2, h3, h4⟩ := json_roundtrip msg buffer hm hb
    exact ⟨e, .ClientInfo d, h1, h2, by simp only [Message.type, read, h3]; rfl, h4⟩
  | Time msg =>
    have h8 : msg.bytes.length = 8 := by simp [Time.bytes, toLE_length]
    have hb8 : buffer.length = 8 := hb
    refine ⟨msg.bytes ++ [], .Time msg, ?_, ?_, ?_, ⟨rfl, rfl⟩⟩
    · show writeTime buffer msg = _
      rw [writeTime_eq buffer msg (by omega), List.drop_of_length_le (by omega)]
    · simpa using h8
    · simp only [Message.type, read, readTime]
      rw [load_zero _ _ 8 h8.symm, ok_bind]
      simp only [pure, Except.pure]
      rw [ok_bind, time_ofBytes_bytes _ hm.1 hm.2]
  | WireChunk msg => exact wireChunk_roundtrip msg buffer hm hb
  | CodecHeader msg => exact codecHeader_roundtrip msg buffer hm hb
  | Error msg => exact error_roundtrip msg buffer hm hb

/-- The round trip of C1 at the codec header of `testConvCodecHeader`: codec
"test", payload "testing", a buffer of 19 bytes. -/
theorem write_read_roundtrip_witness :
    (Message.CodecHeader (CodecHeader.ofParts [116, 101, 115, 116]
        [116, 101, 115, 116, 105, 110, 103])).WellFormed
      ∧ (List.replicate 19 (0 : Byte)).length
          = (Message.CodecHeader (CodecHeader.ofParts [116, 101, 115, 116]
              [116, 101, 115, 116, 105, 110, 103])).bodySize
      ∧ ∃ encoded decoded,
          write (List.replicate 19 (0 : Byte))
              (.CodecHeader (CodecHeader.ofParts [116, 101, 115, 116]
                [116, 101, 115, 116, 105, 110, 103])) = .ok encoded
            ∧ encoded.length
                = (Message.CodecHeader (CodecHeader.ofParts [116, 101, 115, 116]
                    [116, 101, 115, 116, 105, 110, 103])).bodySize
            ∧ read encoded
                (Message.CodecHeader (CodecHeader.ofParts [116, 101, 115, 116]
                  [116, 101, 115, 116, 105, 110, 103])).type = .ok decoded
            ∧ (Message.CodecHeader (CodecHeader.ofParts [116, 101, 115, 116]
                [116, 101, 115, 116, 105, 110, 103])).SameContent decoded :=
  ⟨by decide, by decide, write_read_roundtrip _ _ (by decide) (by decide)⟩

/-- C2, as stated, fails: `read` has no `ShortBuffer` result and checks no length
member.  With `codecSize = 5` and nothing after it, the `CODEC_HEADER` case reads
the next length at index 9 of a 4-byte buffer; with `size = 5` and nothing after
it, the decode returns a message whose payload view leaves the buffer.  The
`ERROR` case does the same with `errorSize` and `errorMessageSize`. -/
theorem read_length_unchecked_counterexample :
    read [5, 0, 0, 0] MessageType.CODEC_HEADER = .error (.readOutOfBounds 9)
      ∧ read [0, 0, 0, 0, 5, 0, 0, 0] MessageType.CODEC_HEADER
          = .ok (.CodecHeader { codecSize := 0, size := 5,
                                codec := ⟨.array [0, 0, 0, 0, 5, 0, 0, 0], 4⟩,
                                payload := ⟨.array [0, 0, 0, 0, 5, 0, 0, 0], 8⟩ })
      ∧ (Ptr.mk (.array [0, 0, 0, 0, 5, 0, 0, 0]) 8).view 5 = none
      ∧ read [7, 0, 0, 0, 5, 0, 0, 0] MessageType.ERROR = .error (.readOutOfBounds 13)
      ∧ read [7, 0, 0, 0, 0, 0, 0, 0, 5, 0, 0, 0] MessageType.ERROR
          = .ok (.Error { errorCode := 7, errorSize := 0,
                          error := ⟨.array [7, 0, 0, 0, 0, 0, 0, 0, 5, 0, 0, 0], 8⟩,
                          errorMessageSize := 5,
                          errorMessage := ⟨.array [7, 0, 0, 0, 0, 0, 0, 0, 5, 0, 0, 0], 12⟩ })
      ∧ (Ptr.mk (.array [7, 0, 0, 0, 0, 0, 0, 0, 5, 0, 0, 0]) 12).view 5 = none := by
  decide

/-- C2, amended: `read` trusts the embedded length members.
* `CODEC_HEADER`, `codecSize` larger than what remains after it: the next length
  is read at index `4 + codecSize`, at or beyond the end of the buffer.
* `CODEC_HEADER`, both length members inside the buffer: the decode returns the
  header with the lengths found and views at offsets 4 and `8 + codecSize`; when
  `size` is larger than what remains the payload view leaves the buffer, and
  only otherwise do both views lie inside it.
* `ERROR`: the same with `errorSize` (read at 4, next length at
  `8 + errorSize`) and `errorMessageSize` (views at 8 and `12 + errorSize`). -/
theorem read_length_unchecked (buffer : List Byte) :
    (4 ≤ buffer.length → buffer.length - 4 < fromLE (buffer.take 4) →
      read buffer MessageType.CODEC_HEADER
          = .error (.readOutOfBounds (4 + fromLE (buffer.take 4)))
        ∧ buffer.length ≤ 4 + fromLE (buffer.take 4))
    ∧ (4 + fromLE (buffer.take 4) + 4 ≤ buffer.length →
      ∃ header, read buffer MessageType.CODEC_HEADER = .ok (.CodecHeader header)
        ∧ header.codecSize = fromLE (buffer.take 4)
        ∧ header.size = fromLE ((buffer.drop (4 + header.codecSize)).take 4)
        ∧ header.codec = ⟨.array buffer, 4⟩
        ∧ header.payload = ⟨.array buffer, 4 + header.codecSize + 4⟩
        ∧ (buffer.length - (4 + header.codecSize + 4) < header.size →
            header.payload.view header.size = none)
        ∧ (header.size ≤ buffer.length - (4 + header.codecSize + 4) →
            (header.codec.view header.codecSize).isSome
              ∧ (header.payload.view header.size).isSome))
    ∧ (8 ≤ buffer.length → buffer.length - 8 < fromLE ((buffer.drop 4).take 4) →
      read buffer MessageType.ERROR
          = .error (.readOutOfBounds (4 + 4 + fromLE ((buffer.drop 4).take 4)))
        ∧ buffer.length ≤ 4 + 4 + fromLE ((buffer.drop 4).take 4))
    ∧ (4 + 4 + fromLE ((buffer.drop 4).take 4) + 4 ≤ buffer.length →
      ∃ error, read buffer MessageType.ERROR = .ok (.Error error)
        ∧ error.errorCode = fromLE (buffer.take 4)
        ∧ error.errorSize = fromLE ((buffer.drop 4).take 4)
        ∧ error.errorMessageSize = fromLE ((buffer.drop (4 + 4 + error.errorSize)).take 4)
        ∧ error.error = ⟨.array buffer, 4 + 4⟩
        ∧ error.errorMessage = ⟨.array buffer, 4 + 4 + error.errorSize + 4⟩
        ∧ (buffer.length - (4 + 4 + error.errorSize + 4) < error.errorMessageSize →
            error.errorMessage.view error.errorMessageSize = none)
        ∧ (error.errorMessageSize ≤ buffer.length - (4 + 4 + error.errorSize + 4) →
            (error.error.view error.errorSize).isSome
              ∧ (error.errorMessage.view error.errorMessageSize).isSome)) := by
  refine ⟨fun h4 h => ⟨read_CodecHeader_beyond buffer h4 h, by omega⟩, fun h => ?_,
    fun h8 h => ⟨read_Error_beyond buffer h8 h, by omega⟩, fun h => ?_⟩
  · refine ⟨_, read_CodecHeader_ok buffer h, rfl, rfl, rfl, rfl, fun hs => ?_, fun hs => ?_⟩
    · simp only at hs
      exact view_none _ _ _ (by simp only; omega)
    · simp only at hs
      exact ⟨view_isSome _ _ (by simp only [Region.Holds]; omega),
        view_isSome _ _ (by simp only [Region.Holds]; omega)⟩
  · refine ⟨_, read_Error_ok buffer h, rfl, rfl, rfl, rfl, rfl, fun hs => ?_, fun hs => ?_⟩
    · simp only at hs
      exact view_none _ _ _ (by simp only; omega)
    · simp only at hs
      exact ⟨view_isSome _ _ (by simp only [Region.Holds]; omega),
        view_isSome _ _ (by simp only [Region.Holds]; omega)⟩

/-- The amended C2 at a codec header whose `codecSize` of 5 finds no byte after
it, and at an error body whose `errorSize` of 5 finds none either. -/
theorem read_length_unchecked_witness :
    (4 ≤ [(5 : Byte), 0, 0, 0].length
      ∧ [(5 : Byte), 0, 0, 0].length - 4 < fromLE ([(5 : Byte), 0, 0, 0].take 4)
      ∧ read [5, 0, 0, 0] MessageType.CODEC_HEADER
          = .error (.readOutOfBounds (4 + fromLE ([(5 : Byte), 0, 0, 0].take 4)))
      ∧ [(5 : Byte), 0, 0, 0].length ≤ 4 + fromLE ([(5 : Byte), 0, 0, 0].take 4))
    ∧ (8 ≤ [(7 : Byte), 0, 0, 0, 5, 0, 0, 0].length
      ∧ [(7 : Byte), 0, 0, 0, 5, 0, 0, 0].length - 8
          < fromLE (([(7 : Byte), 0, 0, 0, 5, 0, 0, 0].drop 4).take 4)
      ∧ read [7, 0, 0, 0, 5, 0, 0, 0] MessageType.ERROR
          = .error (.readOutOfBounds
              (4 + 4 + fromLE (([(7 : Byte), 0, 0, 0, 5, 0, 0, 0].drop 4).take 4)))
      ∧ [(7 : Byte), 0, 0, 0, 5, 0, 0, 0].length
          ≤ 4 + 4 + fromLE (([(7 : Byte), 0, 0, 0, 5, 0, 0, 0].drop 4).take 4)) :=
  ⟨⟨by decide, by decide,
      (read_length_unchecked [5, 0, 0, 0]).1 (by decide) (by decide)⟩,
    ⟨by decide, by decide,
      (read_length_unchecked [7, 0, 0, 0, 5, 0, 0, 0]).2.2.1 (by decide) (by decide)⟩⟩

/-- C3, as stated, fails: for `BASE`, and for the type value 8 with a well-formed
body in the buffer, `read` reaches `std::unreachable()`; it returns no
`UnknownType` error. -/
theorem read_unknown_type_counterexample :
    read [] MessageType.BASE = .error .unreachable
      ∧ read [0, 0, 0, 0, 0, 0, 0, 0, 0, 0, 0, 0] 8 = .error .unreachable := by
  decide

/-- C3, amended: for the type `BASE` (0) and for every type value above 7, hence
for every 16-bit value outside 1..7, and for every buffer, `read` returns no
message and no error value: it reaches `std::unreachable()`, which is undefined
behaviour.  For the types 1..7 it never does. -/
theorem read_unknown_type_unreachable (buffer : List Byte) (type : MessageType) :
    ((type = MessageType.BASE ∨ 7 < type) → read buffer type = .error .unreachable)
      ∧ ((1 ≤ type ∧ type ≤ 7) → read buffer type ≠ .error .unreachable) := by
  constructor
  · intro h
    rcases h with rfl | h
    · rfl
    · obtain ⟨n, rfl⟩ := Nat.exists_eq_add_of_le' (Nat.succ_le_of_lt h)
      rfl
  · exact fun h => read_known_type buffer type h.1 h.2

/-- The amended C3 at the type value 9, which no case of `read` names, and at
the type `TIME` with an empty buffer. -/
theorem read_unknown_type_unreachable_witness :
    (((9 : MessageType) = MessageType.BASE ∨ 7 < (9 : MessageType))
      ∧ read [1, 2, 3] 9 = .error .unreachable)
    ∧ ((1 ≤ MessageType.TIME ∧ MessageType.TIME ≤ 7)
      ∧ read [] MessageType.TIME ≠ .error .unreachable) :=
  ⟨⟨by decide, (read_unknown_type_unreachable [1, 2, 3] 9).1 (by decide)⟩,
    ⟨by decide, (read_unknown_type_unreachable [] MessageType.TIME).2 (by decide)⟩⟩

/-- C4: for every `Base` value, `write(buffer, base)` stores exactly 26 bytes at
the start of the buffer and leaves the rest: type (2 bytes), id (2), refersTo
(2), sent.sec (4), sent.usec (4), received.sec (4), received.usec (4), size (4),
in that order with no padding, each least significant byte first.  The header of
`testConvBase` gives the 26 bytes the test expects. -/
theorem writeBase_wire_format :
    (∀ (base : Base) (buffer : List Byte), 26 ≤ buffer.length →
      ∃ bytes, writeBase buffer base = .ok (bytes ++ buffer.drop 26) ∧ bytes.length = 26
        ∧ bytes.map Fin.val
            = [base.type % 256, base.type / 256 % 256,
               base.id % 256, base.id / 256 % 256,
               base.refersTo % 256, base.refersTo / 256 % 256,
               base.sent.sec % 256, base.sent.sec / 256 % 256, base.sent.sec / 65536 % 256,
               base.sent.sec / 16777216 % 256,
               base.sent.usec % 256, base.sent.usec / 256 % 256, base.sent.usec / 65536 % 256,
               base.sent.usec / 16777216 % 256,
               base.received.sec % 256, base.received.sec / 256 % 256,
               base.received.sec / 65536 % 256, base.received.sec / 16777216 % 256,
               base.received.usec % 256, base.received.usec / 256 % 256,
               base.received.usec / 65536 % 256, base.received.usec / 16777216 % 256,
               base.size % 256, base.size / 256 % 256, base.size / 65536 % 256,
               base.size / 16777216 % 256])
    ∧ writeBase (List.replicate 26 0)
          { type := MessageType.SERVER_SETTINGS, id := 4, refersTo := 9,
            sent := { sec := 123, usec := 456 }, received := { sec := 987, usec := 654 },
            size := 41 }
        = .ok [0x03, 0x00, 0x04, 0x00, 0x09, 0x00, 0x7b, 0x00, 0x00, 0x00, 0xc8, 0x01, 0x00,
               0x00, 0xdb, 0x03, 0x00, 0x00, 0x8e, 0x02, 0x00, 0x00, 0x29, 0x00, 0x00, 0x00] := by
  refine ⟨fun base buffer h => ?_, by decide⟩
  exact ⟨base.bytes, writeBase_eq buffer base h, base_bytes_length base, base_bytes_val base⟩

/-- The general part of C4 at the header of `testConvBase` and a 30-byte buffer
of `0xff`: the last four bytes keep their value. -/
theorem writeBase_wire_format_witness :
    26 ≤ (List.replicate 30 (0xff : Byte)).length
      ∧ ∃ bytes,
          writeBase (List.replicate 30 0xff)
              { type := MessageType.SERVER_SETTINGS, id := 4, refersTo := 9,
                sent := { sec := 123, usec := 456 }, received := { sec := 987, usec := 654 },
                size := 41 }
            = .ok (bytes ++ (List.replicate 30 (0xff : Byte)).drop 26)
          ∧ bytes.length = 26
          ∧ bytes.map Fin.val
              = [3 % 256, 3 / 256 % 256, 4 % 256, 4 / 256 % 256, 9 % 256, 9 / 256 % 256,
                 123 % 256, 123 / 256 % 256, 123 / 65536 % 256, 123 / 16777216 % 256,
                 456 % 256, 456 / 256 % 256, 456 / 65536 % 256, 456 / 16777216 % 256,
                 987 % 256, 987 / 256 % 256, 987 / 65536 % 256, 987 / 16777216 % 256,
                 654 % 256, 654 / 256 % 256, 654 / 65536 % 256, 654 / 16777216 % 256,
                 41 % 256, 41 / 256 % 256, 41 / 65536 % 256, 41 / 16777216 % 256] :=
  ⟨by decide, writeBase_wire_format.1 _ _ (by decide)⟩

/-- C5: for every `Base` value whose members fit their widths, `read(buffer,
base)` on the bytes `write(buffer, base)` produced gives the value back, member
for member.  The decoder reads type, id, refersTo, sent.sec, sent.usec,
received.sec, received.usec and size from the offsets 0, 2, 4, 6, 10, 14, 18 and
22, least significant byte first, and decodes the bytes of `testConvBase` to the
values the test expects. -/
theorem base_roundtrip :
    (∀ (b : Base) (buffer : List Byte), b.Valid → 26 ≤ buffer.length →
      ∃ encoded, writeBase buffer b = .ok encoded ∧ readBase encoded = .ok b)
    ∧ (∀ buffer : List Byte, 26 ≤ buffer.length →
      readBase buffer
        = .ok { type := byteAt buffer 0 + 256 * byteAt buffer 1,
                id := byteAt buffer 2 + 256 * byteAt buffer 3,
                refersTo := byteAt buffer 4 + 256 * byteAt buffer 5,
                sent :=
                  { sec := byteAt buffer 6 + 256 * byteAt buffer 7 + 65536 * byteAt buffer 8
                            + 16777216 * byteAt buffer 9,
                    usec := byteAt buffer 10 + 256 * byteAt buffer 11
                            + 65536 * byteAt buffer 12 + 16777216 * byteAt buffer 13 },
                received :=
                  { sec := byteAt buffer 14 + 256 * byteAt buffer 15
                            + 65536 * byteAt buffer 16 + 16777216 * byteAt buffer 17,
                    usec := byteAt buffer 18 + 256 * byteAt buffer 19
                            + 65536 * byteAt buffer 20 + 16777216 * byteAt buffer 21 },
                size := byteAt buffer 22 + 256 * byteAt buffer 23 + 65536 * byteAt buffer 24
                            + 16777216 * byteAt buffer 25 })
    ∧ readBase [0x04, 0x00, 0x12, 0x03, 0x54, 0x06, 0x67, 0x45, 0x23, 0x00, 0xcd, 0xab, 0x00,
                0x00, 0x89, 0x67, 0x45, 0x00, 0x21, 0x43, 0x00, 0x00, 0x54, 0x76, 0x00, 0x00]
        = .ok { type := MessageType.TIME, id := 0x0312, refersTo := 0x0654,
                sent := { sec := 0x00234567, usec := 0x0000abcd },
                received := { sec := 0x00456789, usec := 0x00004321 }, size := 0x7654 } := by
  refine ⟨fun b buffer hv h => ?_, readBase_eq, by decide⟩
  refine ⟨b.bytes ++ buffer.drop 26, writeBase_eq buffer b h, ?_⟩
  unfold readBase
  rw [load_zero _ _ 26 (base_bytes_length b).symm, ok_bind, base_ofBytes_bytes b hv]
  rfl

/-- The round trip of C5 at the header of `testConvBase` and a 26-byte buffer. -/
theorem base_roundtrip_witness :
    Base.Valid { type := MessageType.SERVER_SETTINGS, id := 4, refersTo := 9,
                 sent := { sec := 123, usec := 456 },
                 received := { sec := 987, usec := 654 }, size := 41 }
      ∧ 26 ≤ (List.replicate 26 (0 : Byte)).length
      ∧ ∃ encoded,
          writeBase (List.replicate 26 0)
              { type := MessageType.SERVER_SETTINGS, id := 4, refersTo := 9,
                sent := { sec := 123, usec := 456 },
                received := { sec := 987, usec := 654 }, size := 41 } = .ok encoded
          ∧ readBase encoded
              = .ok { type := MessageType.SERVER_SETTINGS, id := 4, refersTo := 9,
                      sent := { sec := 123, usec := 456 },
                      received := { sec := 987, usec := 654 }, size := 41 } :=
  ⟨by decide, by decide, base_roundtrip.1 _ _ (by decide) (by decide)⟩

/-- C6: for every `Time` value, `write(buffer, time)` stores exactly 8 bytes at
the start of the buffer and leaves the rest: sec, then usec, each as 4 bytes
least significant byte first; `Time{0x12305678, 0xdeadbeef}` gives
78 56 30 12 ef be ad de.  `read(buffer, time)` on any buffer of at least 8
bytes returns sec and usec as the little-endian values of bytes 0..3 and 4..7,
and `testConvTime`'s bytes decode to the values the test expects. -/
theorem time_wire_format :
    (∀ (time : Time) (buffer : List Byte), 8 ≤ buffer.length →
      ∃ bytes, writeTime buffer time = .ok (bytes ++ buffer.drop 8) ∧ bytes.length = 8
        ∧ bytes.map Fin.val
            = [time.sec % 256, time.sec / 256 % 256, time.sec / 65536 % 256,
               time.sec / 16777216 % 256,
               time.usec % 256, time.usec / 256 % 256, time.usec / 65536 % 256,
               time.usec / 16777216 % 256])
    ∧ writeTime (List.replicate 8 0) { sec := 0x12305678, usec := 0xdeadbeef }
        = .ok [0x78, 0x56, 0x30, 0x12, 0xef, 0xbe, 0xad, 0xde]
    ∧ (∀ buffer : List Byte, 8 ≤ buffer.length →
      readTime buffer
        = .ok { sec := byteAt buffer 0 + 256 * byteAt buffer 1 + 65536 * byteAt buffer 2
                        + 16777216 * byteAt buffer 3,
                usec := byteAt buffer 4 + 256 * byteAt buffer 5 + 65536 * byteAt buffer 6
                        + 16777216 * byteAt buffer 7 })
    ∧ readTime [0x98, 0x43, 0xab, 0xcd, 0xaf, 0x6d, 0x4f, 0xdd]
        = .ok { sec := 0xcdab4398, usec := 0xdd4f6daf } := by
  refine ⟨fun time buffer h => ?_, by decide, readTime_eq, by decide⟩
  exact ⟨time.bytes, writeTime_eq buffer time h, time_bytes_length time, time_bytes_val time⟩

/-- The general parts of C6 at the values of `testConvTime`: the write into a
10-byte buffer of `0xff`, and the read of the test's 8 bytes. -/
theorem time_wire_format_witness :
    (8 ≤ (List.replicate 10 (0xff : Byte)).length
      ∧ ∃ bytes,
          writeTime (List.replicate 10 0xff) { sec := 0x12305678, usec := 0xdeadbeef }
            = .ok (bytes ++ (List.replicate 10 (0xff : Byte)).drop 8)
          ∧ bytes.length = 8
          ∧ bytes.map Fin.val
              = [0x12305678 % 256, 0x12305678 / 256 % 256, 0x12305678 / 65536 % 256,
                 0x12305678 / 16777216 % 256,
                 0xdeadbeef % 256, 0xdeadbeef / 256 % 256, 0xdeadbeef / 65536 % 256,
                 0xdeadbeef / 16777216 % 256])
    ∧ (8 ≤ [(0x98 : Byte), 0x43, 0xab, 0xcd, 0xaf, 0x6d, 0x4f, 0xdd].length
      ∧ readTime [0x98, 0x43, 0xab, 0xcd, 0xaf, 0x6d, 0x4f, 0xdd]
          = .ok { sec := byteAt [0x98, 0x43, 0xab, 0xcd, 0xaf, 0x6d, 0x4f, 0xdd] 0
                      + 256 * byteAt [0x98, 0x43, 0xab, 0xcd, 0xaf, 0x6d, 0x4f, 0xdd] 1
                      + 65536 * byteAt [0x98, 0x43, 0xab, 0xcd, 0xaf, 0x6d, 0x4f, 0xdd] 2
                      + 16777216 * byteAt [0x98, 0x43, 0xab, 0xcd, 0xaf, 0x6d, 0x4f, 0xdd] 3,
                  usec := byteAt [0x98, 0x43, 0xab, 0xcd, 0xaf, 0x6d, 0x4f, 0xdd] 4
                      + 256 * byteAt [0x98, 0x43, 0xab, 0xcd, 0xaf, 0x6d, 0x4f, 0xdd] 5
                      + 65536 * byteAt [0x98, 0x43, 0xab, 0xcd, 0xaf, 0x6d, 0x4f, 0xdd] 6
                      + 16777216 * byteAt [0x98, 0x43, 0xab, 0xcd, 0xaf, 0x6d, 0x4f, 0xdd] 7 }) :=
  ⟨⟨by decide, time_wire_format.1 _ _ (by decide)⟩,
    ⟨by decide, time_wire_format.2.2.1 _ (by decide)⟩⟩

/-- C7, as stated, fails for a payload that lies in the buffer written: `Hello`
built from the view of the first two bytes, "ab", of a 6-byte buffer.  `write`
stores the length 02 00 00 00 over them and then copies the payload from there:
the body is 02 00 00 00 02 00, not 02 00 00 00 and "ab". -/
theorem write_json_format_counterexample :
    (Ptr.mk (.destination []) 0).viewIn [0x61, 0x62, 0xff, 0xff, 0xff, 0xff] 2
        = some [0x61, 0x62]
      ∧ write [0x61, 0x62, 0xff, 0xff, 0xff, 0xff]
            (.Hello (JsonMessage.ofView ⟨.destination [], 0⟩ 2))
          = .ok [0x02, 0x00, 0x00, 0x00, 0x02, 0x00]
      ∧ ([0x02, 0x00, 0x00, 0x00, 0x02, 0x00] : List Byte) ≠ toLE 4 2 ++ [0x61, 0x62] := by
  decide

/-- C7, amended: for each of `Hello`, `ServerSettings` and `ClientInfo` built from
a view of `n` bytes `p`, `n` below `2 ^ 32`, that lie outside the buffer written,
`write(buffer, message)` stores exactly `4 + n` bytes at the start of the buffer
and leaves the rest: `n` as 4 bytes least significant byte first, then the bytes
of `p` in order.  `Hello` "abcdefghijkl" gives 0c 00 00 00 and the twelve
letters; an empty payload gives 00 00 00 00. -/
theorem write_json_format :
    (∀ (data : Ptr) (n : Nat) (p buffer : List Byte), n < 2 ^ 32 → data.view n = some p →
      4 + n ≤ buffer.length →
      write buffer (.Hello (JsonMessage.ofView data n))
          = .ok (toLE 4 n ++ p ++ buffer.drop (4 + n))
        ∧ write buffer (.ServerSettings (JsonMessage.ofView data n))
          = .ok (toLE 4 n ++ p ++ buffer.drop (4 + n))
        ∧ write buffer (.ClientInfo (JsonMessage.ofView data n))
          = .ok (toLE 4 n ++ p ++ buffer.drop (4 + n))
        ∧ (toLE 4 n ++ p).length = 4 + n
        ∧ (toLE 4 n).map Fin.val
            = [n % 256, n / 256 % 256, n / 65536 % 256, n / 16777216 % 256])
    ∧ (∀ p : List Byte, JsonMessage.ofString p = JsonMessage.ofView ⟨.array p, 0⟩ p.length)
    ∧ write (List.replicate 16 0)
          (.Hello (JsonMessage.ofString
            [0x61, 0x62, 0x63, 0x64, 0x65, 0x66, 0x67, 0x68, 0x69, 0x6a, 0x6b, 0x6c]))
        = .ok [0x0c, 0x00, 0x00, 0x00,
               0x61, 0x62, 0x63, 0x64, 0x65, 0x66, 0x67, 0x68, 0x69, 0x6a, 0x6b, 0x6c]
    ∧ write [0xff, 0xff, 0xff, 0xff] (.Hello (JsonMessage.ofString [])) = .ok [0, 0, 0, 0]
    ∧ write [0xff, 0xff, 0xff, 0xff] (.ServerSettings (JsonMessage.ofString []))
        = .ok [0, 0, 0, 0]
    ∧ write [0xff, 0xff, 0xff, 0xff] (.ClientInfo (JsonMessage.ofString [])) = .ok [0, 0, 0, 0] := by
  refine ⟨fun data n p buffer hn hv hb => ?_, fun _ => rfl, by decide, by decide, by decide,
    by decide⟩
  have hl : p.length = n := (load_view data n p hv).2
  have hw : writeJson buffer (JsonMessage.ofView data n)
      = .ok (toLE 4 n ++ p ++ buffer.drop (4 + n)) := by
    have h := writeJson_eq buffer (JsonMessage.ofView data n) p
      (by simpa only [JsonMessage.ofView, Nat.mod_eq_of_lt hn] using hv) (by omega)
    simpa only [JsonMessage.ofView, Nat.mod_eq_of_lt hn, hl] using h
  refine ⟨hw, hw, hw, ?_, toLE4_val _⟩
  simp only [List.length_append, toLE_length, hl]

/-- The general part of the amended C7 at the payload "{}", the two bytes at
offset 1 of the array 5b 7b 7d 5d, and a 7-byte buffer of `0xff`. -/
theorem write_json_format_witness :
    (2 : Nat) < 2 ^ 32
      ∧ (Ptr.mk (.array [0x5b, 0x7b, 0x7d, 0x5d]) 1).view 2 = some [0x7b, 0x7d]
      ∧ 4 + 2 ≤ (List.replicate 7 (0xff : Byte)).length
      ∧ write (List.replicate 7 0xff)
            (.Hello (JsonMessage.ofView ⟨.array [0x5b, 0x7b, 0x7d, 0x5d], 1⟩ 2))
          = .ok [0x02, 0x00, 0x00, 0x00, 0x7b, 0x7d, 0xff] :=
  ⟨by decide, by decide, by decide,
    ((write_json_format.1 ⟨.array [0x5b, 0x7b, 0x7d, 0x5d], 1⟩ 2 [0x7b, 0x7d]
      (List.replicate 7 0xff) (by decide) (by decide) (by decide)).1).trans (by decide)⟩

/-- C8, as stated, fails for a payload that lies in the buffer written: the
`WireChunk` built from the view of the first byte, 41, of a 13-byte buffer.
`write` stores the timestamp over that byte before it copies the payload from
it: the body ends in 00, not in 41. -/
theorem write_wireChunk_format_counterexample :
    (Ptr.mk (.destination []) 0).viewIn
          [0x41, 0xff, 0xff, 0xff, 0xff, 0xff, 0xff, 0xff, 0xff, 0xff, 0xff, 0xff, 0xff] 1
        = some [0x41]
      ∧ write [0x41, 0xff, 0xff, 0xff, 0xff, 0xff, 0xff, 0xff, 0xff, 0xff, 0xff, 0xff, 0xff]
            (.WireChunk (WireChunk.ofView ⟨.destination [], 0⟩ 1))
          = .ok [0, 0, 0, 0, 0, 0, 0, 0, 0x01, 0x00, 0x00, 0x00, 0x00]
      ∧ ([0, 0, 0, 0, 0, 0, 0, 0, 0x01, 0x00, 0x00, 0x00, 0x00] : List Byte)
          ≠ toLE 4 0 ++ toLE 4 0 ++ toLE 4 1 ++ [0x41] := by
  decide

/-- C8, amended: for every `WireChunk` with timestamp `t` and a payload view of
`n` bytes `p`, `n` below `2 ^ 32`, that lie outside the buffer written,
`write(buffer, message)` stores exactly `12 + n` bytes at the start of the buffer
and leaves the rest: `t.sec`, `t.usec` and `n`, each as 4 bytes least
significant byte first, then the bytes of `p` in order.  A `WireChunk`
constructed from a payload span alone has timestamp `{0, 0}`, so every such
34-byte payload is encoded as eight zero bytes, 22 00 00 00 and the payload. -/
theorem write_wireChunk_format :
    (∀ (t : Time) (data : Ptr) (n : Nat) (p buffer : List Byte), n < 2 ^ 32 →
      data.view n = some p → 12 + n ≤ buffer.length →
      write buffer (.WireChunk { WireChunk.ofView data n with timestamp := t })
          = .ok (toLE 4 t.sec ++ toLE 4 t.usec ++ toLE 4 n ++ p ++ buffer.drop (12 + n))
        ∧ (toLE 4 t.sec ++ toLE 4 t.usec ++ toLE 4 n ++ p).length = 12 + n)
    ∧ (∀ (data : Ptr) (n : Nat), (WireChunk.ofView data n).timestamp = { sec := 0, usec := 0 })
    ∧ (∀ p : List Byte, WireChunk.ofSpan p = WireChunk.ofView ⟨.array p, 0⟩ p.length)
    ∧ (∀ (data : Ptr) (p buffer : List Byte), data.view 34 = some p → 46 ≤ buffer.length →
      write buffer (.WireChunk (WireChunk.ofView data 34))
        = .ok ([0, 0, 0, 0, 0, 0, 0, 0, 0x22, 0x00, 0x00, 0x00] ++ p ++ buffer.drop 46)) := by
  have key : ∀ (t : Time) (data : Ptr) (n : Nat) (p buffer : List Byte), n < 2 ^ 32 →
      data.view n = some p → 12 + n ≤ buffer.length →
      write buffer (.WireChunk { WireChunk.ofView data n with timestamp := t })
        = .ok (toLE 4 t.sec ++ toLE 4 t.usec ++ toLE 4 n ++ p ++ buffer.drop (12 + n)) := by
    intro t data n p buffer hn hv hb
    have hl : p.length = n := (load_view data n p hv).2
    have h := write_WireChunk_eq buffer { WireChunk.ofView data n with timestamp := t } p
      (by simpa only [WireChunk.ofView, Nat.mod_eq_of_lt hn] using hv) (by omega)
    simpa only [WireChunk.ofView, Nat.mod_eq_of_lt hn, Time.bytes, hl] using h
  refine ⟨fun t data n p buffer hn hv hb => ⟨key t data n p buffer hn hv hb, ?_⟩,
    fun _ _ => rfl, fun _ => rfl, fun data p buffer hv hb => ?_⟩
  · simp only [List.length_append, toLE_length, (load_view data n p hv).2]
  · exact key { sec := 0, usec := 0 } data 34 p buffer (by decide) hv (by omega)

/-- The general part of the amended C8 at timestamp `{1, 2}`, the payload aa bb
at offset 1 of the array 00 aa bb and a 15-byte buffer of `0xff`, and its part on
span-built chunks at a payload of 34 bytes `0xab` and a 46-byte buffer. -/
theorem write_wireChunk_format_witness :
    ((2 : Nat) < 2 ^ 32
      ∧ (Ptr.mk (.array [0x00, 0xaa, 0xbb]) 1).view 2 = some [0xaa, 0xbb]
      ∧ 12 + 2 ≤ (List.replicate 15 (0xff : Byte)).length
      ∧ write (List.replicate 15 0xff)
            (.WireChunk { WireChunk.ofView ⟨.array [0x00, 0xaa, 0xbb], 1⟩ 2 with
                          timestamp := { sec := 1, usec := 2 } })
          = .ok [1, 0, 0, 0, 2, 0, 0, 0, 2, 0, 0, 0, 0xaa, 0xbb, 0xff])
    ∧ ((Ptr.mk (.array (List.replicate 34 (0xab : Byte))) 0).view 34
          = some (List.replicate 34 0xab)
      ∧ 46 ≤ (List.replicate 46 (0 : Byte)).length
      ∧ write (List.replicate 46 0)
            (.WireChunk (WireChunk.ofView ⟨.array (List.replicate 34 0xab), 0⟩ 34))
          = .ok ([0, 0, 0, 0, 0, 0, 0, 0, 0x22, 0x00, 0x00, 0x00] ++ List.replicate 34 0xab
                  ++ (List.replicate 46 (0 : Byte)).drop 46)) :=
  ⟨⟨by decide, by decide, by decide,
      ((write_wireChunk_format.1 { sec := 1, usec := 2 } ⟨.array [0x00, 0xaa, 0xbb], 1⟩ 2
        [0xaa, 0xbb] (List.replicate 15 0xff) (by decide) (by decide) (by decide)).1).trans
        (by decide)⟩,
    ⟨by decide, by decide,
      write_wireChunk_format.2.2.2 ⟨.array (List.replicate 34 0xab), 0⟩
        (List.replicate 34 0xab) (List.replicate 46 0) (by decide) (by decide)⟩⟩

/-- C9, as stated, fails for a codec string that lies in the buffer written: the
`CodecHeader` built from the view of the first byte, 41, of a 9-byte buffer as
codec and an empty payload.  `write` stores codecSize over that byte before it
copies the codec from it: the body is 01 00 00 00 01 00 00 00 00, not
01 00 00 00 41 00 00 00 00. -/
theorem write_codecHeader_format_counterexample :
    (Ptr.mk (.destination []) 0).viewIn
          [0x41, 0xff, 0xff, 0xff, 0xff, 0xff, 0xff, 0xff, 0xff] 1
        = some [0x41]
      ∧ write [0x41, 0xff, 0xff, 0xff, 0xff, 0xff, 0xff, 0xff, 0xff]
            (.CodecHeader (CodecHeader.ofViews ⟨.destination [], 0⟩ 1 ⟨.array [], 0⟩ 0))
          = .ok [0x01, 0x00, 0x00, 0x00, 0x01, 0x00, 0x00, 0x00, 0x00]
      ∧ ([0x01, 0x00, 0x00, 0x00, 0x01, 0x00, 0x00, 0x00, 0x00] : List Byte)
          ≠ toLE 4 1 ++ [0x41] ++ toLE 4 0 ++ [] := by
  decide

/-- C9, amended: for every `CodecHeader` built from a codec view of bytes `c` and a
payload view of bytes `p` that lie outside the buffer written (lengths that fit
the 32-bit length members), `write(buffer, message)` stores exactly
`8 + |c| + |p|` bytes at the start of the buffer and leaves the rest, in the
order: `|c|` as 4 bytes least significant byte first, the bytes of `c`, `|p|` as
4 bytes least significant byte first, the bytes of `p`.  Codec "test" with
payload "testing" gives the 19 bytes `testConvCodecHeader` expects. -/
theorem write_codecHeader_format :
    (∀ (cData : Ptr) (cn : Nat) (pData : Ptr) (pn : Nat) (c p buffer : List Byte),
      cn < 2 ^ 32 → pn < 2 ^ 32 → cData.view cn = some c → pData.view pn = some p →
      8 + cn + pn ≤ buffer.length →
      write buffer (.CodecHeader (CodecHeader.ofViews cData cn pData pn))
          = .ok (toLE 4 cn ++ c ++ toLE 4 pn ++ p ++ buffer.drop (8 + cn + pn))
        ∧ (toLE 4 cn ++ c ++ toLE 4 pn ++ p).length = 8 + cn + pn)
    ∧ (∀ c p : List Byte,
      CodecHeader.ofParts c p = CodecHeader.ofViews ⟨.array c, 0⟩ c.length ⟨.array p, 0⟩ p.length)
    ∧ write (List.replicate 19 0)
          (.CodecHeader (CodecHeader.ofParts [0x74, 0x65, 0x73, 0x74]
            [0x74, 0x65, 0x73, 0x74, 0x69, 0x6e, 0x67]))
        = .ok [0x04, 0x00, 0x00, 0x00, 0x74, 0x65, 0x73, 0x74,
               0x07, 0x00, 0x00, 0x00, 0x74, 0x65, 0x73, 0x74, 0x69, 0x6e, 0x67] := by
  refine ⟨fun cData cn pData pn c p buffer hcn hpn hc hp hb => ?_, fun _ _ => rfl, by decide⟩
  have hcl : c.length = cn := (load_view cData cn c hc).2
  have hpl : p.length = pn := (load_view pData pn p hp).2
  refine ⟨?_, ?_⟩
  · have h := write_CodecHeader_eq buffer (CodecHeader.ofViews cData cn pData pn) c p
      (by simpa only [CodecHeader.ofViews, Nat.mod_eq_of_lt hcn] using hc)
      (by simpa only [CodecHeader.ofViews, Nat.mod_eq_of_lt hpn] using hp) (by omega)
    simpa only [CodecHeader.ofViews, Nat.mod_eq_of_lt hcn, Nat.mod_eq_of_lt hpn, hcl, hpl]
      using h
  · simp only [List.length_append, toLE_length, hcl, hpl]
    omega

/-- The general part of the amended C9 at codec "test" and payload "testing", two
views of the array "testtesting", and a 21-byte buffer of `0xff`: the last two
bytes keep their value. -/
theorem write_codecHeader_format_witness :
    (4 : Nat) < 2 ^ 32 ∧ (7 : Nat) < 2 ^ 32
      ∧ (Ptr.mk (.array [0x74, 0x65, 0x73, 0x74, 0x74, 0x65, 0x73, 0x74, 0x69, 0x6e, 0x67])
            0).view 4 = some [0x74, 0x65, 0x73, 0x74]
      ∧ (Ptr.mk (.array [0x74, 0x65, 0x73, 0x74, 0x74, 0x65, 0x73, 0x74, 0x69, 0x6e, 0x67])
            4).view 7 = some [0x74, 0x65, 0x73, 0x74, 0x69, 0x6e, 0x67]
      ∧ 8 + 4 + 7 ≤ (List.replicate 21 (0xff : Byte)).length
      ∧ write (List.replicate 21 0xff)
            (.CodecHeader (CodecHeader.ofViews
              ⟨.array [0x74, 0x65, 0x73, 0x74, 0x74, 0x65, 0x73, 0x74, 0x69, 0x6e, 0x67], 0⟩ 4
              ⟨.array [0x74, 0x65, 0x73, 0x74, 0x74, 0x65, 0x73, 0x74, 0x69, 0x6e, 0x67], 4⟩ 7))
          = .ok [0x04, 0x00, 0x00, 0x00, 0x74, 0x65, 0x73, 0x74,
                 0x07, 0x00, 0x00, 0x00, 0x74, 0x65, 0x73, 0x74, 0x69, 0x6e, 0x67,
                 0xff, 0xff] :=
  ⟨by decide, by decide, by decide, by decide, by decide,
    ((write_codecHeader_format.1
      ⟨.array [0x74, 0x65, 0x73, 0x74, 0x74, 0x65, 0x73, 0x74, 0x69, 0x6e, 0x67], 0⟩ 4
      ⟨.array [0x74, 0x65, 0x73, 0x74, 0x74, 0x65, 0x73, 0x74, 0x69, 0x6e, 0x67], 4⟩ 7
      [0x74, 0x65, 0x73, 0x74] [0x74, 0x65, 0x73, 0x74, 0x69, 0x6e, 0x67]
      (List.replicate 21 0xff) (by decide) (by decide) (by decide) (by decide)
      (by decide)).1).trans (by decide)⟩

/-- C10, as stated, fails for a string that lies in the buffer written.
* The `Error` with code 0 built from the view of the first byte, 41, of a 13-byte
  buffer as error string and an empty error message: `write` stores the code
  over that byte before it copies the string from it, so the byte after the
  length 01 00 00 00 is 00, not 41.
* With the byte at offset 8 of the buffer as error string, the copy of the string
  has that byte for source and for destination: its behaviour is undefined. -/
theorem write_error_format_counterexample :
    (Ptr.mk (.destination []) 0).viewIn
          [0x41, 0xff, 0xff, 0xff, 0xff, 0xff, 0xff, 0xff, 0xff, 0xff, 0xff, 0xff, 0xff] 1
        = some [0x41]
      ∧ write [0x41, 0xff, 0xff, 0xff, 0xff, 0xff, 0xff, 0xff, 0xff, 0xff, 0xff, 0xff, 0xff]
            (.Error (Error.ofViews 0 ⟨.destination [], 0⟩ 1 ⟨.array [], 0⟩ 0))
          = .ok [0, 0, 0, 0, 0x01, 0x00, 0x00, 0x00, 0x00, 0, 0, 0, 0]
      ∧ ([0, 0, 0, 0, 0x01, 0x00, 0x00, 0x00, 0x00, 0, 0, 0, 0] : List Byte)
          ≠ toLE 4 0 ++ toLE 4 1 ++ [0x41] ++ toLE 4 0 ++ []
      ∧ write [0xff, 0xff, 0xff, 0xff, 0xff, 0xff, 0xff, 0xff, 0x41, 0xff, 0xff, 0xff, 0xff]
            (.Error (Error.ofViews 0 ⟨.destination [], 8⟩ 1 ⟨.array [], 0⟩ 0))
          = .error (.overlap 8) := by
  decide

/-- C10, amended: for every `Error` message with code `e` built from an error
string view of bytes `s` and an error message view of bytes `m` that lie outside
the buffer written (lengths that fit the 32-bit length members),
`write(buffer, message)` stores exactly `12 + |s| + |m|` bytes at the start of
the buffer and leaves the rest, in the order: `e`, then `|s|`, each as 4 bytes
least significant byte first, the bytes of `s`, `|m|` as 4 bytes least
significant byte first, the bytes of `m`. -/
theorem write_error_format (e : Nat) (sData : Ptr) (sn : Nat) (mData : Ptr) (mn : Nat)
    (s m buffer : List Byte) (hsn : sn < 2 ^ 32) (hmn : mn < 2 ^ 32)
    (hs : sData.view sn = some s) (hm : mData.view mn = some m)
    (hb : 12 + sn + mn ≤ buffer.length) :
    write buffer (.Error (Error.ofViews e sData sn mData mn))
        = .ok (toLE 4 e ++ toLE 4 sn ++ s ++ toLE 4 mn ++ m ++ buffer.drop (12 + sn + mn))
      ∧ (toLE 4 e ++ toLE 4 sn ++ s ++ toLE 4 mn ++ m).length = 12 + sn + mn
      ∧ (toLE 4 e).map Fin.val = [e % 256, e / 256 % 256, e / 65536 % 256, e / 16777216 % 256]
      ∧ Error.ofParts e s m = Error.ofViews e ⟨.array s, 0⟩ s.length ⟨.array m, 0⟩ m.length := by
  have hsl : s.length = sn := (load_view sData sn s hs).2
  have hml : m.length = mn := (load_view mData mn m hm).2
  refine ⟨?_, ?_, toLE4_val e, rfl⟩
  · have h := write_Error_eq buffer (Error.ofViews e sData sn mData mn) s m
      (by simpa only [Error.ofViews, Nat.mod_eq_of_lt hsn] using hs)
      (by simpa only [Error.ofViews, Nat.mod_eq_of_lt hmn] using hm) (by omega)
    simpa only [Error.ofViews, Nat.mod_eq_of_lt hsn, Nat.mod_eq_of_lt hmn, hsl, hml] using h
  · simp only [List.length_append, toLE_length, hsl, hml]
    omega

/-- The amended C10 at code 0x0102, error string "no" and error message "bad", two
views of the array "nobad", and an 18-byte buffer of `0xff`: 17 bytes are stored
and the last keeps its value. -/
theorem write_error_format_witness :
    (2 : Nat) < 2 ^ 32 ∧ (3 : Nat) < 2 ^ 32
      ∧ (Ptr.mk (.array [0x6e, 0x6f, 0x62, 0x61, 0x64]) 0).view 2 = some [0x6e, 0x6f]
      ∧ (Ptr.mk (.array [0x6e, 0x6f, 0x62, 0x61, 0x64]) 2).view 3 = some [0x62, 0x61, 0x64]
      ∧ 12 + 2 + 3 ≤ (List.replicate 18 (0xff : Byte)).length
      ∧ write (List.replicate 18 0xff)
            (.Error (Error.ofViews 0x0102 ⟨.array [0x6e, 0x6f, 0x62, 0x61, 0x64], 0⟩ 2
              ⟨.array [0x6e, 0x6f, 0x62, 0x61, 0x64], 2⟩ 3))
          = .ok [0x02, 0x01, 0x00, 0x00, 0x02, 0x00, 0x00, 0x00, 0x6e, 0x6f,
                 0x03, 0x00, 0x00, 0x00, 0x62, 0x61, 0x64, 0xff] :=
  ⟨by decide, by decide, by decide, by decide, by decide,
    ((write_error_format 0x0102 ⟨.array [0x6e, 0x6f, 0x62, 0x61, 0x64], 0⟩ 2
      ⟨.array [0x6e, 0x6f, 0x62, 0x61, 0x64], 2⟩ 3 [0x6e, 0x6f] [0x62, 0x61, 0x64]
      (List.replicate 18 0xff) (by decide) (by decide) (by decide) (by decide)
      (by decide)).1).trans (by decide)⟩

/-- C11: for every well-formed body buffer, each payload and string `read`
returns is a view into that same buffer, at the offset that follows from the
fields before it and with the length found in its little-endian length prefix:
JSON payload at 4 (length at 0); `WireChunk` payload at 12 (length at 8);
`CodecHeader` codec at 4 (length at 0) and payload at `8 + codecSize` (length at
`4 + codecSize`); `Error` error at 8 (length at 4) and errorMessage at
`12 + errorSize` (length at `8 + errorSize`).  The bytes a view covers are the
bytes of the buffer at that offset, so bytes after the last field play no part:
0a 00 00 00 "fedcba0123" and two more bytes decode as `HELLO` to size 10 and
payload "fedcba0123". -/
theorem read_views_into_buffer :
    (∀ buffer : List Byte, 4 + u32At buffer 0 ≤ buffer.length →
      read buffer MessageType.HELLO
          = .ok (.Hello { payload := ⟨.array buffer, 4⟩, size := u32At buffer 0 })
        ∧ read buffer MessageType.SERVER_SETTINGS
          = .ok (.ServerSettings { payload := ⟨.array buffer, 4⟩, size := u32At buffer 0 })
        ∧ read buffer MessageType.CLIENT_INFO
          = .ok (.ClientInfo { payload := ⟨.array buffer, 4⟩, size := u32At buffer 0 })
        ∧ (Ptr.mk (.array buffer) 4).view (u32At buffer 0)
          = some ((buffer.drop 4).take (u32At buffer 0)))
    ∧ (∀ buffer : List Byte, 12 + u32At buffer 8 ≤ buffer.length →
      (∃ timestamp, read buffer MessageType.WIRE_CHUNK
          = .ok (.WireChunk { timestamp := timestamp, payload := ⟨.array buffer, 12⟩,
                              size := u32At buffer 8 }))
        ∧ (Ptr.mk (.array buffer) 12).view (u32At buffer 8)
          = some ((buffer.drop 12).take (u32At buffer 8)))
    ∧ (∀ buffer : List Byte,
      8 + u32At buffer 0 + u32At buffer (4 + u32At buffer 0) ≤ buffer.length →
      read buffer MessageType.CODEC_HEADER
          = .ok (.CodecHeader { codecSize := u32At buffer 0,
                                size := u32At buffer (4 + u32At buffer 0),
                                codec := ⟨.array buffer, 4⟩,
                                payload := ⟨.array buffer, 8 + u32At buffer 0⟩ })
        ∧ (Ptr.mk (.array buffer) 4).view (u32At buffer 0)
          = some ((buffer.drop 4).take (u32At buffer 0))
        ∧ (Ptr.mk (.array buffer) (8 + u32At buffer 0)).view (u32At buffer (4 + u32At buffer 0))
          = some ((buffer.drop (8 + u32At buffer 0)).take (u32At buffer (4 + u32At buffer 0))))
    ∧ (∀ buffer : List Byte,
      12 + u32At buffer 4 + u32At buffer (8 + u32At buffer 4) ≤ buffer.length →
      read buffer MessageType.ERROR
          = .ok (.Error { errorCode := u32At buffer 0,
                          errorSize := u32At buffer 4,
                          error := ⟨.array buffer, 8⟩,
                          errorMessageSize := u32At buffer (8 + u32At buffer 4),
                          errorMessage := ⟨.array buffer, 12 + u32At buffer 4⟩ })
        ∧ (Ptr.mk (.array buffer) 8).view (u32At buffer 4)
          = some ((buffer.drop 8).take (u32At buffer 4))
        ∧ (Ptr.mk (.array buffer) (12 + u32At buffer 4)).view (u32At buffer (8 + u32At buffer 4))
          = some ((buffer.drop (12 + u32At buffer 4)).take
              (u32At buffer (8 + u32At buffer 4))))
    ∧ (∀ (buffer : List Byte) (k : Nat), k + 4 ≤ buffer.length →
      u32At buffer k
        = byteAt buffer k + 256 * byteAt buffer (k + 1) + 65536 * byteAt buffer (k + 2)
            + 16777216 * byteAt buffer (k + 3))
    ∧ read [0x0a, 0x00, 0x00, 0x00, 0x66, 0x65, 0x64, 0x63, 0x62, 0x61, 0x30, 0x31, 0x32,
            0x33, 0x00, 0x00] MessageType.HELLO
        = .ok (.Hello
            { payload := ⟨.array [0x0a, 0x00, 0x00, 0x00, 0x66, 0x65, 0x64, 0x63, 0x62, 0x61, 0x30,
                           0x31, 0x32, 0x33, 0x00, 0x00], 4⟩,
              size := 10 })
    ∧ (Ptr.mk (.array [0x0a, 0x00, 0x00, 0x00, 0x66, 0x65, 0x64, 0x63, 0x62, 0x61, 0x30, 0x31, 0x32,
               0x33, 0x00, 0x00]) 4).view 10
        = some [0x66, 0x65, 0x64, 0x63, 0x62, 0x61, 0x30, 0x31, 0x32, 0x33] := by
  refine ⟨fun buffer h => ?_, fun buffer h => ?_, fun buffer h => ?_, fun buffer h => ?_,
    fun buffer k h => fromLE_take4_drop buffer k h, by decide, by decide⟩
  · have hj := readJson_ok buffer (by omega)
    refine ⟨?_, ?_, ?_, view_eq_of_le buffer 4 _ h⟩ <;> simp only [read, hj] <;> rfl
  · exact ⟨⟨_, read_WireChunk_ok buffer (by omega)⟩, view_eq_of_le buffer 12 _ h⟩
  · have e : 4 + fromLE (buffer.take 4) + 4 = 8 + u32At buffer 0 := by
      simp only [u32At, List.drop_zero]; omega
    have hr := read_CodecHeader_ok buffer (by simp only [u32At, List.drop_zero] at h; omega)
    rw [e] at hr
    exact ⟨hr, view_eq_of_le buffer 4 _ (by omega), view_eq_of_le buffer _ _ h⟩
  · have e1 : 4 + 4 + fromLE ((buffer.drop 4).take 4) = 8 + u32At buffer 4 := by
      simp only [u32At]
    have e2 : 4 + 4 + fromLE ((buffer.drop 4).take 4) + 4 = 12 + u32At buffer 4 := by
      simp only [u32At]; omega
    have hr := read_Error_ok buffer (by simp only [u32At] at h; omega)
    rw [e2, e1] at hr
    exact ⟨hr, view_eq_of_le buffer 8 _ (by omega), view_eq_of_le buffer _ _ h⟩

/-- The general parts of C11 at the buffer of `testConvHello` and at the 19 bytes
of the codec header "test" / "testing". -/
theorem read_views_into_buffer_witness :
    (4 + u32At [0x0a, 0x00, 0x00, 0x00, 0x66, 0x65, 0x64, 0x63, 0x62, 0x61, 0x30, 0x31,
                0x32, 0x33, 0x00, 0x00] 0
        ≤ [(0x0a : Byte), 0x00, 0x00, 0x00, 0x66, 0x65, 0x64, 0x63, 0x62, 0x61, 0x30, 0x31,
           0x32, 0x33, 0x00, 0x00].length
      ∧ (Ptr.mk (.array [0x0a, 0x00, 0x00, 0x00, 0x66, 0x65, 0x64, 0x63, 0x62, 0x61, 0x30, 0x31,
                 0x32, 0x33, 0x00, 0x00]) 4).view
            (u32At [0x0a, 0x00, 0x00, 0x00, 0x66, 0x65, 0x64, 0x63, 0x62, 0x61, 0x30, 0x31,
                    0x32, 0x33, 0x00, 0x00] 0)
          = some (([(0x0a : Byte), 0x00, 0x00, 0x00, 0x66, 0x65, 0x64, 0x63, 0x62, 0x61,
                    0x30, 0x31, 0x32, 0x33, 0x00, 0x00].drop 4).take
              (u32At [0x0a, 0x00, 0x00, 0x00, 0x66, 0x65, 0x64, 0x63, 0x62, 0x61, 0x30,
                      0x31, 0x32, 0x33, 0x00, 0x00] 0)))
    ∧ (8 + u32At [0x04, 0x00, 0x00, 0x00, 0x74, 0x65, 0x73, 0x74, 0x07, 0x00, 0x00, 0x00,
                  0x74, 0x65, 0x73, 0x74, 0x69, 0x6e, 0x67] 0
          + u32At [0x04, 0x00, 0x00, 0x00, 0x74, 0x65, 0x73, 0x74, 0x07, 0x00, 0x00, 0x00,
                   0x74, 0x65, 0x73, 0x74, 0x69, 0x6e, 0x67]
              (4 + u32At [0x04, 0x00, 0x00, 0x00, 0x74, 0x65, 0x73, 0x74, 0x07, 0x00, 0x00,
                          0x00, 0x74, 0x65, 0x73, 0x74, 0x69, 0x6e, 0x67] 0)
        ≤ [(0x04 : Byte), 0x00, 0x00, 0x00, 0x74, 0x65, 0x73, 0x74, 0x07, 0x00, 0x00, 0x00,
           0x74, 0x65, 0x73, 0x74, 0x69, 0x6e, 0x67].length
      ∧ read [0x04, 0x00, 0x00, 0x00, 0x74, 0x65, 0x73, 0x74, 0x07, 0x00, 0x00, 0x00,
              0x74, 0x65, 0x73, 0x74, 0x69, 0x6e, 0x67] MessageType.CODEC_HEADER
          = .ok (.CodecHeader
              { codecSize := 4, size := 7,
                codec := ⟨.array [0x04, 0x00, 0x00, 0x00, 0x74, 0x65, 0x73, 0x74, 0x07, 0x00, 0x00,
                           0x00, 0x74, 0x65, 0x73, 0x74, 0x69, 0x6e, 0x67], 4⟩,
                payload := ⟨.array [0x04, 0x00, 0x00, 0x00, 0x74, 0x65, 0x73, 0x74, 0x07, 0x00,
                             0x00, 0x00, 0x74, 0x65, 0x73, 0x74, 0x69, 0x6e, 0x67], 12⟩ })) :=
  ⟨⟨by decide,
      (read_views_into_buffer.1
        [0x0a, 0x00, 0x00, 0x00, 0x66, 0x65, 0x64, 0x63, 0x62, 0x61, 0x30, 0x31, 0x32, 0x33,
         0x00, 0x00] (by decide)).2.2.2⟩,
    ⟨by decide,
      ((read_views_into_buffer.2.2.1
        [0x04, 0x00, 0x00, 0x00, 0x74, 0x65, 0x73, 0x74, 0x07, 0x00, 0x00, 0x00, 0x74, 0x65,
         0x73, 0x74, 0x69, 0x6e, 0x67] (by decide)).1).trans (by decide)⟩⟩

/-- C12, as stated, fails: `read(buffer, base)` has no `ShortBuffer` result.  On a
buffer of 25 bytes, and on an empty one, its copy of 26 bytes reads the byte at
index 25, respectively 0, which the buffer does not have. -/
theorem readBase_short_counterexample :
    readBase (List.replicate 25 0) = .error (.readOutOfBounds 25)
      ∧ readBase [] = .error (.readOutOfBounds 0) := by
  decide

/-- C12, amended: `read(buffer, base)` checks no length when it runs.  On every
buffer shorter than 26 bytes its copy of `sizeof(Base)` bytes leaves the buffer
at the index equal to the buffer length, which is undefined behaviour and
produces no header value; on every buffer of at least 26 bytes it produces one. -/
theorem readBase_needs_26 (buffer : List Byte) :
    (buffer.length < 26 → readBase buffer = .error (.readOutOfBounds buffer.length))
      ∧ (26 ≤ buffer.length → ∃ base, readBase buffer = .ok base) :=
  ⟨readBase_short buffer, fun h => ⟨_, readBase_eq buffer h⟩⟩

/-- The amended C12 at a buffer of 10 bytes and at one of 26 bytes. -/
theorem readBase_needs_26_witness :
    ((List.replicate 10 (0 : Byte)).length < 26
      ∧ readBase (List.replicate 10 0)
          = .error (.readOutOfBounds (List.replicate 10 (0 : Byte)).length))
    ∧ (26 ≤ (List.replicate 26 (0 : Byte)).length
      ∧ ∃ base, readBase (List.replicate 26 0) = .ok base) :=
  ⟨⟨by decide, (readBase_needs_26 (List.replicate 10 0)).1 (by decide)⟩,
    ⟨by decide, (readBase_needs_26 (List.replicate 26 0)).2 (by decide)⟩⟩

/-- C13: the size member of the header `SnapClient::send` builds, against the
number of body bytes `write` emits for the message.
* For every message the visitor accepts whose body size (`4 + n` for the JSON
  variants, 8 for `Time`, `12 + n` for `WireChunk`) is below `2 ^ 32`, the two
  are equal.
* For a `Hello` whose size member is 4294967295, the largest a 32-bit member
  holds, the header gets size 3 while `write` emits 4294967299 bytes: the sum is
  cast to 32 bits and wraps.  A `WireChunk` of 4294967284 bytes gets size 0. -/
theorem send_size_wraps :
    (∀ (now : Int) (id : Nat) (m m' : Message) (base : Base), m.Sendable →
      SnapClient.makeBase now id m = .ok (base, m') → m'.WellFormed → m'.bodySize < 2 ^ 32 →
      base.size = m'.wire.length ∧ m'.wire.length = m'.bodySize)
    ∧ (∀ (now : Int) (id : Nat) (msg : JsonMessage), msg.size = 4294967295 →
      msg.payload.HoldsData msg.size →
      (∃ base, SnapClient.makeBase now id (.Hello msg) = .ok (base, .Hello msg)
          ∧ base.size = 3)
        ∧ (Message.Hello msg).wire.length = 4294967299)
    ∧ (∀ (now : Int) (id : Nat) (msg : WireChunk), msg.size = 4294967284 →
      (Message.WireChunk msg).WellFormed →
      (∃ base, SnapClient.makeBase now id (.WireChunk msg) = .ok (base, .WireChunk msg)
          ∧ base.size = 0)
        ∧ (Message.WireChunk msg).wire.length = 4294967296) := by
  refine ⟨fun now id m m' base hs hb hwf hlt => ?_, fun now id msg hsz hd => ?_,
    fun now id msg hsz hwf => ?_⟩
  · obtain ⟨m'', hb', -, -, -⟩ := makeBase_sendable now id m hs
    rw [hb'] at hb
    cases hb
    have hl := (write_wire m' hwf).1
    exact ⟨by rw [hl]; exact Nat.mod_eq_of_lt hlt, hl⟩
  · refine ⟨⟨_, rfl, ?_⟩, ?_⟩
    · show (4 + msg.size) % 2 ^ 32 = 3
      rw [hsz]
      rfl
    · rw [(write_wire (.Hello msg) hd).1]
      show 4 + msg.size = 4294967299
      rw [hsz]
  · refine ⟨⟨_, rfl, ?_⟩, ?_⟩
    · show (8 + 4 + msg.size) % 2 ^ 32 = 0
      rw [hsz]
      rfl
    · rw [(write_wire (.WireChunk msg) hwf).1]
      show 8 + 4 + msg.size = 4294967296
      rw [hsz]

/-- The parts of C13 at `Hello` "testing", whose header gets size 11, and at a
`Hello` whose payload is 4294967295 zero bytes, whose header gets size 3. -/
theorem send_size_wraps_witness :
    ((Message.Hello (JsonMessage.ofString [0x74, 0x65, 0x73, 0x74, 0x69, 0x6e, 0x67])).Sendable
      ∧ (Message.Hello
          (JsonMessage.ofString [0x74, 0x65, 0x73, 0x74, 0x69, 0x6e, 0x67])).WellFormed
      ∧ (Message.Hello
          (JsonMessage.ofString [0x74, 0x65, 0x73, 0x74, 0x69, 0x6e, 0x67])).bodySize < 2 ^ 32
      ∧ (11 : Nat)
          = (Message.Hello
              (JsonMessage.ofString [0x74, 0x65, 0x73, 0x74, 0x69, 0x6e, 0x67])).wire.length)
    ∧ ((4294967295 : Nat) = 4294967295
      ∧ (Ptr.mk (.array (List.replicate 4294967295 (0 : Byte))) 0).HoldsData 4294967295
      ∧ (Message.Hello
          { payload := ⟨.array (List.replicate 4294967295 0), 0⟩, size := 4294967295 }).wire.length
          = 4294967299) :=
  ⟨⟨by decide, by decide, by decide,
      (send_size_wraps.1 0 0
        (.Hello (JsonMessage.ofString [0x74, 0x65, 0x73, 0x74, 0x69, 0x6e, 0x67]))
        (.Hello (JsonMessage.ofString [0x74, 0x65, 0x73, 0x74, 0x69, 0x6e, 0x67]))
        { type := MessageType.HELLO, id := 0, refersTo := 0, sent := stamp 0,
          received := { sec := 0, usec := 0 }, size := 11 }
        (by decide) rfl (by decide) (by decide)).1⟩,
    ⟨rfl, ⟨by norm_num, by simp only [Region.Holds]; rw [List.length_replicate]⟩,
      (send_size_wraps.2.1 0 0
        { payload := ⟨.array (List.replicate 4294967295 0), 0⟩, size := 4294967295 } rfl
        ⟨by norm_num, by
          show 0 + 4294967295 ≤ (List.replicate 4294967295 (0 : Byte)).length
          rw [List.length_replicate]⟩).2⟩⟩

/-- C15, as stated, fails: when the transport write itself completes with
`no_buffer_space`, `send` returns that code after it has written the frame into
the caller's buffer and handed it to the transport.  Here `Hello` "testing" is
sent with a buffer of 64 zero bytes at clock reading 0. -/
theorem send_no_buffer_space_counterexample :
    (SnapClient.send { inData := [], outData := [], readSizes := [],
                       errors := [ErrorCode.no_buffer_space] }
        0 0 (.Hello (JsonMessage.ofString [0x74, 0x65, 0x73, 0x74, 0x69, 0x6e, 0x67]))
        (List.replicate 64 0)).map Prod.fst
      = .ok (.error ErrorCode.no_buffer_space)
    ∧ (SnapClient.send { inData := [], outData := [], readSizes := [],
                         errors := [ErrorCode.no_buffer_space] }
        0 0 (.Hello (JsonMessage.ofString [0x74, 0x65, 0x73, 0x74, 0x69, 0x6e, 0x67]))
        (List.replicate 64 0)).map (fun out => out.2.1.take 37)
      = .ok [5, 0, 0, 0, 0, 0, 0, 0, 0, 0, 0, 0, 0, 0, 0, 0, 0, 0, 0, 0, 0, 0, 11, 0, 0, 0,
             7, 0, 0, 0, 0x74, 0x65, 0x73, 0x74, 0x69, 0x6e, 0x67]
    ∧ (SnapClient.send { inData := [], outData := [], readSizes := [],
                         errors := [ErrorCode.no_buffer_space] }
        0 0 (.Hello (JsonMessage.ofString [0x74, 0x65, 0x73, 0x74, 0x69, 0x6e, 0x67]))
        (List.replicate 64 0)).map (fun out => out.2.2.outData)
      = .ok [[5, 0, 0, 0, 0, 0, 0, 0, 0, 0, 0, 0, 0, 0, 0, 0, 0, 0, 0, 0, 0, 0, 11, 0, 0, 0,
              7, 0, 0, 0, 0x74, 0x65, 0x73, 0x74, 0x69, 0x6e, 0x67]] := by
  decide

/-- C15, amended: whenever `send` returns `no_buffer_space`, either the caller's
buffer and the transport are exactly as before the call, or the transport write
itself completed with `no_buffer_space` and a frame has been handed to the
transport.  So when the transport write does not complete with that code, every
byte of the caller's buffer is unchanged and nothing has been handed to the
transport: the failure then comes from the capacity check, which precedes every
write. -/
theorem send_no_buffer_space_frame (socket : Socket) (now : Int) (id : Nat) (m : Message)
    (buffer buffer' : List Byte) (socket' : Socket)
    (h : SnapClient.send socket now id m buffer
      = .ok (.error .no_buffer_space, buffer', socket')) :
    ((buffer' = buffer ∧ socket' = socket)
        ∨ (socket.nextError.1 = .no_buffer_space
          ∧ ∃ frame, socket'.outData = socket.outData ++ [frame]))
      ∧ (socket.nextError.1 ≠ .no_buffer_space → buffer' = buffer ∧ socket' = socket) := by
  have key : (buffer' = buffer ∧ socket' = socket)
      ∨ (socket.nextError.1 = .no_buffer_space
        ∧ ∃ frame, socket'.outData = socket.outData ++ [frame]) := by
    obtain ⟨base, m', -, hcase⟩ := send_outcome socket now id m buffer _ h
    rcases hcase with ⟨-, hout⟩ | ⟨-, body, -, hout⟩
    · have h1 := congrArg (fun x => x.2.1) hout
      have h2 := congrArg (fun x => x.2.2) hout
      exact Or.inl ⟨h1, h2⟩
    · have h1 := congrArg (fun x => x.1) hout
      have h2 := congrArg (fun x => x.2.2.outData) hout
      simp only [nextError_outData] at h1 h2
      refine Or.inr ⟨?_, _, h2⟩
      by_cases hec : socket.nextError.1 = .success
      · simp [hec] at h1
      · simp only [ne_eq, hec, not_false_eq_true, if_true] at h1
        exact (Except.error.inj h1).symm
  exact ⟨key, fun hne => key.resolve_right fun hr => hne hr.1⟩

/-- The amended C15 at a `Time` message sent with a buffer of 33 bytes, one short
of the frame, on an idle socket. -/
theorem send_no_buffer_space_frame_witness :
    SnapClient.send Socket.idle 7 1 (.Time { sec := 0, usec := 0 }) (List.replicate 33 0xff)
        = .ok (.error .no_buffer_space, List.replicate 33 0xff, Socket.idle)
    ∧ (((List.replicate 33 (0xff : Byte) = List.replicate 33 0xff ∧ Socket.idle = Socket.idle)
        ∨ (Socket.idle.nextError.1 = .no_buffer_space
          ∧ ∃ frame, Socket.idle.outData = Socket.idle.outData ++ [frame]))
      ∧ (Socket.idle.nextError.1 ≠ .no_buffer_space →
          List.replicate 33 (0xff : Byte) = List.replicate 33 0xff
            ∧ Socket.idle = Socket.idle)) :=
  ⟨by decide,
    send_no_buffer_space_frame Socket.idle 7 1 (.Time { sec := 0, usec := 0 })
      (List.replicate 33 0xff) (List.replicate 33 0xff) Socket.idle (by decide)⟩

/-- C16: what `SnapClient::send` does with the two variants its visitor has no
branch for.  For every `CodecHeader` and every `Error` message, whatever the
buffer, the clock and the transport, `send` reaches `std::unreachable()`: no
header and no frame are produced.  In particular the codec header "test" /
"testing", which `write` encodes in 19 bytes, is not sent with a buffer of 4096
bytes. -/
theorem send_unhandled_variants :
    (∀ (socket : Socket) (now : Int) (id : Nat) (msg : CodecHeader) (buffer : List Byte),
      SnapClient.send socket now id (.CodecHeader msg) buffer = .error .unreachable)
    ∧ (∀ (socket : Socket) (now : Int) (id : Nat) (msg : Error) (buffer : List Byte),
      SnapClient.send socket now id (.Error msg) buffer = .error .unreachable)
    ∧ SnapClient.send Socket.idle 0 0
          (.CodecHeader (CodecHeader.ofParts [0x74, 0x65, 0x73, 0x74]
            [0x74, 0x65, 0x73, 0x74, 0x69, 0x6e, 0x67]))
          (List.replicate 4096 0)
        = .error .unreachable
    ∧ write (List.replicate 19 0)
          (.CodecHeader (CodecHeader.ofParts [0x74, 0x65, 0x73, 0x74]
            [0x74, 0x65, 0x73, 0x74, 0x69, 0x6e, 0x67]))
        = .ok [0x04, 0x00, 0x00, 0x00, 0x74, 0x65, 0x73, 0x74,
               0x07, 0x00, 0x00, 0x00, 0x74, 0x65, 0x73, 0x74, 0x69, 0x6e, 0x67] := by
  refine ⟨fun _ _ _ _ _ => rfl, fun _ _ _ _ _ => rfl, rfl, by decide⟩

/-- C19: for every message variant, whenever `send` succeeds, the `Time` it
returns is the sent member of the header that `read(buffer, base)` decodes from
the bytes handed to the transport.  (For `CodecHeader` and `Error`, `send` never
succeeds.) -/
theorem send_returns_sent (socket : Socket) (now : Int) (id : Nat) (m : Message)
    (buffer buffer' : List Byte) (socket' : Socket) (time : Time)
    (h : SnapClient.send socket now id m buffer = .ok (.ok time, buffer', socket')) :
    ∃ frame header, socket'.outData = socket.outData ++ [frame]
      ∧ readBase frame = .ok header ∧ header.sent = time := by
  obtain ⟨base, m', hb, hcase⟩ := send_outcome socket now id m buffer _ h
  obtain ⟨-, hbase, -, -, -⟩ := makeBase_ok_inv now id m m' base hb
  rcases hcase with ⟨-, hout⟩ | ⟨-, body, -, hout⟩
  · have h1 := congrArg (fun x => x.1) hout
    cases h1
  · have h1 := congrArg (fun x => x.1) hout
    have h2 := congrArg (fun x => x.2.2.outData) hout
    simp only [nextError_outData] at h1 h2
    have hsent : base.sent = time := by
      by_cases hec : socket.nextError.1 = .success
      · simp only [hec, ne_eq, not_true_eq_false, if_false] at h1
        exact (Except.ok.inj h1).symm
      · simp only [ne_eq, hec, not_false_eq_true, if_true] at h1
        cases h1
    rw [take_frame _ _ _ (base_bytes_length base)] at h2
    refine ⟨_, _, h2, readBase_bytes base _, ?_⟩
    rw [base_ofBytes_bytes_mod, ← hsent, hbase]
    have hv := stamp_valid now
    simp only [Nat.mod_eq_of_lt hv.1, Nat.mod_eq_of_lt hv.2]

/-- C19 at `Hello` "testing" sent at clock reading 1234567 with a buffer of 40
bytes on an idle socket: the returned time is `{1, 234567}`. -/
theorem send_returns_sent_witness :
    SnapClient.send Socket.idle 1234567 0
        (.Hello (JsonMessage.ofString [0x74, 0x65, 0x73, 0x74, 0x69, 0x6e, 0x67]))
        (List.replicate 40 0)
      = .ok (.ok { sec := 1, usec := 234567 },
          [5, 0, 0, 0, 0, 0, 1, 0, 0, 0, 71, 148, 3, 0, 0, 0, 0, 0, 0, 0, 0, 0, 11, 0, 0, 0,
           7, 0, 0, 0, 0x74, 0x65, 0x73, 0x74, 0x69, 0x6e, 0x67, 0, 0, 0],
          { inData := [], outData :=
              [[5, 0, 0, 0, 0, 0, 1, 0, 0, 0, 71, 148, 3, 0, 0, 0, 0, 0, 0, 0, 0, 0, 11, 0, 0,
                0, 7, 0, 0, 0, 0x74, 0x65, 0x73, 0x74, 0x69, 0x6e, 0x67]],
            readSizes := [], errors := [] })
    ∧ ∃ frame header,
        [[(5 : Byte), 0, 0, 0, 0, 0, 1, 0, 0, 0, 71, 148, 3, 0, 0, 0, 0, 0, 0, 0, 0, 0, 11, 0,
          0, 0, 7, 0, 0, 0, 0x74, 0x65, 0x73, 0x74, 0x69, 0x6e, 0x67]]
          = Socket.idle.outData ++ [frame]
        ∧ readBase frame = .ok header ∧ header.sent = { sec := 1, usec := 234567 } :=
  ⟨by decide,
    send_returns_sent Socket.idle 1234567 0
      (.Hello (JsonMessage.ofString [0x74, 0x65, 0x73, 0x74, 0x69, 0x6e, 0x67]))
      (List.replicate 40 0)
      [5, 0, 0, 0, 0, 0, 1, 0, 0, 0, 71, 148, 3, 0, 0, 0, 0, 0, 0, 0, 0, 0, 11, 0, 0, 0,
       7, 0, 0, 0, 0x74, 0x65, 0x73, 0x74, 0x69, 0x6e, 0x67, 0, 0, 0]
      { inData := [], outData :=
          [[5, 0, 0, 0, 0, 0, 1, 0, 0, 0, 71, 148, 3, 0, 0, 0, 0, 0, 0, 0, 0, 0, 11, 0, 0,
            0, 7, 0, 0, 0, 0x74, 0x65, 0x73, 0x74, 0x69, 0x6e, 0x67]],
        readSizes := [], errors := [] }
      { sec := 1, usec := 234567 } (by decide)⟩

/-- C18: for every `Time` value passed to `send`, every clock reading and every
buffer that holds the 34-byte frame, the frame handed to the transport is the
header followed by 8 body bytes that are the encoding of the header's sent
member; the `sec` and `usec` the caller supplied play no part.  The body decoded
from those bytes is the stamp, which is also the `Time` that `send` returns when
the transport write succeeds. -/
theorem send_time_body (socket : Socket) (now : Int) (id : Nat) (time : Time)
    (buffer : List Byte) (hb : 34 ≤ buffer.length) :
    ∃ frame buffer' header,
      SnapClient.send socket now id (.Time time) buffer
          = .ok (if socket.nextError.1 ≠ .success then .error socket.nextError.1
                  else .ok (stamp now),
              buffer',
              { socket.nextError.2 with outData := socket.outData ++ [frame] })
        ∧ frame.length = 34
        ∧ readBase frame = .ok header
        ∧ header.sent = stamp now
        ∧ frame.drop 26 = header.sent.bytes
        ∧ read (frame.drop 26) MessageType.TIME = .ok (.Time (stamp now)) := by
  have hv := stamp_valid now
  have hwire : (Message.Time (stamp now)).wire = (stamp now).bytes :=
    wire_of_write (.Time (stamp now)) _ fun buffer hb => writeTime_eq buffer (stamp now) hb
  have hsend := send_wellFormed socket now id (.Time time) (.Time (stamp now))
    { type := MessageType.TIME, id := id, refersTo := 0, sent := stamp now,
      received := { sec := 0, usec := 0 }, size := 8 % 2 ^ 32 }
    buffer rfl rfl hv (by show 26 + 8 ≤ buffer.length; omega)
  rw [hwire] at hsend
  have hl : ∀ b : Base, b.bytes.length = 26 := base_bytes_length
  refine ⟨_, _, _, hsend, ?_, readBase_bytes _ _, ?_, ?_, ?_⟩
  · simp only [List.length_append, hl, time_bytes_length]
  · rw [base_ofBytes_bytes_mod]
    simp only [Nat.mod_eq_of_lt hv.1, Nat.mod_eq_of_lt hv.2]
  · rw [List.drop_left' (hl _), base_ofBytes_bytes_mod]
    simp only [Nat.mod_eq_of_lt hv.1, Nat.mod_eq_of_lt hv.2]
  · rw [List.drop_left' (hl _)]
    have h8 : (stamp now).bytes.length = 8 := time_bytes_length _
    have e : (stamp now).bytes = (stamp now).bytes ++ [] := (List.append_nil _).symm
    rw [e]
    simp only [read, readTime]
    rw [load_zero _ _ 8 h8.symm, ok_bind]
    simp only [pure, Except.pure]
    rw [ok_bind, time_ofBytes_bytes _ hv.1 hv.2]

/-- C18 at the `Time` value `{5, 6}` sent at clock reading 1234567 with a buffer of
34 bytes on an idle socket: the body is the encoding of `{1, 234567}`. -/
theorem send_time_body_witness :
    34 ≤ (List.replicate 34 (0 : Byte)).length
      ∧ ∃ frame buffer' header,
          SnapClient.send Socket.idle 1234567 0 (.Time { sec := 5, usec := 6 })
              (List.replicate 34 0)
            = .ok (if Socket.idle.nextError.1 ≠ .success then .error Socket.idle.nextError.1
                    else .ok (stamp 1234567),
                buffer',
                { Socket.idle.nextError.2 with outData := Socket.idle.outData ++ [frame] })
          ∧ frame.length = 34
          ∧ readBase frame = .ok header
          ∧ header.sent = stamp 1234567
          ∧ frame.drop 26 = header.sent.bytes
          ∧ read (frame.drop 26) MessageType.TIME = .ok (.Time (stamp 1234567)) :=
  ⟨by decide,
    send_time_body Socket.idle 1234567 0 { sec := 5, usec := 6 } (List.replicate 34 0)
      (by decide)⟩

/-- C17, as stated, fails for a message whose data lies in the buffer given to
`send`: the `Hello` whose payload is the first 7 bytes, "testing", of the 64-byte
buffer, sent at clock reading 0 with id 0.  `send` writes the header over those
bytes before `write` copies the payload from them: the frame handed to the
transport has the header of a `HELLO` of size 11 and the body
07 00 00 00 05 00 00 00 00 00 00, which decodes to a payload of the first 7
header bytes, not "testing". -/
theorem send_frame_roundtrip_counterexample :
    (Ptr.mk (.destination []) 0).viewIn
          ([0x74, 0x65, 0x73, 0x74, 0x69, 0x6e, 0x67] ++ List.replicate 57 0) 7
        = some [0x74, 0x65, 0x73, 0x74, 0x69, 0x6e, 0x67]
      ∧ (SnapClient.send Socket.idle 0 0
            (.Hello { payload := ⟨.destination [], 0⟩, size := 7 })
            ([0x74, 0x65, 0x73, 0x74, 0x69, 0x6e, 0x67] ++ List.replicate 57 0)).map
            (fun out => (out.1, out.2.2.outData))
          = .ok (.ok { sec := 0, usec := 0 },
              [[5, 0, 0, 0, 0, 0, 0, 0, 0, 0, 0, 0, 0, 0, 0, 0, 0, 0, 0, 0, 0, 0, 11, 0, 0, 0,
                7, 0, 0, 0, 5, 0, 0, 0, 0, 0, 0]])
      ∧ read [7, 0, 0, 0, 5, 0, 0, 0, 0, 0, 0] MessageType.HELLO
          = .ok (.Hello { payload := ⟨.array [7, 0, 0, 0, 5, 0, 0, 0, 0, 0, 0], 4⟩, size := 7 })
      ∧ (Ptr.mk (.array [7, 0, 0, 0, 5, 0, 0, 0, 0, 0, 0]) 4).view 7
          = some [5, 0, 0, 0, 0, 0, 0]
      ∧ (Ptr.mk (.array [7, 0, 0, 0, 5, 0, 0, 0, 0, 0, 0]) 4).view 7
          ≠ (Ptr.mk (.destination []) 0).viewIn
              ([0x74, 0x65, 0x73, 0x74, 0x69, 0x6e, 0x67] ++ List.replicate 57 0) 7 := by
  decide

/-- C17, amended: the frame `send` hands to the transport, decoded again.
* For every `Hello`, `ClientInfo`, `ServerSettings`, `Time` or `WireChunk` message
  whose members fit their types, whose data lies outside the buffer given to
  `send` and whose body size is below `2 ^ 32`, and every buffer of at least 26
  plus that many bytes, a successful `send` hands the transport 26 header bytes
  followed by exactly `header.size` body bytes; `read` of `Base` on the first 26
  gives a header with the type of the message, and `read` of the body under that
  type gives the same variant, with the same size and payload bytes (for
  `Time`: the time `send` returns).
* `Hello` "testing" sent at clock reading 0 with a buffer of 64 bytes puts a
  37-byte frame on the transport, whose body decodes to size 7 and payload
  "testing".
(What `send` does with a body size of `2 ^ 32` or more is the subject of C13.) -/
theorem send_frame_roundtrip :
    (∀ (socket : Socket) (now : Int) (id : Nat) (m : Message) (buffer buffer' : List Byte)
        (socket' : Socket) (time : Time),
      m.Sendable → m.WellFormed → m.bodySize < 2 ^ 32 → 26 + m.bodySize ≤ buffer.length →
      SnapClient.send socket now id m buffer = .ok (.ok time, buffer', socket') →
      ∃ frame header decoded,
        socket'.outData = socket.outData ++ [frame]
          ∧ readBase (frame.take 26) = .ok header
          ∧ frame.length = 26 + header.size
          ∧ header.type = m.type
          ∧ read ((frame.drop 26).take header.size) header.type = .ok decoded
          ∧ decoded.type = m.type
          ∧ (((∃ t, m = .Time t) ∧ decoded = .Time time) ∨ m.SameContent decoded))
    ∧ (SnapClient.send Socket.idle 0 0
          (.Hello (JsonMessage.ofString [0x74, 0x65, 0x73, 0x74, 0x69, 0x6e, 0x67]))
          (List.replicate 64 0)).map (fun out => (out.1, out.2.2.outData))
        = .ok (.ok { sec := 0, usec := 0 },
            [[5, 0, 0, 0, 0, 0, 0, 0, 0, 0, 0, 0, 0, 0, 0, 0, 0, 0, 0, 0, 0, 0, 11, 0, 0, 0,
              7, 0, 0, 0, 0x74, 0x65, 0x73, 0x74, 0x69, 0x6e, 0x67]])
    ∧ (readBase [5, 0, 0, 0, 0, 0, 0, 0, 0, 0, 0, 0, 0, 0, 0, 0, 0, 0, 0, 0, 0, 0, 11, 0, 0,
                 0, 7, 0, 0, 0, 0x74, 0x65, 0x73, 0x74, 0x69, 0x6e, 0x67]).map
          (fun header => (header.type, header.size))
        = .ok (MessageType.HELLO, 11)
    ∧ read [7, 0, 0, 0, 0x74, 0x65, 0x73, 0x74, 0x69, 0x6e, 0x67] MessageType.HELLO
        = .ok (.Hello
            { payload := ⟨.array [7, 0, 0, 0, 0x74, 0x65, 0x73, 0x74, 0x69, 0x6e, 0x67], 4⟩,
              size := 7 })
    ∧ (Ptr.mk (.array [7, 0, 0, 0, 0x74, 0x65, 0x73, 0x74, 0x69, 0x6e, 0x67]) 4).view 7
        = some [0x74, 0x65, 0x73, 0x74, 0x69, 0x6e, 0x67] := by
  refine ⟨fun socket now id m buffer buffer' socket' time hs hwf hfit hge h =>
      send_frame_decodes socket now id m buffer buffer' socket' time hs hwf hfit hge h,
    by decide, by decide, by decide, by decide⟩

/-- The general part of the amended C17 at the `WireChunk` de ad be ef of
`testSendWireChunk` sent with a buffer of 44 bytes. -/
theorem send_frame_roundtrip_witness :
    (Message.WireChunk (WireChunk.ofSpan [0xde, 0xad, 0xbe, 0xef])).Sendable
      ∧ (Message.WireChunk (WireChunk.ofSpan [0xde, 0xad, 0xbe, 0xef])).WellFormed
      ∧ (Message.WireChunk (WireChunk.ofSpan [0xde, 0xad, 0xbe, 0xef])).bodySize < 2 ^ 32
      ∧ 26 + (Message.WireChunk (WireChunk.ofSpan [0xde, 0xad, 0xbe, 0xef])).bodySize
          ≤ (List.replicate 44 (0 : Byte)).length
      ∧ SnapClient.send Socket.idle 0 0
            (.WireChunk (WireChunk.ofSpan [0xde, 0xad, 0xbe, 0xef])) (List.replicate 44 0)
          = .ok (.ok { sec := 0, usec := 0 },
              [2, 0, 0, 0, 0, 0, 0, 0, 0, 0, 0, 0, 0, 0, 0, 0, 0, 0, 0, 0, 0, 0, 16, 0, 0, 0,
               0, 0, 0, 0, 0, 0, 0, 0, 4, 0, 0, 0, 0xde, 0xad, 0xbe, 0xef, 0, 0],
              { inData := [], outData :=
                  [[2, 0, 0, 0, 0, 0, 0, 0, 0, 0, 0, 0, 0, 0, 0, 0, 0, 0, 0, 0, 0, 0, 16, 0,
                    0, 0, 0, 0, 0, 0, 0, 0, 0, 0, 4, 0, 0, 0, 0xde, 0xad, 0xbe, 0xef]],
                readSizes := [], errors := [] })
      ∧ ∃ frame header decoded,
          [[(2 : Byte), 0, 0, 0, 0, 0, 0, 0, 0, 0, 0, 0, 0, 0, 0, 0, 0, 0, 0, 0, 0, 0, 16, 0,
            0, 0, 0, 0, 0, 0, 0, 0, 0, 0, 4, 0, 0, 0, 0xde, 0xad, 0xbe, 0xef]]
            = Socket.idle.outData ++ [frame]
          ∧ readBase (frame.take 26) = .ok header
          ∧ frame.length = 26 + header.size
          ∧ header.type = (Message.WireChunk (WireChunk.ofSpan [0xde, 0xad, 0xbe, 0xef])).type
          ∧ read ((frame.drop 26).take header.size) header.type = .ok decoded
          ∧ decoded.type = (Message.WireChunk (WireChunk.ofSpan [0xde, 0xad, 0xbe, 0xef])).type
          ∧ (((∃ t, Message.WireChunk (WireChunk.ofSpan [0xde, 0xad, 0xbe, 0xef]) = .Time t)
                ∧ decoded = .Time { sec := 0, usec := 0 })
              ∨ (Message.WireChunk
                  (WireChunk.ofSpan [0xde, 0xad, 0xbe, 0xef])).SameContent decoded) :=
  ⟨by decide, by decide, by decide, by decide, by decide,
    send_frame_roundtrip.1 Socket.idle 0 0
      (.WireChunk (WireChunk.ofSpan [0xde, 0xad, 0xbe, 0xef])) (List.replicate 44 0)
      [2, 0, 0, 0, 0, 0, 0, 0, 0, 0, 0, 0, 0, 0, 0, 0, 0, 0, 0, 0, 0, 0, 16, 0, 0, 0,
       0, 0, 0, 0, 0, 0, 0, 0, 4, 0, 0, 0, 0xde, 0xad, 0xbe, 0xef, 0, 0]
      { inData := [], outData :=
          [[2, 0, 0, 0, 0, 0, 0, 0, 0, 0, 0, 0, 0, 0, 0, 0, 0, 0, 0, 0, 0, 0, 16, 0,
            0, 0, 0, 0, 0, 0, 0, 0, 0, 0, 4, 0, 0, 0, 0xde, 0xad, 0xbe, 0xef]],
        readSizes := [], errors := [] }
      { sec := 0, usec := 0 } (by decide) (by decide) (by decide) (by decide) (by decide)⟩

/-- C20, as stated, fails at frames whose `size` bytes are not a body of the
header's type.  With a `TIME` header that says size 0 there are no body bytes,
and `read` of no bytes as `TIME` leaves the span, yet `SnapClient::read`
returns a `Time`: it is `{458756, 65539}`, built from the header's own type, id,
refersTo and sent bytes, which are still in the buffer.  With a header of type
`BASE` and size 0, `SnapClient::read` reaches `std::unreachable()` and returns
nothing. -/
theorem snapClient_read_counterexample :
    read [] MessageType.TIME = .error (.readOutOfBounds 0)
      ∧ SnapClient.read
          { inData := [4, 0, 7, 0, 3, 0, 1, 0, 0, 0, 2, 0, 0, 0, 0, 0, 0, 0, 0, 0, 0, 0,
                       0, 0, 0, 0],
            outData := [], readSizes := [], errors := [] }
          5000001 (List.replicate 26 0)
        = .ok (.ok ({ type := MessageType.TIME, id := 7, refersTo := 3,
                      sent := { sec := 1, usec := 2 }, received := { sec := 5, usec := 1 },
                      size := 0 },
                    .Time { sec := 458756, usec := 65539 }),
            [4, 0, 7, 0, 3, 0, 1, 0, 0, 0, 2, 0, 0, 0, 0, 0, 0, 0, 0, 0, 0, 0, 0, 0, 0, 0],
            { inData := [], outData := [], readSizes := [26, 0], errors := [] })
      ∧ SnapClient.read
          { inData := [0, 0, 7, 0, 3, 0, 1, 0, 0, 0, 2, 0, 0, 0, 0, 0, 0, 0, 0, 0, 0, 0,
                       0, 0, 0, 0],
            outData := [], readSizes := [], errors := [] }
          5000001 (List.replicate 26 0)
        = .error .unreachable := by
  decide

/-- C20, amended: the claim with the premise that the `size` bytes after the
header are a body of the header's type.
* For every buffer of at least 26 bytes, every clock reading and every transport
  whose next two reads complete without error and whose stream starts with 26
  header bytes and then `size` body bytes, where `size`, the header's size field,
  is at most the buffer length, and `read` of those body bytes under the
  header's type gives a message whose length members stay within them:
  `SnapClient::read` asks the transport for 26 bytes and then for `size` bytes,
  leaves the rest of the stream, and returns the header with every field as on
  the wire except received, which is the clock stamp, together with a message of
  the same content as the one decoded from the body bytes.  The body has
  replaced the first `size` bytes of the buffer, the header bytes included.
* For the frame of `testRead`, a `TIME` header with refersTo 3, sent `{1, 2}` and
  size 8 followed by the encoding of `{12, 34}`, every clock reading and every
  buffer of at least 26 bytes, it returns type `TIME`, size 8 and
  `Time{12, 34}` after reads of 26 and 8 bytes. -/
theorem snapClient_read_frame :
    (∀ (socket : Socket) (now : Int) (buffer header body rest : List Byte)
        (decoded : Message),
      26 ≤ buffer.length → header.length = 26 →
      socket.inData = header ++ body ++ rest →
      body.length = (Base.ofBytes header).size →
      (Base.ofBytes header).size ≤ buffer.length →
      socket.Succeeds 2 →
      read body (Base.ofBytes header).type = .ok decoded → decoded.WellFormed →
      ∃ message,
        SnapClient.read socket now buffer
            = .ok (.ok ({ Base.ofBytes header with received := stamp now }, message),
                body ++ (header ++ buffer.drop 26).drop body.length,
                { inData := rest, outData := socket.outData,
                  readSizes := socket.readSizes ++ [26, (Base.ofBytes header).size],
                  errors := socket.errors.drop 2 })
          ∧ read (body ++ (header ++ buffer.drop 26).drop body.length)
              (Base.ofBytes header).type = .ok message
          ∧ decoded.SameContent message)
    ∧ (∀ (now : Int) (buffer : List Byte), 26 ≤ buffer.length →
      (SnapClient.read
          { inData := [4, 0, 0, 0, 3, 0, 1, 0, 0, 0, 2, 0, 0, 0, 0, 0, 0, 0, 0, 0, 0, 0,
                       8, 0, 0, 0, 12, 0, 0, 0, 34, 0, 0, 0],
            outData := [], readSizes := [], errors := [] }
          now buffer).map (fun out => (out.1, out.2.2))
        = .ok (.ok ({ type := MessageType.TIME, id := 0, refersTo := 3,
                      sent := { sec := 1, usec := 2 }, received := stamp now, size := 8 },
                    .Time { sec := 12, usec := 34 }),
            { inData := [], outData := [], readSizes := [26, 8], errors := [] })) := by
  refine ⟨fun socket now buffer header body rest decoded hb hh hin hs hfit hok hd hwf =>
      snapClient_read_ok socket now buffer header body rest decoded hb hh hin hs hfit hok
        hd hwf,
    fun now buffer hb => ?_⟩
  have hsize : (Base.ofBytes [4, 0, 0, 0, 3, 0, 1, 0, 0, 0, 2, 0, 0, 0, 0, 0, 0, 0, 0, 0,
      0, 0, 8, 0, 0, 0]).size = 8 := by decide
  obtain ⟨message, h, -, hsc⟩ := snapClient_read_ok
    { inData := [4, 0, 0, 0, 3, 0, 1, 0, 0, 0, 2, 0, 0, 0, 0, 0, 0, 0, 0, 0, 0, 0,
                 8, 0, 0, 0, 12, 0, 0, 0, 34, 0, 0, 0],
      outData := [], readSizes := [], errors := [] }
    now buffer
    [4, 0, 0, 0, 3, 0, 1, 0, 0, 0, 2, 0, 0, 0, 0, 0, 0, 0, 0, 0, 0, 0, 8, 0, 0, 0]
    [12, 0, 0, 0, 34, 0, 0, 0] [] (.Time { sec := 12, usec := 34 })
    hb rfl rfl (by decide) (by rw [hsize]; omega) (by decide) (by decide) (by decide)
  rw [h, sameContent_time _ _ hsc]
  rfl

/-- The first part of C20 at a `HELLO` frame with id 1, sent `{1, 2}` and the
7-byte body 03 00 00 00 "abc", followed on the stream by 09 09, read at clock
reading 5000001 into a buffer of 40 bytes 0xff. -/
theorem snapClient_read_frame_witness :
    26 ≤ (List.replicate 40 (0xff : Byte)).length
      ∧ ([5, 0, 1, 0, 0, 0, 1, 0, 0, 0, 2, 0, 0, 0, 0, 0, 0, 0, 0, 0, 0, 0, 7, 0, 0, 0]
          : List Byte).length = 26
      ∧ ([3, 0, 0, 0, 0x61, 0x62, 0x63] : List Byte).length
          = (Base.ofBytes [5, 0, 1, 0, 0, 0, 1, 0, 0, 0, 2, 0, 0, 0, 0, 0, 0, 0, 0, 0, 0, 0,
              7, 0, 0, 0]).size
      ∧ read [3, 0, 0, 0, 0x61, 0x62, 0x63]
            (Base.ofBytes [5, 0, 1, 0, 0, 0, 1, 0, 0, 0, 2, 0, 0, 0, 0, 0, 0, 0, 0, 0, 0, 0,
              7, 0, 0, 0]).type
          = .ok (.Hello { payload := ⟨.array [3, 0, 0, 0, 0x61, 0x62, 0x63], 4⟩, size := 3 })
      ∧ SnapClient.read
          { inData := [5, 0, 1, 0, 0, 0, 1, 0, 0, 0, 2, 0, 0, 0, 0, 0, 0, 0, 0, 0, 0, 0,
                       7, 0, 0, 0] ++ [3, 0, 0, 0, 0x61, 0x62, 0x63] ++ [9, 9],
            outData := [], readSizes := [], errors := [] }
          5000001 (List.replicate 40 0xff)
        = .ok (.ok ({ type := MessageType.HELLO, id := 1, refersTo := 0,
                      sent := { sec := 1, usec := 2 }, received := { sec := 5, usec := 1 },
                      size := 7 },
                    .Hello
                      { size := 3,
                        payload :=
                          ⟨.array [3, 0, 0, 0, 0x61, 0x62, 0x63, 0, 0, 0, 2, 0, 0, 0, 0, 0, 0, 0,
                            0, 0, 0, 0, 7, 0, 0, 0, 0xff, 0xff, 0xff, 0xff, 0xff, 0xff,
                            0xff, 0xff, 0xff, 0xff, 0xff, 0xff, 0xff, 0xff], 4⟩ }),
            [3, 0, 0, 0, 0x61, 0x62, 0x63, 0, 0, 0, 2, 0, 0, 0, 0, 0, 0, 0, 0, 0, 0, 0, 7,
             0, 0, 0, 0xff, 0xff, 0xff, 0xff, 0xff, 0xff, 0xff, 0xff, 0xff, 0xff, 0xff,
             0xff, 0xff, 0xff],
            { inData := [9, 9], outData := [], readSizes := [26, 7], errors := [] })
      ∧ ∃ message,
          SnapClient.read
              { inData := [5, 0, 1, 0, 0, 0, 1, 0, 0, 0, 2, 0, 0, 0, 0, 0, 0, 0, 0, 0, 0, 0,
                           7, 0, 0, 0] ++ [3, 0, 0, 0, 0x61, 0x62, 0x63] ++ [9, 9],
                outData := [], readSizes := [], errors := [] }
              5000001 (List.replicate 40 0xff)
            = .ok (.ok ({ Base.ofBytes [5, 0, 1, 0, 0, 0, 1, 0, 0, 0, 2, 0, 0, 0, 0, 0, 0, 0,
                            0, 0, 0, 0, 7, 0, 0, 0] with received := stamp 5000001 },
                        message),
                ([3, 0, 0, 0, 0x61, 0x62, 0x63] : List Byte)
                  ++ ([5, 0, 1, 0, 0, 0, 1, 0, 0, 0, 2, 0, 0, 0, 0, 0, 0, 0, 0, 0, 0, 0, 7,
                       0, 0, 0] ++ (List.replicate 40 0xff).drop 26).drop
                      ([3, 0, 0, 0, 0x61, 0x62, 0x63] : List Byte).length,
                { inData := [9, 9], outData := [],
                  readSizes := [] ++ [26, (Base.ofBytes [5, 0, 1, 0, 0, 0, 1, 0, 0, 0, 2, 0,
                    0, 0, 0, 0, 0, 0, 0, 0, 0, 0, 7, 0, 0, 0]).size],
                  errors := ([] : List ErrorCode).drop 2 })
            ∧ read (([3, 0, 0, 0, 0x61, 0x62, 0x63] : List Byte)
                  ++ ([5, 0, 1, 0, 0, 0, 1, 0, 0, 0, 2, 0, 0, 0, 0, 0, 0, 0, 0, 0, 0, 0, 7,
                       0, 0, 0] ++ (List.replicate 40 0xff).drop 26).drop
                      ([3, 0, 0, 0, 0x61, 0x62, 0x63] : List Byte).length)
                (Base.ofBytes [5, 0, 1, 0, 0, 0, 1, 0, 0, 0, 2, 0, 0, 0, 0, 0, 0, 0, 0, 0,
                  0, 0, 7, 0, 0, 0]).type = .ok message
            ∧ (Message.Hello { payload := ⟨.array [3, 0, 0, 0, 0x61, 0x62, 0x63], 4⟩,
                               size := 3 }).SameContent message :=
  ⟨by decide, by decide, by decide, by decide, by decide,
    snapClient_read_frame.1
      { inData := [5, 0, 1, 0, 0, 0, 1, 0, 0, 0, 2, 0, 0, 0, 0, 0, 0, 0, 0, 0, 0, 0,
                   7, 0, 0, 0] ++ [3, 0, 0, 0, 0x61, 0x62, 0x63] ++ [9, 9],
        outData := [], readSizes := [], errors := [] }
      5000001 (List.replicate 40 0xff)
      [5, 0, 1, 0, 0, 0, 1, 0, 0, 0, 2, 0, 0, 0, 0, 0, 0, 0, 0, 0, 0, 0, 7, 0, 0, 0]
      [3, 0, 0, 0, 0x61, 0x62, 0x63] [9, 9]
      (.Hello { payload := ⟨.array [3, 0, 0, 0, 0x61, 0x62, 0x63], 4⟩, size := 3 })
      (by decide) (by decide) rfl (by decide) (by decide) (by decide) (by decide)
      (by decide)⟩

/-- C21: the body capacity check of `SnapClient::read`.
* For every buffer of at least 26 bytes and every transport whose next read
  completes without error and delivers 26 header bytes whose size field is
  larger than the buffer length, `SnapClient::read` returns `no_buffer_space`.
  It has issued one read, of 26 bytes; the bytes after the header are still on
  the stream; the buffer holds the header in its first 26 bytes, its other
  bytes are as before and its length is as before.
* A header of type `SERVER_SETTINGS` announcing size 35, received into a buffer
  of 28 bytes, gives `no_buffer_space`, whatever follows on the stream. -/
theorem snapClient_read_oversized_body :
    (∀ (socket : Socket) (now : Int) (buffer header rest : List Byte),
      26 ≤ buffer.length → header.length = 26 → socket.inData = header ++ rest →
      socket.Succeeds 1 → buffer.length < (Base.ofBytes header).size →
      SnapClient.read socket now buffer
          = .ok (.error .no_buffer_space, header ++ buffer.drop 26,
              { inData := rest, outData := socket.outData,
                readSizes := socket.readSizes ++ [26], errors := socket.errors.drop 1 })
        ∧ (header ++ buffer.drop 26).length = buffer.length)
    ∧ (∀ (socket : Socket) (now : Int) (buffer rest : List Byte),
      buffer.length = 28 →
      socket.inData
        = [3, 0, 0, 0, 0, 0, 0, 0, 0, 0, 0, 0, 0, 0, 0, 0, 0, 0, 0, 0, 0, 0, 35, 0, 0, 0]
            ++ rest →
      socket.Succeeds 1 →
      (SnapClient.read socket now buffer).map (fun out => (out.1, out.2.2.readSizes))
        = .ok (.error .no_buffer_space, socket.readSizes ++ [26])) := by
  have key : ∀ (socket : Socket) (now : Int) (buffer header rest : List Byte),
      26 ≤ buffer.length → header.length = 26 → socket.inData = header ++ rest →
      socket.Succeeds 1 → buffer.length < (Base.ofBytes header).size →
      SnapClient.read socket now buffer
          = .ok (.error .no_buffer_space, header ++ buffer.drop 26,
              { inData := rest, outData := socket.outData,
                readSizes := socket.readSizes ++ [26], errors := socket.errors.drop 1 }) := by
    intro socket now buffer header rest hb hh hin hok hlt
    rw [snapClient_read_header socket now buffer header rest hb hh hin hok]
    simp only [hlt, if_true]
  refine ⟨fun socket now buffer header rest hb hh hin hok hlt =>
      ⟨key socket now buffer header rest hb hh hin hok hlt, ?_⟩,
    fun socket now buffer rest hb hin hok => ?_⟩
  · simp only [List.length_append, List.length_drop]
    omega
  · have hsize : (Base.ofBytes [3, 0, 0, 0, 0, 0, 0, 0, 0, 0, 0, 0, 0, 0, 0, 0, 0, 0, 0, 0,
        0, 0, 35, 0, 0, 0]).size = 35 := by decide
    rw [key socket now buffer
      [3, 0, 0, 0, 0, 0, 0, 0, 0, 0, 0, 0, 0, 0, 0, 0, 0, 0, 0, 0, 0, 0, 35, 0, 0, 0] rest
      (by omega) rfl hin hok (by rw [hsize]; omega)]
    rfl

/-- The first part of C21 at the frame of `testReadInsufficientBuffer`: a
`SERVER_SETTINGS` header announcing size 35, followed by 8 zero bytes, read into
a buffer of 28 bytes 0xff. -/
theorem snapClient_read_oversized_body_witness :
    26 ≤ (List.replicate 28 (0xff : Byte)).length
      ∧ ([3, 0, 0, 0, 0, 0, 0, 0, 0, 0, 0, 0, 0, 0, 0, 0, 0, 0, 0, 0, 0, 0, 35, 0, 0, 0]
          : List Byte).length = 26
      ∧ (List.replicate 28 (0xff : Byte)).length
          < (Base.ofBytes [3, 0, 0, 0, 0, 0, 0, 0, 0, 0, 0, 0, 0, 0, 0, 0, 0, 0, 0, 0, 0, 0,
              35, 0, 0, 0]).size
      ∧ (SnapClient.read
            { inData := [3, 0, 0, 0, 0, 0, 0, 0, 0, 0, 0, 0, 0, 0, 0, 0, 0, 0, 0, 0, 0, 0, 35,
                         0, 0, 0] ++ List.replicate 8 0,
              outData := [], readSizes := [], errors := [] }
            0 (List.replicate 28 0xff)
          = .ok (.error .no_buffer_space,
              [3, 0, 0, 0, 0, 0, 0, 0, 0, 0, 0, 0, 0, 0, 0, 0, 0, 0, 0, 0, 0, 0, 35, 0, 0, 0]
                ++ (List.replicate 28 0xff).drop 26,
              { inData := List.replicate 8 0, outData := [], readSizes := [] ++ [26],
                errors := ([] : List ErrorCode).drop 1 })
        ∧ (([3, 0, 0, 0, 0, 0, 0, 0, 0, 0, 0, 0, 0, 0, 0, 0, 0, 0, 0, 0, 0, 0, 35, 0, 0, 0]
              : List Byte) ++ (List.replicate 28 0xff).drop 26).length
            = (List.replicate 28 (0xff : Byte)).length) :=
  ⟨by decide, by decide, by decide,
    snapClient_read_oversized_body.1
      { inData := [3, 0, 0, 0, 0, 0, 0, 0, 0, 0, 0, 0, 0, 0, 0, 0, 0, 0, 0, 0, 0, 0, 35,
                   0, 0, 0] ++ List.replicate 8 0,
        outData := [], readSizes := [], errors := [] }
      0 (List.replicate 28 0xff)
      [3, 0, 0, 0, 0, 0, 0, 0, 0, 0, 0, 0, 0, 0, 0, 0, 0, 0, 0, 0, 0, 0, 35, 0, 0, 0]
      (List.replicate 8 0) (by decide) (by decide) rfl (by decide) (by decide)⟩

/-- C22: for every buffer shorter than 26 bytes, every transport and every clock
reading, `SnapClient::read` returns `no_buffer_space` with the buffer and the
transport exactly as they were: no read has been issued and no byte has left
the stream. -/
theorem snapClient_read_short_buffer (socket : Socket) (now : Int) (buffer : List Byte)
    (h : buffer.length < 26) :
    SnapClient.read socket now buffer = .ok (.error .no_buffer_space, buffer, socket) :=
  snapClient_read_short socket now buffer h

/-- C22 at the first call of `testReadInsufficientBuffer`: a buffer of 25 bytes, with
a complete `TIME` frame waiting on the stream. -/
theorem snapClient_read_short_buffer_witness :
    (List.replicate 25 (0 : Byte)).length < 26
      ∧ SnapClient.read
          { inData := [4, 0, 0, 0, 3, 0, 1, 0, 0, 0, 2, 0, 0, 0, 0, 0, 0, 0, 0, 0, 0, 0,
                       8, 0, 0, 0, 12, 0, 0, 0, 34, 0, 0, 0],
            outData := [], readSizes := [], errors := [] }
          0 (List.replicate 25 0)
        = .ok (.error .no_buffer_space, List.replicate 25 0,
            { inData := [4, 0, 0, 0, 3, 0, 1, 0, 0, 0, 2, 0, 0, 0, 0, 0, 0, 0, 0, 0, 0, 0,
                         8, 0, 0, 0, 12, 0, 0, 0, 34, 0, 0, 0],
              outData := [], readSizes := [], errors := [] }) :=
  ⟨by decide,
    snapClient_read_short_buffer
      { inData := [4, 0, 0, 0, 3, 0, 1, 0, 0, 0, 2, 0, 0, 0, 0, 0, 0, 0, 0, 0, 0, 0,
                   8, 0, 0, 0, 12, 0, 0, 0, 34, 0, 0, 0],
        outData := [], readSizes := [], errors := [] }
      0 (List.replicate 25 0) (by decide)⟩

/-- C23, as stated, fails: `SnapClient::read` has no decode error to report.  A
`TIME` header that says size 0, received into a buffer of 34 bytes, makes it
return a `Time` message, `{589828, 327680}`, the first 8 bytes of the header
itself; a `HELLO` header that says size 0 makes it return a `Hello` whose size
member is 5, the first 4 bytes of the header. -/
theorem snapClient_read_undersized_counterexample :
    SnapClient.read
        { inData := [4, 0, 9, 0, 0, 0, 5, 0, 0, 0, 6, 0, 0, 0, 0, 0, 0, 0, 0, 0, 0, 0,
                     0, 0, 0, 0],
          outData := [], readSizes := [], errors := [] }
        7000003 (List.replicate 34 0xff)
      = .ok (.ok ({ type := MessageType.TIME, id := 9, refersTo := 0,
                    sent := { sec := 5, usec := 6 }, received := { sec := 7, usec := 3 },
                    size := 0 },
                  .Time { sec := 589828, usec := 327680 }),
          [4, 0, 9, 0, 0, 0, 5, 0, 0, 0, 6, 0, 0, 0, 0, 0, 0, 0, 0, 0, 0, 0, 0, 0, 0, 0,
           0xff, 0xff, 0xff, 0xff, 0xff, 0xff, 0xff, 0xff],
          { inData := [], outData := [], readSizes := [26, 0], errors := [] })
    ∧ (SnapClient.read
        { inData := [5, 0, 0, 0, 0, 0, 0, 0, 0, 0, 0, 0, 0, 0, 0, 0, 0, 0, 0, 0, 0, 0,
                     0, 0, 0, 0],
          outData := [], readSizes := [], errors := [] }
        0 (List.replicate 26 0)).map (fun out => out.1)
      = .ok (.ok ({ type := MessageType.HELLO, id := 0, refersTo := 0,
                    sent := { sec := 0, usec := 0 }, received := { sec := 0, usec := 0 },
                    size := 0 },
                  .Hello
                    { size := 5,
                      payload :=
                        ⟨.array [5, 0, 0, 0, 0, 0, 0, 0, 0, 0, 0, 0, 0, 0, 0, 0, 0, 0, 0, 0, 0, 0,
                          0, 0, 0, 0], 4⟩ })) := by
  decide

/-- C23, amended: `SnapClient::read` does not compare the header's size with what
the variant needs, and has no decode error.
* For every buffer of at least 26 bytes and every transport whose next two reads
  complete without error and deliver 26 header bytes and then `size` body bytes,
  `size` being the header's size field and at most the buffer length, its outcome
  is that of `read(buffer, header.type)` on the receive buffer, whose first
  `size` bytes are the body and whose other bytes are what the buffer held
  before, the rest of the header included: the message that call produces, or
  its undefined behaviour.  It is never an error code.
* For a `TIME` header whose size is below 8, it returns the `Time` made of the
  body bytes followed by the header bytes from index `size` on, 8 bytes in all. -/
theorem snapClient_read_undersized :
    (∀ (socket : Socket) (now : Int) (buffer header body rest : List Byte),
      26 ≤ buffer.length → header.length = 26 →
      socket.inData = header ++ body ++ rest →
      body.length = (Base.ofBytes header).size →
      (Base.ofBytes header).size ≤ buffer.length →
      socket.Succeeds 2 →
      SnapClient.read socket now buffer
          = (read (body ++ (header ++ buffer.drop 26).drop body.length)
              (Base.ofBytes header).type).map (fun message =>
                (.ok ({ Base.ofBytes header with received := stamp now }, message),
                  body ++ (header ++ buffer.drop 26).drop body.length,
                  { inData := rest, outData := socket.outData,
                    readSizes := socket.readSizes ++ [26, (Base.ofBytes header).size],
                    errors := socket.errors.drop 2 }))
        ∧ ∀ (e : ErrorCode) (buffer' : List Byte) (socket' : Socket),
            SnapClient.read socket now buffer ≠ .ok (.error e, buffer', socket'))
    ∧ (∀ (socket : Socket) (now : Int) (buffer header body rest : List Byte),
      26 ≤ buffer.length → header.length = 26 →
      socket.inData = header ++ body ++ rest →
      body.length = (Base.ofBytes header).size →
      socket.Succeeds 2 →
      (Base.ofBytes header).type = MessageType.TIME → (Base.ofBytes header).size < 8 →
      SnapClient.read socket now buffer
        = .ok (.ok ({ Base.ofBytes header with received := stamp now },
                    .Time (Time.ofBytes ((body ++ header.drop body.length).take 8))),
            body ++ (header ++ buffer.drop 26).drop body.length,
            { inData := rest, outData := socket.outData,
              readSizes := socket.readSizes ++ [26, (Base.ofBytes header).size],
              errors := socket.errors.drop 2 })) := by
  refine ⟨fun socket now buffer header body rest hb hh hin hs hfit hok => ?_,
    fun socket now buffer header body rest hb hh hin hs hok htype hsize => ?_⟩
  · have h := snapClient_read_outcome socket now buffer header body rest hb hh hin hs hfit hok
    refine ⟨h, fun e buffer' socket' heq => ?_⟩
    rw [h] at heq
    cases hr : read (body ++ (header ++ buffer.drop 26).drop body.length)
      (Base.ofBytes header).type with
    | error f => rw [hr] at heq; cases heq
    | ok message =>
      rw [hr] at heq
      have h1 := congrArg (fun x => x.1) (Except.ok.inj heq)
      cases h1
  · rw [snapClient_read_outcome socket now buffer header body rest hb hh hin hs (by omega) hok,
      htype, read_time_short_body buffer header body hh (by omega)]
    rfl

/-- The parts of C23 at a `TIME` header that says size 3, followed by the bytes
01 02 03, read at clock reading 7000003 into a buffer of 34 bytes 0xff. -/
theorem snapClient_read_undersized_witness :
    26 ≤ (List.replicate 34 (0xff : Byte)).length
      ∧ ([1, 2, 3] : List Byte).length
          = (Base.ofBytes [4, 0, 9, 0, 0, 0, 5, 0, 0, 0, 6, 0, 0, 0, 0, 0, 0, 0, 0, 0, 0, 0,
              3, 0, 0, 0]).size
      ∧ (Base.ofBytes [4, 0, 9, 0, 0, 0, 5, 0, 0, 0, 6, 0, 0, 0, 0, 0, 0, 0, 0, 0, 0, 0,
            3, 0, 0, 0]).type = MessageType.TIME
      ∧ Time.ofBytes ((([1, 2, 3] : List Byte)
            ++ ([4, 0, 9, 0, 0, 0, 5, 0, 0, 0, 6, 0, 0, 0, 0, 0, 0, 0, 0, 0, 0, 0, 3, 0, 0, 0]
                : List Byte).drop 3).take 8)
          = { sec := 197121, usec := 327680 }
      ∧ SnapClient.read
          { inData := [4, 0, 9, 0, 0, 0, 5, 0, 0, 0, 6, 0, 0, 0, 0, 0, 0, 0, 0, 0, 0, 0,
                       3, 0, 0, 0] ++ [1, 2, 3] ++ [],
            outData := [], readSizes := [], errors := [] }
          7000003 (List.replicate 34 0xff)
        = .ok (.ok ({ Base.ofBytes [4, 0, 9, 0, 0, 0, 5, 0, 0, 0, 6, 0, 0, 0, 0, 0, 0, 0, 0,
                        0, 0, 0, 3, 0, 0, 0] with received := stamp 7000003 },
                    .Time (Time.ofBytes ((([1, 2, 3] : List Byte)
                      ++ ([4, 0, 9, 0, 0, 0, 5, 0, 0, 0, 6, 0, 0, 0, 0, 0, 0, 0, 0, 0, 0, 0,
                           3, 0, 0, 0] : List Byte).drop
                          ([1, 2, 3] : List Byte).length).take 8))),
            ([1, 2, 3] : List Byte)
              ++ ([4, 0, 9, 0, 0, 0, 5, 0, 0, 0, 6, 0, 0, 0, 0, 0, 0, 0, 0, 0, 0, 0, 3, 0, 0,
                   0] ++ (List.replicate 34 0xff).drop 26).drop ([1, 2, 3] : List Byte).length,
            { inData := [], outData := [],
              readSizes := [] ++ [26, (Base.ofBytes [4, 0, 9, 0, 0, 0, 5, 0, 0, 0, 6, 0, 0,
                0, 0, 0, 0, 0, 0, 0, 0, 0, 3, 0, 0, 0]).size],
              errors := ([] : List ErrorCode).drop 2 }) :=
  ⟨by decide, by decide, by decide, by decide,
    snapClient_read_undersized.2
      { inData := [4, 0, 9, 0, 0, 0, 5, 0, 0, 0, 6, 0, 0, 0, 0, 0, 0, 0, 0, 0, 0, 0,
                   3, 0, 0, 0] ++ [1, 2, 3] ++ [],
        outData := [], readSizes := [], errors := [] }
      7000003 (List.replicate 34 0xff)
      [4, 0, 9, 0, 0, 0, 5, 0, 0, 0, 6, 0, 0, 0, 0, 0, 0, 0, 0, 0, 0, 0, 3, 0, 0, 0]
      [1, 2, 3] [] (by decide) (by decide) rfl (by decide) (by decide) (by decide)
      (by decide)⟩

/-- C24, as stated, fails: the decoder is run on the whole receive buffer, not on
its first `size` bytes.  A `HELLO` header that says size 4 is followed by the
body 1e 00 00 00, a length member of 30 with no payload after it.  Read into a
buffer of 40 bytes, the returned `Hello` has size 30 and a payload view at offset
4: the 30 bytes after the body, which are the rest of the header and 8 bytes the
buffer held before.  With the same header and body, a buffer of zero bytes and a
buffer of 0xff bytes give different payloads. -/
theorem snapClient_read_past_size_counterexample :
    (SnapClient.read
        { inData := [5, 0, 1, 0, 0, 0, 1, 0, 0, 0, 2, 0, 0, 0, 0, 0, 0, 0, 0, 0, 0, 0,
                     4, 0, 0, 0, 30, 0, 0, 0],
          outData := [], readSizes := [], errors := [] }
        0 (List.replicate 40 0)).map
          (fun out => (out.1.map (fun r => (r.1.type, r.1.size, r.2.views)), out.2.1.take 4))
      = .ok (.ok (MessageType.HELLO, 4,
                  [some [0, 0, 1, 0, 0, 0, 2, 0, 0, 0, 0, 0, 0, 0, 0, 0, 0, 0, 4, 0, 0, 0,
                         0, 0, 0, 0, 0, 0, 0, 0]]),
             [30, 0, 0, 0])
    ∧ (SnapClient.read
        { inData := [5, 0, 1, 0, 0, 0, 1, 0, 0, 0, 2, 0, 0, 0, 0, 0, 0, 0, 0, 0, 0, 0,
                     4, 0, 0, 0, 30, 0, 0, 0],
          outData := [], readSizes := [], errors := [] }
        0 (List.replicate 40 0xff)).map
          (fun out => (out.1.map (fun r => (r.1.type, r.1.size, r.2.views)), out.2.1.take 4))
      = .ok (.ok (MessageType.HELLO, 4,
                  [some [0, 0, 1, 0, 0, 0, 2, 0, 0, 0, 0, 0, 0, 0, 0, 0, 0, 0, 4, 0, 0, 0,
                         0xff, 0xff, 0xff, 0xff, 0xff, 0xff, 0xff, 0xff]]),
             [30, 0, 0, 0]) :=
  ⟨rfl, rfl⟩

/-- C24, amended: the claim for frames whose `size` bytes are a body of the
header's type.  For every buffer of at least 26 bytes, every clock reading and
every transport whose next two reads complete without error and deliver 26 header
bytes and then `size` body bytes, where `size`, the header's size field, is at
most the buffer length, and `read` of the body bytes alone under the header's
type stays within them and gives a message whose length members stay within
them: `SnapClient::read` returns a message whose payload and string views point
into the receive buffer and cover only bytes among its first `size` bytes, which
are the body bytes, and which has the same content as the message decoded from
the body bytes alone. -/
theorem snapClient_read_within_size (socket : Socket) (now : Int)
    (buffer header body rest : List Byte) (decoded : Message)
    (hb : 26 ≤ buffer.length) (hh : header.length = 26)
    (hin : socket.inData = header ++ body ++ rest)
    (hs : body.length = (Base.ofBytes header).size)
    (hfit : (Base.ofBytes header).size ≤ buffer.length)
    (hok : socket.Succeeds 2)
    (hd : read body (Base.ofBytes header).type = .ok decoded) (hwf : decoded.WellFormed) :
    ∃ message buffer' socket',
      SnapClient.read socket now buffer
          = .ok (.ok ({ Base.ofBytes header with received := stamp now }, message),
              buffer', socket')
        ∧ buffer'.take (Base.ofBytes header).size = body
        ∧ message.ViewsWithin buffer' (Base.ofBytes header).size
        ∧ decoded.SameContent message := by
  obtain ⟨m1, hm1, hsc⟩ :=
    read_append body ((header ++ buffer.drop 26).drop body.length) _ decoded hd
  obtain ⟨m2, hm2, hwithin⟩ :=
    read_append_within body ((header ++ buffer.drop 26).drop body.length) _ decoded hd hwf
  have e : m2 = m1 := Except.ok.inj (hm2.symm.trans hm1)
  subst e
  refine ⟨m2, _, _,
    (snapClient_read_outcome socket now buffer header body rest hb hh hin hs hfit hok).trans
      (by rw [hm2]; rfl), ?_, ?_, hsc hwf⟩
  · rw [← hs, List.take_left' rfl]
  · rw [← hs]
    exact hwithin

/-- C24 at a `CODEC_HEADER` frame whose 19-byte body is the codec "test" and the
payload "testing", followed on the stream by 09, read into a buffer of 30 bytes
0xff. -/
theorem snapClient_read_within_size_witness :
    26 ≤ (List.replicate 30 (0xff : Byte)).length
      ∧ ([4, 0, 0, 0, 0x74, 0x65, 0x73, 0x74, 7, 0, 0, 0, 0x74, 0x65, 0x73, 0x74, 0x69,
          0x6e, 0x67] : List Byte).length
          = (Base.ofBytes [1, 0, 2, 0, 0, 0, 1, 0, 0, 0, 2, 0, 0, 0, 0, 0, 0, 0, 0, 0, 0, 0,
              19, 0, 0, 0]).size
      ∧ (Message.CodecHeader
          { codecSize := 4, size := 7,
            codec := ⟨.array [4, 0, 0, 0, 0x74, 0x65, 0x73, 0x74, 7, 0, 0, 0, 0x74, 0x65, 0x73,
                       0x74, 0x69, 0x6e, 0x67], 4⟩,
            payload := ⟨.array [4, 0, 0, 0, 0x74, 0x65, 0x73, 0x74, 7, 0, 0, 0, 0x74, 0x65, 0x73,
                         0x74, 0x69, 0x6e, 0x67], 12⟩ }).WellFormed
      ∧ (SnapClient.read
          { inData := [1, 0, 2, 0, 0, 0, 1, 0, 0, 0, 2, 0, 0, 0, 0, 0, 0, 0, 0, 0, 0, 0,
                       19, 0, 0, 0]
              ++ [4, 0, 0, 0, 0x74, 0x65, 0x73, 0x74, 7, 0, 0, 0, 0x74, 0x65, 0x73, 0x74,
                  0x69, 0x6e, 0x67] ++ [9],
            outData := [], readSizes := [], errors := [] }
          0 (List.replicate 30 0xff)).map
            (fun out => out.1.map (fun r => (r.1.type, r.1.size, r.2.views)))
        = .ok (.ok (MessageType.CODEC_HEADER, 19,
            [some [0x74, 0x65, 0x73, 0x74],
             some [0x74, 0x65, 0x73, 0x74, 0x69, 0x6e, 0x67]]))
      ∧ ∃ message buffer' socket',
          SnapClient.read
              { inData := [1, 0, 2, 0, 0, 0, 1, 0, 0, 0, 2, 0, 0, 0, 0, 0, 0, 0, 0, 0, 0, 0,
                           19, 0, 0, 0]
                  ++ [4, 0, 0, 0, 0x74, 0x65, 0x73, 0x74, 7, 0, 0, 0, 0x74, 0x65, 0x73, 0x74,
                      0x69, 0x6e, 0x67] ++ [9],
                outData := [], readSizes := [], errors := [] }
              0 (List.replicate 30 0xff)
            = .ok (.ok ({ Base.ofBytes [1, 0, 2, 0, 0, 0, 1, 0, 0, 0, 2, 0, 0, 0, 0, 0, 0, 0,
                            0, 0, 0, 0, 19, 0, 0, 0] with received := stamp 0 },
                        message),
                buffer', socket')
            ∧ buffer'.take (Base.ofBytes [1, 0, 2, 0, 0, 0, 1, 0, 0, 0, 2, 0, 0, 0, 0, 0, 0,
                0, 0, 0, 0, 0, 19, 0, 0, 0]).size
              = [4, 0, 0, 0, 0x74, 0x65, 0x73, 0x74, 7, 0, 0, 0, 0x74, 0x65, 0x73, 0x74,
                 0x69, 0x6e, 0x67]
            ∧ message.ViewsWithin buffer' (Base.ofBytes [1, 0, 2, 0, 0, 0, 1, 0, 0, 0, 2, 0,
                0, 0, 0, 0, 0, 0, 0, 0, 0, 0, 19, 0, 0, 0]).size
            ∧ (Message.CodecHeader
                { codecSize := 4, size := 7,
                  codec := ⟨.array [4, 0, 0, 0, 0x74, 0x65, 0x73, 0x74, 7, 0, 0, 0, 0x74, 0x65,
                             0x73, 0x74, 0x69, 0x6e, 0x67], 4⟩,
                  payload := ⟨.array [4, 0, 0, 0, 0x74, 0x65, 0x73, 0x74, 7, 0, 0, 0, 0x74, 0x65,
                               0x73, 0x74, 0x69, 0x6e, 0x67], 12⟩ }).SameContent message :=
  ⟨by decide, by decide, by decide, rfl,
    snapClient_read_within_size
      { inData := [1, 0, 2, 0, 0, 0, 1, 0, 0, 0, 2, 0, 0, 0, 0, 0, 0, 0, 0, 0, 0, 0,
                   19, 0, 0, 0]
          ++ [4, 0, 0, 0, 0x74, 0x65, 0x73, 0x74, 7, 0, 0, 0, 0x74, 0x65, 0x73, 0x74,
              0x69, 0x6e, 0x67] ++ [9],
        outData := [], readSizes := [], errors := [] }
      0 (List.replicate 30 0xff)
      [1, 0, 2, 0, 0, 0, 1, 0, 0, 0, 2, 0, 0, 0, 0, 0, 0, 0, 0, 0, 0, 0, 19, 0, 0, 0]
      [4, 0, 0, 0, 0x74, 0x65, 0x73, 0x74, 7, 0, 0, 0, 0x74, 0x65, 0x73, 0x74, 0x69, 0x6e,
       0x67]
      [9]
      (.CodecHeader
        { codecSize := 4, size := 7,
          codec := ⟨.array [4, 0, 0, 0, 0x74, 0x65, 0x73, 0x74, 7, 0, 0, 0, 0x74, 0x65, 0x73,
                     0x74, 0x69, 0x6e, 0x67], 4⟩,
          payload := ⟨.array [4, 0, 0, 0, 0x74, 0x65, 0x73, 0x74, 7, 0, 0, 0, 0x74, 0x65, 0x73,
                       0x74, 0x69, 0x6e, 0x67], 12⟩ })
      (by decide) (by decide) rfl (by decide) (by decide) (by decide) (by decide)
      (by decide)⟩

/-- C25: what `sendJson` and `sendHello` do with a buffer too small for the frame.
Here `chunks` are the pieces of the serialized JSON text as the serializer hands
them out, and `L` is the length of the text.
* Buffer shorter than `L`: for every message type, `sendJson` copies the text
  into the buffer before any check, and the copy that crosses the end of the
  buffer writes outside it, at the index equal to the buffer length.  No error
  code is returned.  The same holds for `sendHello`.
* Buffer of at least `L` and fewer than `26 + 4 + 2 * L` bytes (with
  `L + 4 < 2 ^ 32`), type `HELLO`, `CLIENT_INFO` or `SERVER_SETTINGS`: `sendJson`
  returns `no_buffer_space`; the first `L` bytes of the buffer hold the JSON
  text, the other bytes and the transport are untouched.  The same holds for
  `sendHello`.
* `sendHello` with the JSON text `{}` and a buffer of one byte writes outside the
  buffer. -/
theorem sendJson_small_buffer :
    (∀ (socket : Socket) (now : Int) (id : Nat) (type : MessageType)
        (chunks : List (List Byte)) (buffer : List Byte),
      buffer.length < chunks.flatten.length →
      SnapClient.sendJson socket now id type chunks buffer
          = .error (.writeOutOfBounds buffer.length)
        ∧ SnapClient.sendHello socket now chunks buffer
          = .error (.writeOutOfBounds buffer.length))
    ∧ (∀ (socket : Socket) (now : Int) (id : Nat) (type : MessageType)
        (chunks : List (List Byte)) (buffer : List Byte),
      type = MessageType.HELLO ∨ type = MessageType.CLIENT_INFO
        ∨ type = MessageType.SERVER_SETTINGS →
      chunks.flatten.length ≤ buffer.length → chunks.flatten.length + 4 < 2 ^ 32 →
      buffer.length < 26 + 4 + 2 * chunks.flatten.length →
      SnapClient.sendJson socket now id type chunks buffer
          = .ok (.error .no_buffer_space,
              chunks.flatten ++ buffer.drop chunks.flatten.length, socket)
        ∧ SnapClient.sendHello socket now chunks buffer
          = .ok (.error .no_buffer_space,
              chunks.flatten ++ buffer.drop chunks.flatten.length, socket))
    ∧ SnapClient.sendHello Socket.idle 0 [[0x7b, 0x7d]] [0]
        = .error (.writeOutOfBounds 1) := by
  refine ⟨fun socket now id type chunks buffer h =>
      ⟨sendJson_overflow socket now id type chunks buffer h,
        sendJson_overflow socket now 0 MessageType.HELLO chunks buffer h⟩,
    fun socket now id type chunks buffer htype h h32 hlt =>
      ⟨sendJson_no_room socket now id type chunks buffer htype h h32 hlt,
        sendJson_no_room socket now 0 MessageType.HELLO chunks buffer (Or.inl rfl) h h32 hlt⟩,
    by decide⟩

/-- The first two parts of C25 at the JSON text `{"a":1}`, handed out as `{"a"` and
`:1}`, as a `CLIENT_INFO` message: with a buffer of 5 bytes, and with a buffer of
43 bytes, one byte short of the text and the 26 + 4 + 7 bytes of the frame. -/
theorem sendJson_small_buffer_witness :
    ((List.replicate 5 (0 : Byte)).length
        < ([[0x7b, 0x22, 0x61, 0x22], [0x3a, 0x31, 0x7d]] : List (List Byte)).flatten.length
      ∧ SnapClient.sendJson Socket.idle 0 1 MessageType.CLIENT_INFO
            [[0x7b, 0x22, 0x61, 0x22], [0x3a, 0x31, 0x7d]] (List.replicate 5 0)
          = .error (.writeOutOfBounds (List.replicate 5 (0 : Byte)).length)
      ∧ SnapClient.sendHello Socket.idle 0
            [[0x7b, 0x22, 0x61, 0x22], [0x3a, 0x31, 0x7d]] (List.replicate 5 0)
          = .error (.writeOutOfBounds (List.replicate 5 (0 : Byte)).length))
    ∧ (([[0x7b, 0x22, 0x61, 0x22], [0x3a, 0x31, 0x7d]] : List (List Byte)).flatten.length
          ≤ (List.replicate 43 (0 : Byte)).length
      ∧ (List.replicate 43 (0 : Byte)).length
          < 26 + 4 + 2
            * ([[0x7b, 0x22, 0x61, 0x22], [0x3a, 0x31, 0x7d]] : List (List Byte)).flatten.length
      ∧ SnapClient.sendJson Socket.idle 0 1 MessageType.CLIENT_INFO
            [[0x7b, 0x22, 0x61, 0x22], [0x3a, 0x31, 0x7d]] (List.replicate 43 0)
          = .ok (.error .no_buffer_space,
              ([[0x7b, 0x22, 0x61, 0x22], [0x3a, 0x31, 0x7d]] : List (List Byte)).flatten
                ++ (List.replicate 43 0).drop
                  ([[0x7b, 0x22, 0x61, 0x22], [0x3a, 0x31, 0x7d]]
                    : List (List Byte)).flatten.length,
              Socket.idle)
      ∧ SnapClient.sendHello Socket.idle 0
            [[0x7b, 0x22, 0x61, 0x22], [0x3a, 0x31, 0x7d]] (List.replicate 43 0)
          = .ok (.error .no_buffer_space,
              ([[0x7b, 0x22, 0x61, 0x22], [0x3a, 0x31, 0x7d]] : List (List Byte)).flatten
                ++ (List.replicate 43 0).drop
                  ([[0x7b, 0x22, 0x61, 0x22], [0x3a, 0x31, 0x7d]]
                    : List (List Byte)).flatten.length,
              Socket.idle)) :=
  ⟨⟨by decide,
      sendJson_small_buffer.1 Socket.idle 0 1 MessageType.CLIENT_INFO
        [[0x7b, 0x22, 0x61, 0x22], [0x3a, 0x31, 0x7d]] (List.replicate 5 0) (by decide)⟩,
    ⟨by decide, by decide,
      sendJson_small_buffer.2.1 Socket.idle 0 1 MessageType.CLIENT_INFO
        [[0x7b, 0x22, 0x61, 0x22], [0x3a, 0x31, 0x7d]] (List.replicate 43 0)
        (Or.inr (Or.inl rfl)) (by decide) (by decide) (by decide)⟩⟩

/-- C26: transport errors reach the caller unchanged.  The code with which the
next operation on the socket completes is `socket.nextError.1`.
* `TcpClient::write` returns that code; `TcpClient::read` returns it when it is an
  error, and returns success when it is success and the stream holds the bytes
  asked for.
* `SnapClient::send`: whenever it hands a frame to the transport and the write
  completes with an error, it returns exactly that error; and for every
  well-formed `Hello`, `ClientInfo`, `ServerSettings`, `Time` or `WireChunk`
  message with a body size below `2 ^ 32` and a buffer that holds the frame, it
  does hand the frame over, so it returns that error.
* `SnapClient::read` with a buffer of at least 26 bytes: when the header read
  completes with an error, it returns exactly that error; when the header read
  succeeds, the size fits the buffer and the body read completes with the error
  `e`, it returns exactly `e`.  Neither returns a message.
* The codes of `testRead` and `testWrite`: a read that completes with
  `operation_aborted` and a write that completes with `no_such_device`. -/
theorem transport_errors_unchanged :
    (∀ (socket : Socket) (data : List Byte),
      (TcpClient.write socket data).1 = socket.nextError.1)
    ∧ (∀ (socket : Socket) (buffer : List Byte) (n : Nat),
      (socket.nextError.1 ≠ .success →
        (TcpClient.read socket buffer n).1 = socket.nextError.1)
      ∧ (socket.nextError.1 = .success → n ≤ socket.inData.length →
        (TcpClient.read socket buffer n).1 = .success))
    ∧ (∀ (socket : Socket) (now : Int) (id : Nat) (m : Message) (buffer : List Byte)
        (out : Except ErrorCode Time × List Byte × Socket),
      SnapClient.send socket now id m buffer = .ok out →
      out.2.2.outData ≠ socket.outData → socket.nextError.1 ≠ .success →
      out.1 = .error socket.nextError.1)
    ∧ (∀ (socket : Socket) (now : Int) (id : Nat) (m : Message) (buffer : List Byte),
      m.Sendable → m.WellFormed → m.bodySize < 2 ^ 32 → 26 + m.bodySize ≤ buffer.length →
      socket.nextError.1 ≠ .success →
      (SnapClient.send socket now id m buffer).map (fun out => out.1)
        = .ok (.error socket.nextError.1))
    ∧ (∀ (socket : Socket) (now : Int) (buffer : List Byte),
      26 ≤ buffer.length → socket.nextError.1 ≠ .success →
      (SnapClient.read socket now buffer).map (fun out => out.1)
        = .ok (.error socket.nextError.1))
    ∧ (∀ (socket : Socket) (now : Int) (buffer header rest : List Byte) (e : ErrorCode)
        (later : List ErrorCode),
      26 ≤ buffer.length → header.length = 26 → socket.inData = header ++ rest →
      (Base.ofBytes header).size ≤ buffer.length →
      socket.errors = .success :: e :: later → e ≠ .success →
      (SnapClient.read socket now buffer).map (fun out => out.1) = .ok (.error e))
    ∧ (TcpClient.read
          { inData := [0x74, 0x65, 0x73, 0x74, 0x69, 0x6e, 0x67], outData := [],
            readSizes := [], errors := [.operation_aborted] }
          (List.replicate 7 0) 7).1 = .operation_aborted
    ∧ (TcpClient.write
          { inData := [], outData := [], readSizes := [], errors := [.no_such_device] }
          [0x68, 0x65, 0x6c, 0x6c, 0x6f, 0x20, 0x74, 0x65, 0x73, 0x74]).1
        = .no_such_device := by
  refine ⟨fun socket data => rfl, fun socket buffer n => ⟨fun hne => ?_, fun hs hn => ?_⟩,
    fun socket now id m buffer out h hout hne => ?_,
    fun socket now id m buffer hs hwf hfit hge hne => ?_,
    fun socket now buffer hb hne => ?_,
    fun socket now buffer header rest e later hb hh hin hfit herr hne => ?_,
    by decide, by decide⟩
  · rw [tcp_read_error socket buffer n hne]
  · have hlt : ¬ socket.inData.length < n := by omega
    have hlt' : ¬ socket.nextError.2.inData.length < n := by rw [nextError_inData]; exact hlt
    simp only [TcpClient.read, hs, ne_eq, not_true_eq_false, if_false, hlt']
  · obtain ⟨base, m', -, hcase⟩ := send_outcome socket now id m buffer out h
    rcases hcase with ⟨-, rfl⟩ | ⟨-, body, -, rfl⟩
    · exact (hout rfl).elim
    · simp only [ne_eq, hne, not_false_eq_true, if_true]
  · obtain ⟨buffer', frame, h⟩ := send_reaches_write socket now id m buffer hs hwf hfit hge
    rw [h]
    simp only [ne_eq, hne, not_false_eq_true, if_true]
    rfl
  · rw [snapClient_read_header_error socket now buffer hb hne]
    rfl
  · rw [snapClient_read_body_error socket now buffer header rest e later hb hh hin hfit herr
      hne]
    rfl

/-- C26 at `Hello` "testing" sent with a buffer of 40 bytes on a transport whose
write completes with `no_such_device`, and at a `TIME` frame whose header read
succeeds and whose body read completes with `operation_aborted`. -/
theorem transport_errors_unchanged_witness :
    ((Message.Hello (JsonMessage.ofString [0x74, 0x65, 0x73, 0x74, 0x69, 0x6e, 0x67])).Sendable
      ∧ (Message.Hello
          (JsonMessage.ofString [0x74, 0x65, 0x73, 0x74, 0x69, 0x6e, 0x67])).WellFormed
      ∧ 26 + (Message.Hello
          (JsonMessage.ofString [0x74, 0x65, 0x73, 0x74, 0x69, 0x6e, 0x67])).bodySize
          ≤ (List.replicate 40 (0 : Byte)).length
      ∧ (Socket.nextError
          { inData := [], outData := [], readSizes := [],
            errors := [.no_such_device] }).1 ≠ .success
      ∧ (SnapClient.send
            { inData := [], outData := [], readSizes := [], errors := [.no_such_device] }
            0 0 (.Hello (JsonMessage.ofString [0x74, 0x65, 0x73, 0x74, 0x69, 0x6e, 0x67]))
            (List.replicate 40 0)).map (fun out => out.1)
          = .ok (.error
              (Socket.nextError
                { inData := [], outData := [], readSizes := [],
                  errors := [.no_such_device] }).1))
    ∧ (26 ≤ (List.replicate 40 (0 : Byte)).length
      ∧ (Base.ofBytes [4, 0, 0, 0, 3, 0, 1, 0, 0, 0, 2, 0, 0, 0, 0, 0, 0, 0, 0, 0, 0, 0,
            8, 0, 0, 0]).size ≤ (List.replicate 40 (0 : Byte)).length
      ∧ ErrorCode.operation_aborted ≠ .success
      ∧ (SnapClient.read
            { inData := [4, 0, 0, 0, 3, 0, 1, 0, 0, 0, 2, 0, 0, 0, 0, 0, 0, 0, 0, 0, 0, 0,
                         8, 0, 0, 0] ++ [12, 0, 0, 0, 34, 0, 0, 0],
              outData := [], readSizes := [],
              errors := .success :: .operation_aborted :: [] }
            0 (List.replicate 40 0)).map (fun out => out.1)
          = .ok (.error .operation_aborted)) :=
  ⟨⟨by decide, by decide, by decide, by decide,
      transport_errors_unchanged.2.2.2.1
        { inData := [], outData := [], readSizes := [], errors := [.no_such_device] }
        0 0 (.Hello (JsonMessage.ofString [0x74, 0x65, 0x73, 0x74, 0x69, 0x6e, 0x67]))
        (List.replicate 40 0) (by decide) (by decide) (by decide) (by decide) (by decide)⟩,
    ⟨by decide, by decide, by decide,
      transport_errors_unchanged.2.2.2.2.2.1
        { inData := [4, 0, 0, 0, 3, 0, 1, 0, 0, 0, 2, 0, 0, 0, 0, 0, 0, 0, 0, 0, 0, 0,
                     8, 0, 0, 0] ++ [12, 0, 0, 0, 34, 0, 0, 0],
          outData := [], readSizes := [],
          errors := .success :: .operation_aborted :: [] }
        0 (List.replicate 40 0)
        [4, 0, 0, 0, 3, 0, 1, 0, 0, 0, 2, 0, 0, 0, 0, 0, 0, 0, 0, 0, 0, 0, 8, 0, 0, 0]
        [12, 0, 0, 0, 34, 0, 0, 0] .operation_aborted []
        (by decide) (by decide) rfl (by decide) rfl (by decide)⟩⟩

/-- C27: the discriminants of `MessageType` and where the header carries them.
* `BASE`, `CODEC_HEADER`, `WIRE_CHUNK`, `SERVER_SETTINGS`, `TIME`, `HELLO`,
  `CLIENT_INFO`, `ERROR` are 0, 1, 2, 3, 4, 5, 6, 7: pairwise distinct values that
  fit 16 bits.
* `write` of a header stores the type in bytes 0 and 1 of the buffer, least
  significant byte first, and `read` of a header takes the type from those two
  bytes.
* For each of the eight discriminants `t`, a header of type `t` is written with
  byte 0 equal to `t` and byte 1 equal to 0, and is read back with type `t`. -/
theorem messageType_values :
    [MessageType.BASE, MessageType.CODEC_HEADER, MessageType.WIRE_CHUNK,
        MessageType.SERVER_SETTINGS, MessageType.TIME, MessageType.HELLO,
        MessageType.CLIENT_INFO, MessageType.ERROR] = [0, 1, 2, 3, 4, 5, 6, 7]
    ∧ [MessageType.BASE, MessageType.CODEC_HEADER, MessageType.WIRE_CHUNK,
        MessageType.SERVER_SETTINGS, MessageType.TIME, MessageType.HELLO,
        MessageType.CLIENT_INFO, MessageType.ERROR].Nodup
    ∧ (∀ t ∈ [MessageType.BASE, MessageType.CODEC_HEADER, MessageType.WIRE_CHUNK,
        MessageType.SERVER_SETTINGS, MessageType.TIME, MessageType.HELLO,
        MessageType.CLIENT_INFO, MessageType.ERROR], t < 2 ^ 16)
    ∧ (∀ (base : Base) (buffer : List Byte), 26 ≤ buffer.length →
      ∃ buffer', writeBase buffer base = .ok buffer'
        ∧ byteAt buffer' 0 = base.type % 256 ∧ byteAt buffer' 1 = base.type / 256 % 256)
    ∧ (∀ (buffer : List Byte), 26 ≤ buffer.length →
      (readBase buffer).map (fun base => base.type)
        = .ok (byteAt buffer 0 + 256 * byteAt buffer 1))
    ∧ (∀ t ∈ [MessageType.BASE, MessageType.CODEC_HEADER, MessageType.WIRE_CHUNK,
        MessageType.SERVER_SETTINGS, MessageType.TIME, MessageType.HELLO,
        MessageType.CLIENT_INFO, MessageType.ERROR],
      ∀ (base : Base) (buffer : List Byte), base.type = t → 26 ≤ buffer.length →
      ∃ buffer', writeBase buffer base = .ok buffer'
        ∧ byteAt buffer' 0 = t ∧ byteAt buffer' 1 = 0
        ∧ (readBase buffer').map (fun header => header.type) = .ok t) := by
  refine ⟨rfl, by decide, by decide,
    fun base buffer h => ?_, fun buffer h => readBase_type buffer h,
    fun t ht base buffer hbt h => ?_⟩
  · obtain ⟨buffer', hw, -, h0, h1⟩ := writeBase_type_bytes base buffer h
    exact ⟨buffer', hw, h0, h1⟩
  · obtain ⟨buffer', hw, hl, h0, h1⟩ := writeBase_type_bytes base buffer h
    have hlt : @LT.lt Nat _ t 8 := by
      simp only [List.mem_cons, List.mem_singleton, List.not_mem_nil, or_false] at ht
      rcases ht with rfl | rfl | rfl | rfl | rfl | rfl | rfl | rfl <;> decide
    have e0 : base.type % 256 = t := by rw [hbt]; exact Nat.mod_eq_of_lt (by omega)
    have e1 : base.type / 256 % 256 = 0 := by
      rw [hbt, Nat.div_eq_of_lt (by omega)]
    rw [e0] at h0
    rw [e1] at h1
    refine ⟨buffer', hw, h0, h1, ?_⟩
    rw [readBase_type buffer' (by omega), h0, h1, Nat.mul_zero, Nat.add_zero]

/-- The last part of C27 at a `HELLO` header written into a buffer of 26 zero
bytes. -/
theorem messageType_values_witness :
    26 ≤ (List.replicate 26 (0 : Byte)).length
      ∧ ∃ buffer',
          writeBase (List.replicate 26 0)
              { type := MessageType.HELLO, id := 0, refersTo := 0,
                sent := { sec := 0, usec := 0 }, received := { sec := 0, usec := 0 },
                size := 0 }
            = .ok buffer'
          ∧ byteAt buffer' 0 = MessageType.HELLO ∧ byteAt buffer' 1 = 0
          ∧ (readBase buffer').map (fun header => header.type) = .ok MessageType.HELLO :=
  ⟨by decide,
    messageType_values.2.2.2.2.2 MessageType.HELLO (by decide)
      { type := MessageType.HELLO, id := 0, refersTo := 0,
        sent := { sec := 0, usec := 0 }, received := { sec := 0, usec := 0 }, size := 0 }
      (List.replicate 26 0) rfl (by decide)⟩

/-- C28: the latency of the spec, for every sent and received `Time` whose usec
members are below 1,000,000 and with received not earlier than sent.  In
microseconds it is `(received.sec - sent.sec) * 1,000,000 + received.usec -
sent.usec`, its own usec member is below 1,000,000, and it is the difference of
the two time points.  Sent `{1, 999999}` and received `{2, 0}` give `{0, 1}`, one
microsecond. -/
theorem latency_microseconds :
    (∀ (sent received : Time),
      sent.usec < 1000000 → received.usec < 1000000 → sent.micros ≤ received.micros →
      ((latency sent received).micros : Int)
          = ((received.sec : Int) - sent.sec) * 1000000 + received.usec - sent.usec
        ∧ (latency sent received).usec < 1000000
        ∧ (latency sent received).micros = received.micros - sent.micros)
    ∧ latency { sec := 1, usec := 999999 } { sec := 2, usec := 0 } = { sec := 0, usec := 1 }
    ∧ (latency { sec := 1, usec := 999999 } { sec := 2, usec := 0 }).micros = 1 := by
  refine ⟨fun sent received hs hr hle => ?_, by decide, by decide⟩
  unfold Time.micros at hle
  unfold latency Time.micros
  split
  · simp only
    refine ⟨?_, ?_, ?_⟩ <;> omega
  · simp only
    refine ⟨?_, ?_, ?_⟩ <;> omega

/-- C28 at the times of the spec: sent `{1, 999999}`, received `{2, 0}`. -/
theorem latency_microseconds_witness :
    (999999 : Nat) < 1000000 ∧ (0 : Nat) < 1000000
      ∧ (Time.mk 1 999999).micros ≤ (Time.mk 2 0).micros
      ∧ ((latency (Time.mk 1 999999) (Time.mk 2 0)).micros : Int)
          = (((Time.mk 2 0).sec : Int) - (Time.mk 1 999999).sec) * 1000000
              + (Time.mk 2 0).usec - (Time.mk 1 999999).usec
      ∧ (latency (Time.mk 1 999999) (Time.mk 2 0)).usec < 1000000
      ∧ (latency (Time.mk 1 999999) (Time.mk 2 0)).micros
          = (Time.mk 2 0).micros - (Time.mk 1 999999).micros :=
  ⟨by decide, by decide, by decide,
    latency_microseconds.1 (Time.mk 1 999999) (Time.mk 2 0) (by decide) (by decide)
      (by decide)⟩

/-- C29: what `snapcastpp::SnapClient::doHandshake` does with the messages it
receives.
* Suspended at its first read ("wait for server settings"), it moves on to its
  second read ("wait for codec header") whatever message the read returns; a
  `WireChunk` does not leave it where it was.
* Suspended at its second read, it returns whatever message the read returns.
* `SnapClient::read` returns `ServerSettings{1, ""}` and takes nothing from the
  stream, whatever the stream holds.
* So a call of `doHandshake` passes through "wait for server settings" and "wait
  for codec header" and returns, with the stream as it was, whatever the peer has
  sent: here the 8 bytes 02 00 00 00 00 00 00 00, the start of a `WIRE_CHUNK`
  header. -/
theorem doHandshake_any_message :
    (∀ (msg : Snapcastpp.Message),
      Snapcastpp.SnapClient.doHandshake .waitServerSettings (.received msg)
        = .waitCodecHeader)
    ∧ (∀ (id : Nat) (payload : List Byte),
      Snapcastpp.SnapClient.doHandshake .waitServerSettings
          (.received (.WireChunk id payload))
        ≠ .waitServerSettings)
    ∧ (∀ (msg : Snapcastpp.Message),
      Snapcastpp.SnapClient.doHandshake .waitCodecHeader (.received msg) = .returned)
    ∧ (∀ (inData : List Byte),
      Snapcastpp.SnapClient.read inData = (.ServerSettings 1 [], inData))
    ∧ (∀ (ec : ErrorCode) (bytesSent : Nat) (inData : List Byte),
      Snapcastpp.SnapClient.runHandshake ec bytesSent inData
        = ([.waitServerSettings, .waitCodecHeader, .returned], inData))
    ∧ Snapcastpp.SnapClient.runHandshake .success 0 [2, 0, 0, 0, 0, 0, 0, 0]
        = ([.waitServerSettings, .waitCodecHeader, .returned], [2, 0, 0, 0, 0, 0, 0, 0]) := by
  refine ⟨fun msg => rfl, fun id payload h => ?_, fun msg => rfl, fun inData => rfl,
    fun ec bytesSent inData => rfl, rfl⟩
  cases h

/-- C30, as stated, fails: the string of the 13 characters `10.0.0.1`, a null
character and `junk` is not an IP address literal, yet `connect` given it calls
`async_connect` once, on the address 10.0.0.1 and the port, and returns the
code of that call, here success: `make_address` is given the C string, which
ends at the null character. -/
theorem tcpClient_connect_counterexample :
    ipv4Literal [0x31, 0x30, 0x2e, 0x30, 0x2e, 0x30, 0x2e, 0x31, 0x00, 0x6a, 0x75, 0x6e, 0x6b]
        = none
      ∧ cStr [0x31, 0x30, 0x2e, 0x30, 0x2e, 0x30, 0x2e, 0x31, 0x00, 0x6a, 0x75, 0x6e, 0x6b]
        = [0x31, 0x30, 0x2e, 0x30, 0x2e, 0x30, 0x2e, 0x31]
      ∧ TcpClient.connect ipv4Literal Socket.idle
          [0x31, 0x30, 0x2e, 0x30, 0x2e, 0x30, 0x2e, 0x31, 0x00, 0x6a, 0x75, 0x6e, 0x6b] 1234
        = (.success, [((10, 0, 0, 1), 1234)], Socket.idle) := by
  decide

/-- C30, amended: `TcpClient::connect` decides on the characters of the string in
front of its first null character, for every set of address literals, every
socket, string and port.
* When those characters are not an IP address literal, `connect` returns
  `invalid_argument`, calls `async_connect` on no endpoint and leaves the socket
  as it was.
* When they are a literal, `connect` calls `async_connect` once, on the address
  the literal denotes and the port, and returns the code that call completes
  with, unchanged.
* In every case `async_connect` is called at most once.
* A string without a null character is those characters: such a string that is
  no literal gives `invalid_argument` and no call, and one that is a literal
  gives one call and its code.
* The three calls of `testConnect`, with the dotted-decimal IPv4 literals:
  "localhost" gives `invalid_argument` and no call; "10.0.0.1" on a socket that
  refuses gives `connection_refused`; "192.168.0.1" on a socket that accepts
  gives success. -/
theorem tcpClient_connect_once :
    (∀ {Address : Type} [Inhabited Address] (literal : List Byte → Option Address)
        (socket : Socket) (ip : List Byte) (port : Nat),
      (literal (cStr ip) = none →
          TcpClient.connect literal socket ip port = (.invalid_argument, [], socket))
        ∧ (∀ address, literal (cStr ip) = some address →
          TcpClient.connect literal socket ip port
            = (socket.nextError.1, [(address, port)], socket.nextError.2))
        ∧ (TcpClient.connect literal socket ip port).2.1.length ≤ 1
        ∧ ((∀ c ∈ ip, c ≠ 0) → cStr ip = ip)
        ∧ ((∀ c ∈ ip, c ≠ 0) → literal ip = none →
          TcpClient.connect literal socket ip port = (.invalid_argument, [], socket))
        ∧ (∀ address, (∀ c ∈ ip, c ≠ 0) → literal ip = some address →
          TcpClient.connect literal socket ip port
            = (socket.nextError.1, [(address, port)], socket.nextError.2)))
    ∧ TcpClient.connect ipv4Literal Socket.idle
          [0x6c, 0x6f, 0x63, 0x61, 0x6c, 0x68, 0x6f, 0x73, 0x74] 1234
        = (.invalid_argument, [], Socket.idle)
    ∧ TcpClient.connect ipv4Literal
          { inData := [], outData := [], readSizes := [], errors := [.connection_refused] }
          [0x31, 0x30, 0x2e, 0x30, 0x2e, 0x30, 0x2e, 0x31] 1234
        = (.connection_refused, [((10, 0, 0, 1), 1234)], Socket.idle)
    ∧ TcpClient.connect ipv4Literal Socket.idle
          [0x31, 0x39, 0x32, 0x2e, 0x31, 0x36, 0x38, 0x2e, 0x30, 0x2e, 0x31] 1234
        = (.success, [((192, 168, 0, 1), 1234)], Socket.idle) := by
  refine ⟨fun literal socket ip port => ⟨connect_no_literal literal socket ip port,
    fun address h => connect_literal literal socket ip port address h, ?_,
    cStr_of_no_null ip,
    fun h0 h => connect_no_literal literal socket ip port
      (by rw [cStr_of_no_null ip h0]; exact h),
    fun address h0 h => connect_literal literal socket ip port address
      (by rw [cStr_of_no_null ip h0]; exact h)⟩, rfl, rfl, rfl⟩
  cases h : literal (cStr ip) with
  | none =>
    rw [connect_no_literal literal socket ip port h]
    exact Nat.zero_le 1
  | some address =>
    rw [connect_literal literal socket ip port address h]
    exact Nat.le_refl 1

/-- The amended C30 at the string "256.0.0.1", which is no literal and holds no
null character, and at the literal "127.0.0.1" on a socket whose connect
completes with `connection_refused`. -/
theorem tcpClient_connect_once_witness :
    (ipv4Literal (cStr [0x32, 0x35, 0x36, 0x2e, 0x30, 0x2e, 0x30, 0x2e, 0x31]) = none
      ∧ TcpClient.connect ipv4Literal Socket.idle
          [0x32, 0x35, 0x36, 0x2e, 0x30, 0x2e, 0x30, 0x2e, 0x31] 80
        = (.invalid_argument, [], Socket.idle))
    ∧ (ipv4Literal (cStr [0x31, 0x32, 0x37, 0x2e, 0x30, 0x2e, 0x30, 0x2e, 0x31])
        = some (127, 0, 0, 1)
      ∧ TcpClient.connect ipv4Literal
          { inData := [], outData := [], readSizes := [], errors := [.connection_refused] }
          [0x31, 0x32, 0x37, 0x2e, 0x30, 0x2e, 0x30, 0x2e, 0x31] 80
        = (.connection_refused, [((127, 0, 0, 1), 80)], Socket.idle)) :=
  ⟨⟨by decide,
      (tcpClient_connect_once.1 ipv4Literal Socket.idle
        [0x32, 0x35, 0x36, 0x2e, 0x30, 0x2e, 0x30, 0x2e, 0x31] 80).1 (by decide)⟩,
    ⟨by decide,
      (tcpClient_connect_once.1 ipv4Literal
        { inData := [], outData := [], readSizes := [], errors := [.connection_refused] }
        [0x31, 0x32, 0x37, 0x2e, 0x30, 0x2e, 0x30, 0x2e, 0x31] 80).2.1 (127, 0, 0, 1)
        (by decide)⟩⟩

/-- C31: the id, refersTo and received members of the header `SnapClient::send`
builds and writes, for every message, clock reading, buffer and transport.
* Whenever the visitor produces a header, its id is the id argument, its
  refersTo is 0 and its received member is `{0, 0}`.
* Whenever `send` hands a frame to the transport, with an id that fits 16 bits,
  `read` of `Base` on the frame, and on the caller's buffer, gives a header with
  id equal to the id argument, refersTo 0 and received `{0, 0}`.
* For every well-formed `Hello`, `ClientInfo`, `ServerSettings`, `Time` or
  `WireChunk` message with a body size below `2 ^ 32` and a buffer that holds the
  frame, `send` does hand a frame to the transport.  (For `CodecHeader` and
  `Error` no header is written: see C16.) -/
theorem send_header_fields :
    (∀ (now : Int) (id : Nat) (m m' : Message) (base : Base),
      SnapClient.makeBase now id m = .ok (base, m') →
      base.id = id ∧ base.refersTo = 0 ∧ base.received = { sec := 0, usec := 0 })
    ∧ (∀ (socket : Socket) (now : Int) (id : Nat) (m : Message) (buffer : List Byte)
        (out : Except ErrorCode Time × List Byte × Socket),
      id < 2 ^ 16 → SnapClient.send socket now id m buffer = .ok out →
      out.2.2.outData ≠ socket.outData →
      ∃ frame header, out.2.2.outData = socket.outData ++ [frame]
        ∧ readBase frame = .ok header ∧ readBase out.2.1 = .ok header
        ∧ header.id = id ∧ header.refersTo = 0
        ∧ header.received = { sec := 0, usec := 0 })
    ∧ (∀ (socket : Socket) (now : Int) (id : Nat) (m : Message) (buffer : List Byte),
      m.Sendable → m.WellFormed → m.bodySize < 2 ^ 32 → 26 + m.bodySize ≤ buffer.length →
      ∃ out, SnapClient.send socket now id m buffer = .ok out
        ∧ out.2.2.outData ≠ socket.outData) := by
  refine ⟨fun now id m m' base hb => ?_, fun socket now id m buffer out hid h hout => ?_,
    fun socket now id m buffer hs hwf hfit hge => ?_⟩
  · obtain ⟨-, hbase, -, -, -⟩ := makeBase_ok_inv now id m m' base hb
    rw [hbase]
    exact ⟨rfl, rfl, rfl⟩
  · obtain ⟨frame, m', h1, h2, h3⟩ := send_frame_header socket now id m buffer out h hout
    refine ⟨frame, _, h1, h2, h3.trans h2, ?_, ?_, ?_⟩
    · rw [base_ofBytes_bytes_mod]
      exact Nat.mod_eq_of_lt hid
    · rw [base_ofBytes_bytes_mod]
      rfl
    · rw [base_ofBytes_bytes_mod]
      rfl
  · obtain ⟨buffer', frame, h⟩ := send_reaches_write socket now id m buffer hs hwf hfit hge
    refine ⟨_, h, fun heq => ?_⟩
    have hlen := congrArg List.length heq
    simp only [List.length_append, List.length_singleton] at hlen
    omega

/-- The second part of C31 at `Time{5, 6}` sent with id 7 at clock reading 1234567
with a buffer of 34 bytes on an idle socket. -/
theorem send_header_fields_witness :
    (7 : Nat) < 2 ^ 16
      ∧ SnapClient.send Socket.idle 1234567 7 (.Time { sec := 5, usec := 6 })
            (List.replicate 34 0)
          = .ok (.ok { sec := 1, usec := 234567 },
              [4, 0, 7, 0, 0, 0, 1, 0, 0, 0, 71, 148, 3, 0, 0, 0, 0, 0, 0, 0, 0, 0, 8, 0, 0, 0,
               1, 0, 0, 0, 71, 148, 3, 0],
              { inData := [], outData :=
                  [[4, 0, 7, 0, 0, 0, 1, 0, 0, 0, 71, 148, 3, 0, 0, 0, 0, 0, 0, 0, 0, 0, 8, 0,
                    0, 0, 1, 0, 0, 0, 71, 148, 3, 0]],
                readSizes := [], errors := [] })
      ∧ ∃ frame header,
          [[(4 : Byte), 0, 7, 0, 0, 0, 1, 0, 0, 0, 71, 148, 3, 0, 0, 0, 0, 0, 0, 0, 0, 0, 8, 0,
            0, 0, 1, 0, 0, 0, 71, 148, 3, 0]] = Socket.idle.outData ++ [frame]
          ∧ readBase frame = .ok header
          ∧ readBase [4, 0, 7, 0, 0, 0, 1, 0, 0, 0, 71, 148, 3, 0, 0, 0, 0, 0, 0, 0, 0, 0, 8, 0,
              0, 0, 1, 0, 0, 0, 71, 148, 3, 0] = .ok header
          ∧ header.id = 7 ∧ header.refersTo = 0
          ∧ header.received = { sec := 0, usec := 0 } :=
  ⟨by decide, by decide,
    send_header_fields.2.1 Socket.idle 1234567 7 (.Time { sec := 5, usec := 6 })
      (List.replicate 34 0)
      (.ok { sec := 1, usec := 234567 },
        [4, 0, 7, 0, 0, 0, 1, 0, 0, 0, 71, 148, 3, 0, 0, 0, 0, 0, 0, 0, 0, 0, 8, 0, 0, 0,
         1, 0, 0, 0, 71, 148, 3, 0],
        { inData := [], outData :=
            [[4, 0, 7, 0, 0, 0, 1, 0, 0, 0, 71, 148, 3, 0, 0, 0, 0, 0, 0, 0, 0, 0, 8, 0,
              0, 0, 1, 0, 0, 0, 71, 148, 3, 0]],
          readSizes := [], errors := [] })
      (by decide) (by decide) (by decide)⟩

/-- C32: the time stamp of a clock reading of `n` microseconds, `n` not negative.
* Its `sec` is `n / 1,000,000` (rounded down) modulo `2 ^ 32` and its `usec` is
  `n` modulo 1,000,000; so `usec` is below 1,000,000, and while `n` is below
  `2 ^ 32 * 1,000,000` the two give `n` back: `sec * 1,000,000 + usec = n`.
* That stamp is the sent member of every header the visitor of `SnapClient::send`
  produces, and the received member of every header `SnapClient::read` returns. -/
theorem stamp_split :
    (∀ (n : Nat),
      stamp (n : Int) = { sec := n / 1000000 % 2 ^ 32, usec := n % 1000000 }
        ∧ (stamp (n : Int)).usec < 1000000
        ∧ (n < 2 ^ 32 * 1000000 →
            (stamp (n : Int)).sec * 1000000 + (stamp (n : Int)).usec = n))
    ∧ (∀ (now : Int) (id : Nat) (m m' : Message) (base : Base),
      SnapClient.makeBase now id m = .ok (base, m') → base.sent = stamp now)
    ∧ (∀ (socket : Socket) (now : Int) (buffer : List Byte) (header : Base)
        (message : Message) (buffer' : List Byte) (socket' : Socket),
      SnapClient.read socket now buffer = .ok (.ok (header, message), buffer', socket') →
      header.received = stamp now) := by
  refine ⟨fun n => ?_, fun now id m m' base hb => ?_,
    fun socket now buffer header message buffer' socket' h =>
      snapClient_read_received socket now buffer header message buffer' socket' h⟩
  · rw [stamp_of_nat]
    refine ⟨rfl, ?_, fun hn => ?_⟩
    · show n % 1000000 < 1000000
      omega
    · show n / 1000000 % 2 ^ 32 * 1000000 + n % 1000000 = n
      omega
  · obtain ⟨-, hbase, -, -, -⟩ := makeBase_ok_inv now id m m' base hb
    rw [hbase]

/-- C32 at the clock reading 4294967296000001, one microsecond past `2 ^ 32`
seconds, where `sec` has wrapped to 0; at 1234567 as the sent stamp of a `Time`
message; and at 5000001 as the received stamp of the `TIME` frame of
`testRead`. -/
theorem stamp_split_witness :
    (stamp ((4294967296000001 : Nat) : Int) = { sec := 0, usec := 1 }
      ∧ stamp ((4294967296000001 : Nat) : Int)
          = { sec := 4294967296000001 / 1000000 % 2 ^ 32, usec := 4294967296000001 % 1000000 }
      ∧ (stamp ((4294967296000001 : Nat) : Int)).usec < 1000000
      ∧ ((4294967296000001 : Nat) < 2 ^ 32 * 1000000 →
          (stamp ((4294967296000001 : Nat) : Int)).sec * 1000000
              + (stamp ((4294967296000001 : Nat) : Int)).usec = 4294967296000001))
    ∧ (SnapClient.makeBase 1234567 7 (.Time { sec := 5, usec := 6 })
          = .ok ({ type := MessageType.TIME, id := 7, refersTo := 0,
                   sent := { sec := 1, usec := 234567 },
                   received := { sec := 0, usec := 0 }, size := 8 },
                 .Time { sec := 1, usec := 234567 })
      ∧ (Base.mk MessageType.TIME 7 0 { sec := 1, usec := 234567 } { sec := 0, usec := 0 }
          8).sent = stamp 1234567)
    ∧ (SnapClient.read
          { inData := [4, 0, 0, 0, 3, 0, 1, 0, 0, 0, 2, 0, 0, 0, 0, 0, 0, 0, 0, 0, 0, 0,
                       8, 0, 0, 0, 12, 0, 0, 0, 34, 0, 0, 0],
            outData := [], readSizes := [], errors := [] }
          5000001 (List.replicate 26 0)
        = .ok (.ok ({ type := MessageType.TIME, id := 0, refersTo := 3,
                      sent := { sec := 1, usec := 2 }, received := { sec := 5, usec := 1 },
                      size := 8 },
                    .Time { sec := 12, usec := 34 }),
            [12, 0, 0, 0, 34, 0, 0, 0, 0, 0, 2, 0, 0, 0, 0, 0, 0, 0, 0, 0, 0, 0, 8, 0, 0, 0],
            { inData := [], outData := [], readSizes := [26, 8], errors := [] })
      ∧ (Base.mk MessageType.TIME 0 3 { sec := 1, usec := 2 } { sec := 5, usec := 1 }
          8).received = stamp 5000001) :=
  ⟨⟨by decide, stamp_split.1 4294967296000001⟩,
    ⟨by decide,
      stamp_split.2.1 1234567 7 (.Time { sec := 5, usec := 6 })
        (.Time { sec := 1, usec := 234567 })
        (Base.mk MessageType.TIME 7 0 { sec := 1, usec := 234567 } { sec := 0, usec := 0 } 8)
        (by decide)⟩,
    ⟨by decide,
      stamp_split.2.2
        { inData := [4, 0, 0, 0, 3, 0, 1, 0, 0, 0, 2, 0, 0, 0, 0, 0, 0, 0, 0, 0, 0, 0,
                     8, 0, 0, 0, 12, 0, 0, 0, 34, 0, 0, 0],
          outData := [], readSizes := [], errors := [] }
        5000001 (List.replicate 26 0)
        (Base.mk MessageType.TIME 0 3 { sec := 1, usec := 2 } { sec := 5, usec := 1 } 8)
        (.Time { sec := 12, usec := 34 })
        [12, 0, 0, 0, 34, 0, 0, 0, 0, 0, 2, 0, 0, 0, 0, 0, 0, 0, 0, 0, 0, 0, 8, 0, 0, 0]
        { inData := [], outData := [], readSizes := [26, 8], errors := [] }
        (by decide)⟩⟩

/-- C34: what `write` leaves of the buffer.
* Whenever `write(buffer, message)` completes, the buffer keeps its length and
  every byte from index body-size on keeps its value, the body size being
  `4 + n` for the JSON variants, 8 for `Time`, `12 + n` for `WireChunk`,
  `8 + codecSize + size` for `CodecHeader` and `12 + errorSize +
  errorMessageSize` for `Error`.
* Whenever `write(buffer, base)` completes, every byte from index 26 on keeps
  its value; whenever `write(buffer, time)` completes, every byte from index 8
  on.
* For every well-formed message and every buffer of at least body-size bytes,
  `write(buffer, message)` does complete. -/
theorem write_keeps_later_bytes :
    (∀ (buffer out : List Byte) (m : Message), write buffer m = .ok out →
      out.length = buffer.length ∧ out.drop m.bodySize = buffer.drop m.bodySize
        ∧ ∀ i, m.bodySize ≤ i → byteAt out i = byteAt buffer i)
    ∧ (∀ (msg : JsonMessage), (Message.Hello msg).bodySize = 4 + msg.size
        ∧ (Message.ServerSettings msg).bodySize = 4 + msg.size
        ∧ (Message.ClientInfo msg).bodySize = 4 + msg.size)
    ∧ (∀ (msg : Time), (Message.Time msg).bodySize = 8)
    ∧ (∀ (msg : WireChunk), (Message.WireChunk msg).bodySize = 12 + msg.size)
    ∧ (∀ (msg : CodecHeader),
        (Message.CodecHeader msg).bodySize = 8 + msg.codecSize + msg.size)
    ∧ (∀ (msg : Error),
        (Message.Error msg).bodySize = 12 + msg.errorSize + msg.errorMessageSize)
    ∧ (∀ (buffer out : List Byte) (base : Base), writeBase buffer base = .ok out →
      out.length = buffer.length ∧ out.drop 26 = buffer.drop 26
        ∧ ∀ i, 26 ≤ i → byteAt out i = byteAt buffer i)
    ∧ (∀ (buffer out : List Byte) (time : Time), writeTime buffer time = .ok out →
      out.length = buffer.length ∧ out.drop 8 = buffer.drop 8
        ∧ ∀ i, 8 ≤ i → byteAt out i = byteAt buffer i)
    ∧ (∀ (buffer : List Byte) (m : Message), m.WellFormed → m.bodySize ≤ buffer.length →
      ∃ out, write buffer m = .ok out) := by
  refine ⟨fun buffer out m h => ?_, fun msg => ⟨rfl, rfl, rfl⟩, fun msg => rfl,
    fun msg => ?_, fun msg => ?_, fun msg => ?_, fun buffer out base h => ?_,
    fun buffer out time h => ?_, fun buffer m hwf hb => ?_⟩
  · obtain ⟨hl, hd⟩ := write_keeps buffer out m m.bodySize h (Nat.le_refl _)
    exact ⟨hl, hd, fun i hi => byteAt_of_drop_eq out buffer m.bodySize i hd hi⟩
  · show 8 + 4 + msg.size = 12 + msg.size
    omega
  · show 4 + msg.codecSize + 4 + msg.size = 8 + msg.codecSize + msg.size
    omega
  · show 4 + 4 + msg.errorSize + 4 + msg.errorMessageSize
      = 12 + msg.errorSize + msg.errorMessageSize
    omega
  · obtain ⟨hl, hd⟩ := writeBase_keeps buffer out base 26 h (Nat.le_refl _)
    exact ⟨hl, hd, fun i hi => byteAt_of_drop_eq out buffer 26 i hd hi⟩
  · obtain ⟨hl, hd⟩ := writeTime_keeps buffer out time 8 h (Nat.le_refl _)
    exact ⟨hl, hd, fun i hi => byteAt_of_drop_eq out buffer 8 i hd hi⟩
  · exact ⟨_, (write_wire m hwf).2 buffer hb⟩

/-- C34 at the codec header "test" / "testing" written into a buffer of 24 bytes
0xff: the 19 body bytes are followed by five bytes 0xff. -/
theorem write_keeps_later_bytes_witness :
    write (List.replicate 24 0xff)
        (.CodecHeader (CodecHeader.ofParts [0x74, 0x65, 0x73, 0x74]
          [0x74, 0x65, 0x73, 0x74, 0x69, 0x6e, 0x67]))
      = .ok [0x04, 0x00, 0x00, 0x00, 0x74, 0x65, 0x73, 0x74, 0x07, 0x00, 0x00, 0x00, 0x74,
             0x65, 0x73, 0x74, 0x69, 0x6e, 0x67, 0xff, 0xff, 0xff, 0xff, 0xff]
    ∧ ([0x04, 0x00, 0x00, 0x00, 0x74, 0x65, 0x73, 0x74, 0x07, 0x00, 0x00, 0x00, 0x74, 0x65,
        0x73, 0x74, 0x69, 0x6e, 0x67, 0xff, 0xff, 0xff, 0xff, 0xff] : List Byte).length
        = (List.replicate 24 (0xff : Byte)).length
    ∧ ([0x04, 0x00, 0x00, 0x00, 0x74, 0x65, 0x73, 0x74, 0x07, 0x00, 0x00, 0x00, 0x74, 0x65,
        0x73, 0x74, 0x69, 0x6e, 0x67, 0xff, 0xff, 0xff, 0xff, 0xff] : List Byte).drop
          (Message.CodecHeader (CodecHeader.ofParts [0x74, 0x65, 0x73, 0x74]
            [0x74, 0x65, 0x73, 0x74, 0x69, 0x6e, 0x67])).bodySize
        = (List.replicate 24 (0xff : Byte)).drop
          (Message.CodecHeader (CodecHeader.ofParts [0x74, 0x65, 0x73, 0x74]
            [0x74, 0x65, 0x73, 0x74, 0x69, 0x6e, 0x67])).bodySize
    ∧ ∀ i, (Message.CodecHeader (CodecHeader.ofParts [0x74, 0x65, 0x73, 0x74]
          [0x74, 0x65, 0x73, 0x74, 0x69, 0x6e, 0x67])).bodySize ≤ i →
        byteAt [0x04, 0x00, 0x00, 0x00, 0x74, 0x65, 0x73, 0x74, 0x07, 0x00, 0x00, 0x00, 0x74,
                0x65, 0x73, 0x74, 0x69, 0x6e, 0x67, 0xff, 0xff, 0xff, 0xff, 0xff] i
          = byteAt (List.replicate 24 0xff) i :=
  ⟨by decide,
    write_keeps_later_bytes.1 (List.replicate 24 0xff)
      [0x04, 0x00, 0x00, 0x00, 0x74, 0x65, 0x73, 0x74, 0x07, 0x00, 0x00, 0x00, 0x74, 0x65,
       0x73, 0x74, 0x69, 0x6e, 0x67, 0xff, 0xff, 0xff, 0xff, 0xff]
      (.CodecHeader (CodecHeader.ofParts [0x74, 0x65, 0x73, 0x74]
        [0x74, 0x65, 0x73, 0x74, 0x69, 0x6e, 0x67]))
      (by decide)⟩

/-- C35: for every sequence `s` of 26 bytes and every buffer of at least 26 bytes,
`read` of `Base` on `s` gives a header, whatever bytes 0 and 1 hold, with the
type those two bytes spell least significant byte first; and `write` of that
header puts exactly the bytes of `s` at the start of the buffer and leaves the
rest of the buffer. -/
theorem readBase_writeBase_lossless (s buffer : List Byte) (hs : s.length = 26)
    (hb : 26 ≤ buffer.length) :
    ∃ b, readBase s = .ok b
      ∧ b.type = byteAt s 0 + 256 * byteAt s 1
      ∧ writeBase buffer b = .ok (s ++ buffer.drop 26)
      ∧ writeBase s b = .ok s := by
  have hr : readBase s = .ok (Base.ofBytes s) := by
    have h := readBase_append s [] hs
    rwa [List.append_nil] at h
  have ht := readBase_type s (by omega)
  rw [hr] at ht
  refine ⟨Base.ofBytes s, hr, Except.ok.inj ht, ?_, ?_⟩
  · rw [writeBase_eq buffer _ hb, base_bytes_ofBytes s hs]
  · rw [writeBase_eq s _ (by omega), base_bytes_ofBytes s hs,
      List.drop_of_length_le (by omega), List.append_nil]

/-- C35 at a header whose type bytes are ff ff (65535, no `MessageType`) and at a
header whose type bytes are 00 00 (`BASE`), each written into a buffer of 28
bytes. -/
theorem readBase_writeBase_lossless_witness :
    (([0xff, 0xff, 1, 2, 3, 4, 5, 6, 7, 8, 9, 10, 11, 12, 13, 14, 15, 16, 17, 18, 19, 20, 21,
        22, 23, 24] : List Byte).length = 26
      ∧ 26 ≤ (List.replicate 28 (0 : Byte)).length
      ∧ (readBase [0xff, 0xff, 1, 2, 3, 4, 5, 6, 7, 8, 9, 10, 11, 12, 13, 14, 15, 16, 17, 18,
          19, 20, 21, 22, 23, 24]).map (fun b => b.type) = .ok 65535
      ∧ ∃ b,
          readBase [0xff, 0xff, 1, 2, 3, 4, 5, 6, 7, 8, 9, 10, 11, 12, 13, 14, 15, 16, 17, 18,
            19, 20, 21, 22, 23, 24] = .ok b
          ∧ b.type
              = byteAt [0xff, 0xff, 1, 2, 3, 4, 5, 6, 7, 8, 9, 10, 11, 12, 13, 14, 15, 16, 17,
                  18, 19, 20, 21, 22, 23, 24] 0
                + 256 * byteAt [0xff, 0xff, 1, 2, 3, 4, 5, 6, 7, 8, 9, 10, 11, 12, 13, 14, 15,
                  16, 17, 18, 19, 20, 21, 22, 23, 24] 1
          ∧ writeBase (List.replicate 28 0) b
              = .ok (([0xff, 0xff, 1, 2, 3, 4, 5, 6, 7, 8, 9, 10, 11, 12, 13, 14, 15, 16, 17,
                  18, 19, 20, 21, 22, 23, 24] : List Byte) ++ (List.replicate 28 0).drop 26)
          ∧ writeBase [0xff, 0xff, 1, 2, 3, 4, 5, 6, 7, 8, 9, 10, 11, 12, 13, 14, 15, 16, 17,
                18, 19, 20, 21, 22, 23, 24] b
              = .ok [0xff, 0xff, 1, 2, 3, 4, 5, 6, 7, 8, 9, 10, 11, 12, 13, 14, 15, 16, 17, 18,
                  19, 20, 21, 22, 23, 24])
    ∧ ((readBase (List.replicate 26 0)).map (fun b => b.type) = .ok MessageType.BASE
      ∧ ∃ b, readBase (List.replicate 26 0) = .ok b
          ∧ b.type = byteAt (List.replicate 26 0) 0 + 256 * byteAt (List.replicate 26 0) 1
          ∧ writeBase (List.replicate 28 0) b
              = .ok (List.replicate 26 0 ++ (List.replicate 28 0).drop 26)
          ∧ writeBase (List.replicate 26 0) b = .ok (List.replicate 26 0)) :=
  ⟨⟨by decide, by decide, by decide,
      readBase_writeBase_lossless
        [0xff, 0xff, 1, 2, 3, 4, 5, 6, 7, 8, 9, 10, 11, 12, 13, 14, 15, 16, 17, 18, 19, 20,
         21, 22, 23, 24]
        (List.replicate 28 0) (by decide) (by decide)⟩,
    ⟨by decide,
      readBase_writeBase_lossless (List.replicate 26 0) (List.replicate 28 0) (by decide)
        (by decide)⟩⟩

/-- C36: the length members the constructors set, for data whose lengths are below
`2 ^ 32`.
* `CodecHeader(c, p)` has codecSize `|c|` and size `|p|`, and its two views cover
  `c` and `p`.
* `JsonMessage(p)`, the constructor of `Hello`, `ServerSettings` and `ClientInfo`,
  has size `|p|` and a view that covers `p`.
* `WireChunk(p)` has size `|p|`, timestamp `{0, 0}` and a view that covers `p`.
* `Error(ec, s, m)` has errorCode `ec`, errorSize `|s|` and errorMessageSize
  `|m|`, and its two views cover `s` and `m`.
* The codec "test" with the 7-byte payload "testing" gives 4 and 7. -/
theorem constructors_set_lengths :
    (∀ (c p : List Byte), c.length < 2 ^ 32 → p.length < 2 ^ 32 →
      (CodecHeader.ofParts c p).codecSize = c.length
        ∧ (CodecHeader.ofParts c p).size = p.length
        ∧ (CodecHeader.ofParts c p).codec.view (CodecHeader.ofParts c p).codecSize = some c
        ∧ (CodecHeader.ofParts c p).payload.view (CodecHeader.ofParts c p).size = some p)
    ∧ (∀ (p : List Byte), p.length < 2 ^ 32 →
      (JsonMessage.ofString p).size = p.length
        ∧ (JsonMessage.ofString p).payload.view (JsonMessage.ofString p).size = some p)
    ∧ (∀ (p : List Byte), p.length < 2 ^ 32 →
      (WireChunk.ofSpan p).size = p.length
        ∧ (WireChunk.ofSpan p).timestamp = { sec := 0, usec := 0 }
        ∧ (WireChunk.ofSpan p).payload.view (WireChunk.ofSpan p).size = some p)
    ∧ (∀ (ec : Nat) (s m : List Byte), s.length < 2 ^ 32 → m.length < 2 ^ 32 →
      (Error.ofParts ec s m).errorCode = ec
        ∧ (Error.ofParts ec s m).errorSize = s.length
        ∧ (Error.ofParts ec s m).errorMessageSize = m.length
        ∧ (Error.ofParts ec s m).error.view (Error.ofParts ec s m).errorSize = some s
        ∧ (Error.ofParts ec s m).errorMessage.view (Error.ofParts ec s m).errorMessageSize
            = some m)
    ∧ (CodecHeader.ofParts [0x74, 0x65, 0x73, 0x74]
          [0x74, 0x65, 0x73, 0x74, 0x69, 0x6e, 0x67]).codecSize = 4
    ∧ (CodecHeader.ofParts [0x74, 0x65, 0x73, 0x74]
          [0x74, 0x65, 0x73, 0x74, 0x69, 0x6e, 0x67]).size = 7 := by
  have hview : ∀ d : List Byte, d.length < 2 ^ 32 →
      (Ptr.mk (.array d) 0).view (d.length % 2 ^ 32) = some d := by
    intro d hd
    rw [Nat.mod_eq_of_lt hd]
    simp only [Ptr.view, Nat.zero_add, Nat.le_refl, if_true, List.drop_zero, List.take_length]
  refine ⟨fun c p hc hp => ⟨Nat.mod_eq_of_lt hc, Nat.mod_eq_of_lt hp, hview c hc, hview p hp⟩,
    fun p hp => ⟨Nat.mod_eq_of_lt hp, hview p hp⟩,
    fun p hp => ⟨Nat.mod_eq_of_lt hp, rfl, hview p hp⟩,
    fun ec s m hs hm =>
      ⟨rfl, Nat.mod_eq_of_lt hs, Nat.mod_eq_of_lt hm, hview s hs, hview m hm⟩,
    by decide, by decide⟩

/-- C36 at the values of `testConvCodecHeader`, the codec "test" with the payload
"testing", and at the error 8 with the strings "test" and "testing". -/
theorem constructors_set_lengths_witness :
    ((CodecHeader.ofParts [0x74, 0x65, 0x73, 0x74]
          [0x74, 0x65, 0x73, 0x74, 0x69, 0x6e, 0x67]).codecSize
        = ([0x74, 0x65, 0x73, 0x74] : List Byte).length
      ∧ (CodecHeader.ofParts [0x74, 0x65, 0x73, 0x74]
          [0x74, 0x65, 0x73, 0x74, 0x69, 0x6e, 0x67]).size
        = ([0x74, 0x65, 0x73, 0x74, 0x69, 0x6e, 0x67] : List Byte).length
      ∧ (CodecHeader.ofParts [0x74, 0x65, 0x73, 0x74]
          [0x74, 0x65, 0x73, 0x74, 0x69, 0x6e, 0x67]).codec.view
            (CodecHeader.ofParts [0x74, 0x65, 0x73, 0x74]
              [0x74, 0x65, 0x73, 0x74, 0x69, 0x6e, 0x67]).codecSize
          = some [0x74, 0x65, 0x73, 0x74]
      ∧ (CodecHeader.ofParts [0x74, 0x65, 0x73, 0x74]
          [0x74, 0x65, 0x73, 0x74, 0x69, 0x6e, 0x67]).payload.view
            (CodecHeader.ofParts [0x74, 0x65, 0x73, 0x74]
              [0x74, 0x65, 0x73, 0x74, 0x69, 0x6e, 0x67]).size
          = some [0x74, 0x65, 0x73, 0x74, 0x69, 0x6e, 0x67])
    ∧ ((Error.ofParts 8 [0x74, 0x65, 0x73, 0x74]
          [0x74, 0x65, 0x73, 0x74, 0x69, 0x6e, 0x67]).errorCode = 8
      ∧ (Error.ofParts 8 [0x74, 0x65, 0x73, 0x74]
          [0x74, 0x65, 0x73, 0x74, 0x69, 0x6e, 0x67]).errorSize
        = ([0x74, 0x65, 0x73, 0x74] : List Byte).length
      ∧ (Error.ofParts 8 [0x74, 0x65, 0x73, 0x74]
          [0x74, 0x65, 0x73, 0x74, 0x69, 0x6e, 0x67]).errorMessageSize
        = ([0x74, 0x65, 0x73, 0x74, 0x69, 0x6e, 0x67] : List Byte).length
      ∧ (Error.ofParts 8 [0x74, 0x65, 0x73, 0x74]
          [0x74, 0x65, 0x73, 0x74, 0x69, 0x6e, 0x67]).error.view
            (Error.ofParts 8 [0x74, 0x65, 0x73, 0x74]
              [0x74, 0x65, 0x73, 0x74, 0x69, 0x6e, 0x67]).errorSize
          = some [0x74, 0x65, 0x73, 0x74]
      ∧ (Error.ofParts 8 [0x74, 0x65, 0x73, 0x74]
          [0x74, 0x65, 0x73, 0x74, 0x69, 0x6e, 0x67]).errorMessage.view
            (Error.ofParts 8 [0x74, 0x65, 0x73, 0x74]
              [0x74, 0x65, 0x73, 0x74, 0x69, 0x6e, 0x67]).errorMessageSize
          = some [0x74, 0x65, 0x73, 0x74, 0x69, 0x6e, 0x67]) :=
  ⟨constructors_set_lengths.1 [0x74, 0x65, 0x73, 0x74]
      [0x74, 0x65, 0x73, 0x74, 0x69, 0x6e, 0x67] (by decide) (by decide),
    constructors_set_lengths.2.2.2.1 8 [0x74, 0x65, 0x73, 0x74]
      [0x74, 0x65, 0x73, 0x74, 0x69, 0x6e, 0x67] (by decide) (by decide)⟩

/-- C33, as stated, fails in its "exactly when": with the JSON text `{}` and a
buffer of 34 bytes, which is `2 * 2 + 30`, `sendJson` builds the frame and hands
it to the transport, and when that write completes with `no_buffer_space`,
`sendJson` returns `no_buffer_space`. -/
theorem sendJson_layout_counterexample :
    ¬ ((List.replicate 34 (0 : Byte)).length
        < 2 * ([[0x7b, 0x7d]] : List (List Byte)).flatten.length + 30)
    ∧ SnapClient.sendJson
        { inData := [], outData := [], readSizes := [], errors := [.no_buffer_space] }
        0 0 MessageType.HELLO [[0x7b, 0x7d]] (List.replicate 34 0)
      = .ok (.error .no_buffer_space,
          [0x7b, 0x7d, 5, 0, 0, 0, 0, 0, 0, 0, 0, 0, 0, 0, 0, 0, 0, 0, 0, 0, 0, 0, 0, 0, 6, 0,
           0, 0, 2, 0, 0, 0, 0x7b, 0x7d],
          { inData := [], outData :=
              [[5, 0, 0, 0, 0, 0, 0, 0, 0, 0, 0, 0, 0, 0, 0, 0, 0, 0, 0, 0, 0, 0, 6, 0, 0, 0,
                2, 0, 0, 0, 0x7b, 0x7d]],
            readSizes := [], errors := [] }) := by
  decide

/-- C33, amended: `sendJson` for a message type `HELLO`, `CLIENT_INFO` or
`SERVER_SETTINGS`, a JSON text of `L` bytes with `L + 4 < 2 ^ 32`, handed out by the
serializer as `chunks`, and a buffer of `B ≥ L` bytes.
* When `B < 2 * L + 30`, it returns `no_buffer_space`; the text is in
  `buffer[0, L)`, the other bytes and the transport are as before.
* When `B ≥ 2 * L + 30`, the text is in `buffer[0, L)` and the frame in
  `buffer[L, 2 * L + 30)`; the bytes from `2 * L + 30` on are as before.  The
  frame, `L + 30` bytes, is what the transport is handed: a header of the given
  type with size `4 + L`, the length `L`, and the text.  `sendJson` returns the
  stamp when the transport write succeeds and the code of the write when it
  fails.
* So it returns `no_buffer_space` with nothing handed to the transport exactly
  when `B < 2 * L + 30`. -/
theorem sendJson_layout (socket : Socket) (now : Int) (id : Nat) (type : MessageType)
    (chunks : List (List Byte)) (buffer : List Byte)
    (htype : type = MessageType.HELLO ∨ type = MessageType.CLIENT_INFO
      ∨ type = MessageType.SERVER_SETTINGS)
    (hle : chunks.flatten.length ≤ buffer.length)
    (h32 : chunks.flatten.length + 4 < 2 ^ 32) :
    (buffer.length < 2 * chunks.flatten.length + 30 →
        SnapClient.sendJson socket now id type chunks buffer
          = .ok (.error .no_buffer_space,
              chunks.flatten ++ buffer.drop chunks.flatten.length, socket))
      ∧ (2 * chunks.flatten.length + 30 ≤ buffer.length →
        ∃ frame header,
          SnapClient.sendJson socket now id type chunks buffer
              = .ok (if socket.nextError.1 ≠ .success then .error socket.nextError.1
                      else .ok (stamp now),
                  chunks.flatten ++ (frame ++ buffer.drop (2 * chunks.flatten.length + 30)),
                  { socket.nextError.2 with outData := socket.outData ++ [frame] })
            ∧ frame.length = chunks.flatten.length + 30
            ∧ readBase frame = .ok header
            ∧ header.type = type ∧ header.size = 4 + chunks.flatten.length
            ∧ u32At frame 26 = chunks.flatten.length
            ∧ frame.drop 30 = chunks.flatten)
      ∧ (SnapClient.sendJson socket now id type chunks buffer
            = .ok (.error .no_buffer_space,
                chunks.flatten ++ buffer.drop chunks.flatten.length, socket)
          ↔ buffer.length < 2 * chunks.flatten.length + 30) := by
  have hsmall : buffer.length < 2 * chunks.flatten.length + 30 →
      SnapClient.sendJson socket now id type chunks buffer
        = .ok (.error .no_buffer_space,
            chunks.flatten ++ buffer.drop chunks.flatten.length, socket) := fun h =>
    sendJson_no_room socket now id type chunks buffer htype hle h32 (by omega)
  have hl : ∀ b : Base, b.bytes.length = 26 := base_bytes_length
  have ht16 : (type : Nat) % 2 ^ 16 = type := by
    rcases htype with rfl | rfl | rfl <;> rfl
  refine ⟨hsmall, fun hge => ?_, ⟨fun heq => ?_, hsmall⟩⟩
  · refine ⟨Base.bytes
          { type := type, id := id, refersTo := 0, sent := stamp now,
            received := { sec := 0, usec := 0 }, size := 4 + chunks.flatten.length }
        ++ (toLE 4 chunks.flatten.length ++ chunks.flatten),
      _, ?_, ?_, readBase_bytes _ _, ?_, ?_, ?_, ?_⟩
    · rw [sendJson_room socket now id type chunks buffer htype h32 hge]
      simp only [List.append_assoc]
    · simp only [List.length_append, hl, toLE_length]
      omega
    · rw [base_ofBytes_bytes_mod]
      exact ht16
    · rw [base_ofBytes_bytes_mod]
      show (4 + chunks.flatten.length) % 2 ^ 32 = 4 + chunks.flatten.length
      exact Nat.mod_eq_of_lt (by omega)
    · unfold u32At
      rw [List.drop_left' (hl _), List.take_left' (toLE_length 4 _),
        fromLE_toLE4 _ (by omega)]
    · rw [← List.append_assoc,
        List.drop_left' (by simp only [List.length_append, hl, toLE_length])]
  · by_contra hnot
    rw [sendJson_room socket now id type chunks buffer htype h32 (by omega)] at heq
    have h3 := congrArg (fun x => x.2.2.outData.length) (Except.ok.inj heq)
    simp only [List.length_append, List.length_singleton] at h3
    omega

/-- C33 at the JSON text `{"a":1}`, handed out as `{"a"` and `:1}`, sent as a
`CLIENT_INFO` message with id 1 at clock reading 0 with a buffer of 44 bytes,
which is `2 * 7 + 30`, on an idle socket. -/
theorem sendJson_layout_witness :
    ([[0x7b, 0x22, 0x61, 0x22], [0x3a, 0x31, 0x7d]] : List (List Byte)).flatten.length
        ≤ (List.replicate 44 (0 : Byte)).length
      ∧ 2 * ([[0x7b, 0x22, 0x61, 0x22], [0x3a, 0x31, 0x7d]] : List (List Byte)).flatten.length
          + 30 ≤ (List.replicate 44 (0 : Byte)).length
      ∧ SnapClient.sendJson Socket.idle 0 1 MessageType.CLIENT_INFO
            [[0x7b, 0x22, 0x61, 0x22], [0x3a, 0x31, 0x7d]] (List.replicate 44 0)
          = .ok (.ok { sec := 0, usec := 0 },
              [0x7b, 0x22, 0x61, 0x22, 0x3a, 0x31, 0x7d,
               6, 0, 1, 0, 0, 0, 0, 0, 0, 0, 0, 0, 0, 0, 0, 0, 0, 0, 0, 0, 0, 0, 11, 0, 0, 0,
               7, 0, 0, 0, 0x7b, 0x22, 0x61, 0x22, 0x3a, 0x31, 0x7d],
              { inData := [], outData :=
                  [[6, 0, 1, 0, 0, 0, 0, 0, 0, 0, 0, 0, 0, 0, 0, 0, 0, 0, 0, 0, 0, 0, 11, 0, 0,
                    0, 7, 0, 0, 0, 0x7b, 0x22, 0x61, 0x22, 0x3a, 0x31, 0x7d]],
                readSizes := [], errors := [] })
      ∧ ∃ frame header,
          SnapClient.sendJson Socket.idle 0 1 MessageType.CLIENT_INFO
              [[0x7b, 0x22, 0x61, 0x22], [0x3a, 0x31, 0x7d]] (List.replicate 44 0)
            = .ok (if Socket.idle.nextError.1 ≠ .success then .error Socket.idle.nextError.1
                    else .ok (stamp 0),
                ([[0x7b, 0x22, 0x61, 0x22], [0x3a, 0x31, 0x7d]] : List (List Byte)).flatten
                  ++ (frame ++ (List.replicate 44 0).drop
                    (2 * ([[0x7b, 0x22, 0x61, 0x22], [0x3a, 0x31, 0x7d]]
                      : List (List Byte)).flatten.length + 30)),
                { Socket.idle.nextError.2 with outData := Socket.idle.outData ++ [frame] })
          ∧ frame.length
              = ([[0x7b, 0x22, 0x61, 0x22], [0x3a, 0x31, 0x7d]]
                  : List (List Byte)).flatten.length + 30
          ∧ readBase frame = .ok header
          ∧ header.type = MessageType.CLIENT_INFO
          ∧ header.size
              = 4 + ([[0x7b, 0x22, 0x61, 0x22], [0x3a, 0x31, 0x7d]]
                  : List (List Byte)).flatten.length
          ∧ u32At frame 26
              = ([[0x7b, 0x22, 0x61, 0x22], [0x3a, 0x31, 0x7d]]
                  : List (List Byte)).flatten.length
          ∧ frame.drop 30
              = ([[0x7b, 0x22, 0x61, 0x22], [0x3a, 0x31, 0x7d]] : List (List Byte)).flatten :=
  ⟨by decide, by decide, by decide,
    (sendJson_layout Socket.idle 0 1 MessageType.CLIENT_INFO
      [[0x7b, 0x22, 0x61, 0x22], [0x3a, 0x31, 0x7d]] (List.replicate 44 0)
      (Or.inr (Or.inl rfl)) (by decide) (by decide)).2.1 (by decide)⟩

/-- C37: what `snapcastpp::SnapClient::doHandshake` puts on the connection and in
which order, for every clock reading and every JSON text of the hello object.
* The `send` it awaits first, of `Hello` with id 0 and that text, stamps the
  message and gives `async_send` a buffer of no bytes: no byte of the `Hello`
  goes to the connection.
* With that call completed and two reads completed, whatever the code, the
  count and the messages, the calls made on the socket are that `async_send` of
  no bytes and two `async_receive`, in this order, and the coroutine has
  returned.
* While the send has not completed, the completion of a read resumes nothing:
  no read has been performed.  Once it has returned, it makes no further call.
* Whatever completions arrive, the calls made are a prefix of those three:
  never a receive before the send, never more than two receives.
* For the hello text "{}" at clock reading 1000001: the stamp is `{1, 1}` and
  the buffer sent is empty, not the four length bytes and the two characters. -/
theorem doHandshake_send_then_two_reads :
    (∀ (now : Int) (helloJson : List Byte),
      Snapcastpp.SnapClient.send now (.Hello 0 helloJson) = (stamp now, .asyncSend []))
    ∧ (∀ (now : Int) (helloJson : List Byte) (ec : ErrorCode) (bytesSent : Nat)
        (first second : Snapcastpp.Message),
      Snapcastpp.SnapClient.calls now helloJson .sendHello
          [.sent ec bytesSent, .received first, .received second]
        = ([.asyncSend [], .asyncReceive 0, .asyncReceive 0], .returned))
    ∧ (∀ (now : Int) (helloJson : List Byte) (msg : Snapcastpp.Message),
      Snapcastpp.SnapClient.calls now helloJson .sendHello [.received msg] = ([], .sendHello))
    ∧ (∀ (now : Int) (helloJson : List Byte) (completions : List Snapcastpp.Completion),
      Snapcastpp.SnapClient.calls now helloJson .returned completions = ([], .returned))
    ∧ (∀ (now : Int) (helloJson : List Byte) (completions : List Snapcastpp.Completion),
      (Snapcastpp.SnapClient.calls now helloJson .sendHello completions).1
        <+: [.asyncSend [], .asyncReceive 0, .asyncReceive 0])
    ∧ Snapcastpp.SnapClient.send 1000001 (.Hello 0 [0x7b, 0x7d])
        = ({ sec := 1, usec := 1 }, .asyncSend [])
    ∧ Snapcastpp.SocketCall.asyncSend []
        ≠ Snapcastpp.SocketCall.asyncSend [0x02, 0x00, 0x00, 0x00, 0x7b, 0x7d] :=
  ⟨fun _ _ => rfl, fun _ _ _ _ _ _ => rfl, fun _ _ _ => rfl,
    fun now helloJson completions => calls_returned now helloJson completions,
    fun now helloJson completions => calls_sendHello now helloJson completions,
    by decide, by decide⟩

/-- C37 at the hello text "{}" and clock reading 0, with the send completing with
success and 0 bytes and both reads returning `ServerSettings{1, ""}`. -/
theorem doHandshake_send_then_two_reads_witness :
    Snapcastpp.SnapClient.calls 0 [0x7b, 0x7d] .sendHello
        [.sent .success 0, .received (.ServerSettings 1 []), .received (.ServerSettings 1 [])]
      = ([.asyncSend [], .asyncReceive 0, .asyncReceive 0], .returned) :=
  doHandshake_send_then_two_reads.2.1 0 [0x7b, 0x7d] .success 0 (.ServerSettings 1 [])
    (.ServerSettings 1 [])

/-- C38, as stated, fails: the size a `snapcastpp` constructor sets counts the
header.  `Hello(0, "testing")` has size 37, not `4 + 7`; `TimeMessage(0)` has
size 34, not 8; `WireChunk(0, de ad be ef)` has size 42, not `12 + 4`.  The sizes
`SnapClient::send` of BrilliantSnapcast computes for the same payloads are 11, 8
and 16. -/
theorem snapcastpp_size_counterexample :
    (Snapcastpp.Message.Hello 0 [0x74, 0x65, 0x73, 0x74, 0x69, 0x6e, 0x67]).base.size = 37
    ∧ (Snapcastpp.Message.TimeMessage 0).base.size = 34
    ∧ (Snapcastpp.Message.WireChunk 0 [0xde, 0xad, 0xbe, 0xef]).base.size = 42
    ∧ (SnapClient.makeBase 0 0
        (.Hello (JsonMessage.ofString [0x74, 0x65, 0x73, 0x74, 0x69, 0x6e, 0x67]))).map
          (fun r => r.1.size) = .ok 11
    ∧ (SnapClient.makeBase 0 0 (.Time { sec := 0, usec := 0 })).map (fun r => r.1.size)
        = .ok 8
    ∧ (SnapClient.makeBase 0 0
        (.WireChunk (WireChunk.ofSpan [0xde, 0xad, 0xbe, 0xef]))).map (fun r => r.1.size)
        = .ok 16 := by
  decide

/-- C38, amended: in the `snapcastpp` message model the header size of a
constructed message is 26, the size of the header, plus the byte length of the
body: `26 + 4 + |payload|` for `Hello`, `ServerSettings` and `ClientInfo`, 34 for
`TimeMessage` and `26 + 12 + |payload|` for `WireChunk`, for every id and every
payload with `|payload| + 38 < 2 ^ 32`.  That is 26 more than the size
`SnapClient::send` of BrilliantSnapcast computes for the same payload, at every
clock reading. -/
theorem snapcastpp_size_includes_header (id : Nat) (payload : List Byte) (now : Int)
    (h : payload.length + 38 < 2 ^ 32) :
    (Snapcastpp.Message.Hello id payload).base.size = 26 + (4 + payload.length)
      ∧ (Snapcastpp.Message.ServerSettings id payload).base.size = 26 + (4 + payload.length)
      ∧ (Snapcastpp.Message.ClientInfo id payload).base.size = 26 + (4 + payload.length)
      ∧ (Snapcastpp.Message.TimeMessage id).base.size = 26 + 8
      ∧ (Snapcastpp.Message.WireChunk id payload).base.size = 26 + (12 + payload.length)
      ∧ (SnapClient.makeBase now id (.Hello (JsonMessage.ofString payload))).map
            (fun r => 26 + r.1.size)
          = .ok (Snapcastpp.Message.Hello id payload).base.size
      ∧ (SnapClient.makeBase now id (.ServerSettings (JsonMessage.ofString payload))).map
            (fun r => 26 + r.1.size)
          = .ok (Snapcastpp.Message.ServerSettings id payload).base.size
      ∧ (SnapClient.makeBase now id (.ClientInfo (JsonMessage.ofString payload))).map
            (fun r => 26 + r.1.size)
          = .ok (Snapcastpp.Message.ClientInfo id payload).base.size
      ∧ (SnapClient.makeBase now id (.Time { sec := 0, usec := 0 })).map
            (fun r => 26 + r.1.size)
          = .ok (Snapcastpp.Message.TimeMessage id).base.size
      ∧ (SnapClient.makeBase now id (.WireChunk (WireChunk.ofSpan payload))).map
            (fun r => 26 + r.1.size)
          = .ok (Snapcastpp.Message.WireChunk id payload).base.size := by
  have h1 : (26 + 4 + payload.length) % 2 ^ 32 = 26 + (4 + payload.length) := by
    rw [Nat.mod_eq_of_lt (by omega)]; omega
  have h2 : (26 + 8 + 4 + payload.length) % 2 ^ 32 = 26 + (12 + payload.length) := by
    rw [Nat.mod_eq_of_lt (by omega)]; omega
  have h3 : (4 + payload.length % 2 ^ 32) % 2 ^ 32 = 4 + payload.length := by
    rw [Nat.mod_eq_of_lt (a := payload.length) (by omega), Nat.mod_eq_of_lt (by omega)]
  have h4 : (8 + 4 + payload.length % 2 ^ 32) % 2 ^ 32 = 12 + payload.length := by
    rw [Nat.mod_eq_of_lt (a := payload.length) (by omega), Nat.mod_eq_of_lt (by omega)]
  refine ⟨h1, h1, h1, rfl, h2, ?_, ?_, ?_, rfl, ?_⟩
  · show Except.ok (26 + (4 + payload.length % 2 ^ 32) % 2 ^ 32)
      = Except.ok ((26 + 4 + payload.length) % 2 ^ 32)
    rw [h1, h3]
  · show Except.ok (26 + (4 + payload.length % 2 ^ 32) % 2 ^ 32)
      = Except.ok ((26 + 4 + payload.length) % 2 ^ 32)
    rw [h1, h3]
  · show Except.ok (26 + (4 + payload.length % 2 ^ 32) % 2 ^ 32)
      = Except.ok ((26 + 4 + payload.length) % 2 ^ 32)
    rw [h1, h3]
  · show Except.ok (26 + (8 + 4 + payload.length % 2 ^ 32) % 2 ^ 32)
      = Except.ok ((26 + 8 + 4 + payload.length) % 2 ^ 32)
    rw [h2, h4]

/-- C38 at id 0, the payload "testing" and the clock reading 0. -/
theorem snapcastpp_size_includes_header_witness :
    ([0x74, 0x65, 0x73, 0x74, 0x69, 0x6e, 0x67] : List Byte).length + 38 < 2 ^ 32
      ∧ (Snapcastpp.Message.Hello 0 [0x74, 0x65, 0x73, 0x74, 0x69, 0x6e, 0x67]).base.size
          = 26 + (4 + ([0x74, 0x65, 0x73, 0x74, 0x69, 0x6e, 0x67] : List Byte).length) :=
  ⟨by decide,
    (snapcastpp_size_includes_header 0 [0x74, 0x65, 0x73, 0x74, 0x69, 0x6e, 0x67] 0
      (by decide)).1⟩

end Snapcast
